import Mathlib

/-!
# CallTracker: the call ledger and the identity directory

A shallow embedding of `internal/db` (the SQLite-backed store and its queries)
and of the caller layer `app.go`, followed by theorems about them.

The store is the list of rows of each table of `createTables`; every SQL
statement of the package is a function on that record.  Text is Lean's
`String`, read character by character (SQLite's `LENGTH`, `SUBSTR` and `LIKE`
work on characters).  Go's `int` and SQLite's `INTEGER` are `Int`: no value
computed here comes near the 64-bit range except the edit window, where the
wrap-around is written out.

SQLite and its Go driver are not part of the repository.  What they decide and
the package's reads depend on (which stored time text is read back as a
`time.Time`, and the order among rows with equal `ORDER BY` keys) is the
record `Engine`, a parameter of every function that reads times or ordered
rows.
-/

namespace CallTracker

/-! ## Errors -/

/-- What `database/sql` and SQLite report to the package. -/
inductive DbError where
  /-- The sentinel `sql.ErrNoRows`: `QueryRow(...).Scan` found no row. -/
  | ErrNoRows
  /-- SQLite refuses to prepare a statement that names a column the table
  does not have. -/
  | noSuchColumn (table column : String)
  /-- A `FOREIGN KEY` constraint failed (the connection is opened with
  `foreign_keys(1)`). -/
  | foreignKey (table : String)
  /-- A `UNIQUE` constraint failed. -/
  | uniqueConstraint (table : String)
  /-- The `Scan` of a NULL column into a Go `string`. -/
  | scanNull (column : String)
  /-- The `Scan` of a `DATE` or `DATETIME` column into a `time.Time` or an
  `sql.NullTime`, when the column holds text that the driver could not read
  as a time and hands on as a string. -/
  | scanTime (column : String)
  /-- SQLite refuses to prepare a statement that names a table the database
  file does not have. -/
  | noSuchTable (table : String)
  deriving DecidableEq, Repr

deriving instance DecidableEq for Except

/-! ## Text: Go's `fmt` verbs and SQLite's scalar functions -/

/-- The verb `%d` of `fmt.Sprintf` on an integer: a minus sign for negative
values, then the decimal digits. -/
def sprintfD (x : Int) : List Char :=
  if x < 0 then '-' :: Nat.toDigits 10 x.natAbs else Nat.toDigits 10 x.natAbs

/-- The verb `%03d` of `fmt.Sprintf`: width three, padded with zeros; the sign
of a negative value counts in the width and stands before the zeros. -/
def sprintf03d (x : Int) : List Char :=
  let ds := Nat.toDigits 10 x.natAbs
  if x < 0 then '-' :: (List.replicate (2 - ds.length) '0' ++ ds)
  else List.replicate (3 - ds.length) '0' ++ ds

/-- ASCII upper-casing, the only case folding SQLite's `LIKE` does. -/
def likeFold (c : Char) : Char :=
  if 'a'.toNat ≤ c.toNat ∧ c.toNat ≤ 'z'.toNat then Char.ofNat (c.toNat - 32) else c

/-- SQLite's `str LIKE pat` (no `ESCAPE`): `%` matches any run of characters,
`_` any one character, every other character itself up to ASCII case. -/
def likeMatch : List Char → List Char → Bool
  | [], s => s.isEmpty
  | c :: p, s =>
    if c = '%' then s.tails.any (fun t => likeMatch p t)
    else
      match s with
      | [] => false
      | d :: s' => (c = '_' || likeFold c = likeFold d) && likeMatch p s'

/-- The value of a decimal digit character. -/
def digitVal (c : Char) : Nat := c.toNat - '0'.toNat

/-- The number written by a run of decimal digits (0 for the empty run). -/
def digitsVal (ds : List Char) : Nat :=
  ds.foldl (fun acc c => acc * 10 + digitVal c) 0

/-- The white space SQLite skips in front of a number. -/
def sqliteIsSpace (c : Char) : Bool :=
  c = ' ' || (9 ≤ c.toNat && c.toNat ≤ 13)

/-- SQLite's `CAST(text AS INTEGER)`: leading white space is skipped, then the
longest prefix that reads as an integer (an optional sign and digits) is the
value; 0 when there is none.  The texts cast in this package have at most three
characters, so the 64-bit clamp never applies. -/
def castInteger (t : List Char) : Int :=
  match t.dropWhile sqliteIsSpace with
  | '-' :: r => - (digitsVal (r.takeWhile Char.isDigit) : Int)
  | '+' :: r => (digitsVal (r.takeWhile Char.isDigit) : Int)
  | r => (digitsVal (r.takeWhile Char.isDigit) : Int)

/-- SQLite's `COALESCE(MAX(...), 0)` over the selected rows: the largest
value, 0 when no row is selected. -/
def coalesceMax : List Int → Int
  | [] => 0
  | x :: xs => xs.foldl max x

/-- The order of SQLite's default `BINARY` collation on text, which on UTF-8
is the order of the code points. -/
def textLe : List Char → List Char → Bool
  | [], _ => true
  | _ :: _, [] => false
  | a :: as, b :: bs => a.toNat < b.toNat || (a.toNat = b.toNat && textLe as bs)

/-! ## Time -/

/-- Go's `time.Time`, reduced to the observations the package and the driver
make of it: the calendar year (`Year()`), the instant, in nanoseconds since the
Unix epoch (`time.Since`, and the order of `created_at`), and the abbreviation
of its zone as `Time.String` prints it, which is part of the text the driver
stores for the value: `UTC` for a UTC time, and the offset itself, such as
`+0100`, for a fixed zone without a name. -/
structure Time where
  Year : Int
  UnixNano : Int
  Zone : String := "UTC"
  deriving DecidableEq, Repr

/-- The zero `time.Time`, January 1 of year 1. -/
def Time.zero : Time := { Year := 1, UnixNano := -62135596800000000000 }

/-! ## The database engine and its driver

SQLite and the driver `modernc.org/sqlite` are not part of the repository.
What the package's statements depend on, and what no file of the repository
fixes, is gathered in one record, which every reading function takes as a
parameter: the theorems hold for every such record. -/

/-- SQLite with its Go driver, as far as the package's reads depend on it. -/
structure Engine where
  /-- Whether the driver reads back as a `time.Time` the text that it stored
  for the `time.Time` `t`.  It stores the text of `Time.String`, and on a read
  of a `DATE` or `DATETIME` column tries a fixed list of layouts on the text;
  text that none of them reads is handed on as a string. -/
  readsBack : Time → Bool
  /-- A UTC time of a year from 0 to 9999 is read back. -/
  readsBack_utc : ∀ t : Time, t.Zone = "UTC" → 0 ≤ t.Year → t.Year ≤ 9999 →
    readsBack t = true
  /-- A time in a fixed zone without a name, one hour east of UTC, is stored
  with the zone printed as `+0100`, which no layout of the driver reads. -/
  readsBack_unnamed : ∀ t : Time, t.Zone = "+0100" → readsBack t = false
  /-- The time that the driver reads from text stored in column `joined_date`,
  given by the text that `Time.String` prints for that time; `none` for text
  that no layout of the driver reads. -/
  readTime : String → Option String
  /-- The empty text is not read as a time. -/
  readTime_empty : readTime "" = none
  /-- The rows of a `SELECT ... ORDER BY`: SQLite returns them in an order of
  its choice among those sorted by the key. -/
  orderBy : {α : Type} → (r : α → α → Prop) → [DecidableRel r] → List α → List α
  /-- The ordered result holds the selected rows, each as often as selected. -/
  orderBy_perm : ∀ {α : Type} (r : α → α → Prop) [DecidableRel r] (l : List α),
    (orderBy r l).Perm l
  /-- The ordered result is sorted when the key's order is total and
  transitive. -/
  orderBy_sorted : ∀ {α : Type} (r : α → α → Prop) [DecidableRel r] (l : List α),
    (∀ a b, r a b ∨ r b a) → (∀ a b c, r a b → r b c → r a c) →
    List.Sorted r (orderBy r l)

/-! ## models.go -/

/-- The Go struct `User`.  The `*time.Time` of `JoinedDate` is only ever
passed from a read to a write; it is given by the text that `Time.String`
prints for it, which is the text the driver stores for it. -/
structure User where
  ID : Int
  FirstName : String
  LastName : String
  Position : String
  EMSLevel : String
  IsAdmin : Bool
  PIN : String
  Active : Bool
  JoinedDate : Option String
  Created : Time
  deriving DecidableEq, Repr

/-- The Go struct `Picklist`; also a row of table `picklists`, whose columns
are all `NOT NULL`. -/
structure Picklist where
  ID : Int
  Category : String
  Value : String
  SortOrder : Int
  Active : Bool
  deriving DecidableEq, Repr

/-- The Go struct `Call`; also a row of table `calls`: every column is
written from and scanned into the field of the same name. -/
structure Call where
  ID : Int
  IncidentNumber : String
  CallType : String
  MutualAid : String
  Address : String
  Town : String
  LocationNotes : String
  Dispatched : Time
  Enroute : Option Time
  OnScene : Option Time
  Clear : Option Time
  Narrative : String
  CreatedBy : Int
  CreatedAt : Time
  UpdatedAt : Time
  deriving DecidableEq, Repr

/-- The Go struct `CallApparatus`, a row of table `call_apparatus`. -/
structure CallApparatus where
  ID : Int
  CallID : Int
  ApparatusID : Int
  deriving DecidableEq, Repr

/-- The Go struct `CallResponder`, a row of table `call_responders`. -/
structure CallResponder where
  ID : Int
  CallID : Int
  ResponderID : Int
  ResponderRole : String
  deriving DecidableEq, Repr

/-- The Go struct `Setting`, a row of table `settings`. -/
structure Setting where
  Key : String
  Value : String
  deriving DecidableEq, Repr

/-! ## db.go: the schema -/

/-- A row of table `users` as `createTables` declares it.  The columns
without `NOT NULL` (`ems_level`, `pin`, `joined_date`) may hold NULL.  There
is no other column: in particular the table has no column `role`. -/
structure UserRow where
  id : Int
  first_name : String
  last_name : String
  position : String
  ems_level : Option String
  is_admin : Bool
  pin : Option String
  active : Bool
  joined_date : Option String
  created : Time
  deriving DecidableEq, Repr

/-- The text columns of table `users` by name, as a statement that selects or
tests one resolves them; `none` for a name the table does not declare, on
which SQLite fails to prepare the statement. -/
def usersTextColumn (name : String) : Option (UserRow → Option String) :=
  if name = "first_name" then some (fun u => some u.first_name)
  else if name = "last_name" then some (fun u => some u.last_name)
  else if name = "position" then some (fun u => some u.position)
  else if name = "ems_level" then some (fun u => u.ems_level)
  else if name = "pin" then some (fun u => u.pin)
  else if name = "joined_date" then some (fun u => u.joined_date)
  else none

/-- The database: the rows of each table, in insertion order, and for each
`AUTOINCREMENT` key the largest id handed out so far (`sqlite_sequence`).
Tables `form_fields` and `audit_log` are left out: the package reads neither,
and writes the first only with the fixed seed rows. -/
structure Store where
  users : List UserRow
  picklists : List Picklist
  calls : List Call
  call_apparatus : List CallApparatus
  call_responders : List CallResponder
  settings : List Setting
  seq_users : Nat
  seq_picklists : Nat
  seq_calls : Nat
  seq_call_apparatus : Nat
  seq_call_responders : Nat
  deriving DecidableEq, Repr

/-- The database right after `createTables` on a new file. -/
def Store.empty : Store :=
  { users := [], picklists := [], calls := [], call_apparatus := [],
    call_responders := [], settings := [],
    seq_users := 0, seq_picklists := 0, seq_calls := 0,
    seq_call_apparatus := 0, seq_call_responders := 0 }

/-! ## Statements shared by several queries -/

/-- The statement `SELECT <column> FROM users WHERE id = ?` scanned into a Go
`string` by `QueryRow(...).Scan`. -/
def selectUsersText (db : Store) (column : String) (id : Int) : Except DbError String :=
  match usersTextColumn column with
  | none => .error (.noSuchColumn "users" column)
  | some col =>
    match db.users.find? (fun u => u.id = id) with
    | none => .error .ErrNoRows
    | some u =>
      match col u with
      | none => .error (.scanNull column)
      | some v => .ok v

/-- The statement `SELECT value FROM settings WHERE key = ?` scanned by
`QueryRow(...).Scan`. -/
def selectSetting (db : Store) (key : String) : Except DbError String :=
  match db.settings.find? (fun r => r.Key = key) with
  | none => .error .ErrNoRows
  | some r => .ok r.Value

/-- The statement `INSERT INTO calls (incident_number, ..., created_by)`:
`created_by` must reference a user; the id is the next of the sequence and
`created_at`, `updated_at` take their default `CURRENT_TIMESTAMP`.  Returns
the new state and `LastInsertId`. -/
def insertCall (tx : Store) (now : Time) (call : Call) : Except DbError (Store × Int) :=
  if tx.users.any (fun u => u.id = call.CreatedBy) then
    let id : Int := (tx.seq_calls : Int) + 1
    .ok ({ tx with
            calls := tx.calls ++ [{ call with ID := id, CreatedAt := now, UpdatedAt := now }],
            seq_calls := tx.seq_calls + 1 }, id)
  else .error (.foreignKey "calls")

/-- The statement `INSERT INTO call_apparatus (call_id, apparatus_id)`, under
`UNIQUE(call_id, apparatus_id)` and the two foreign keys. -/
def insertCallApparatus (tx : Store) (callID apparatusID : Int) : Except DbError Store :=
  if tx.call_apparatus.any (fun r => r.CallID = callID ∧ r.ApparatusID = apparatusID) then
    .error (.uniqueConstraint "call_apparatus")
  else if ¬ tx.calls.any (fun c => c.ID = callID) then .error (.foreignKey "call_apparatus")
  else if ¬ tx.picklists.any (fun p => p.ID = apparatusID) then
    .error (.foreignKey "call_apparatus")
  else
    .ok { tx with
          call_apparatus := tx.call_apparatus ++
            [{ ID := (tx.seq_call_apparatus : Int) + 1, CallID := callID,
               ApparatusID := apparatusID }],
          seq_call_apparatus := tx.seq_call_apparatus + 1 }

/-- The statement `INSERT INTO call_responders (call_id, responder_id,
responder_role)`, under `UNIQUE(call_id, responder_id)` and the two foreign
keys. -/
def insertCallResponder (tx : Store) (callID responderID : Int) (role : String) :
    Except DbError Store :=
  if tx.call_responders.any (fun r => r.CallID = callID ∧ r.ResponderID = responderID) then
    .error (.uniqueConstraint "call_responders")
  else if ¬ tx.calls.any (fun c => c.ID = callID) then .error (.foreignKey "call_responders")
  else if ¬ tx.users.any (fun u => u.id = responderID) then
    .error (.foreignKey "call_responders")
  else
    .ok { tx with
          call_responders := tx.call_responders ++
            [{ ID := (tx.seq_call_responders : Int) + 1, CallID := callID,
               ResponderID := responderID, ResponderRole := role }],
          seq_call_responders := tx.seq_call_responders + 1 }

/-- The loop `for _, apparatusID := range apparatusIDs` of `CreateCall` and
`UpdateCall`: one insert per element, stopping at the first error. -/
def insertApparatusLoop (callID : Int) : List Int → Store → Except DbError Store
  | [], tx => .ok tx
  | apparatusID :: rest, tx =>
    match insertCallApparatus tx callID apparatusID with
    | .error e => .error e
    | .ok tx' => insertApparatusLoop callID rest tx'

/-- The loop `for i, responderID := range responderIDs` of `CreateCall` and
`UpdateCall`, from index `i` on: the role is `responderRoles[i]` when
`i < len(responderRoles)` and the empty string otherwise. -/
def insertRespondersLoop (callID : Int) (responderRoles : List String) :
    Nat → List Int → Store → Except DbError Store
  | _, [], tx => .ok tx
  | i, responderID :: rest, tx =>
    let role := if i < responderRoles.length then responderRoles.getD i "" else ""
    match insertCallResponder tx callID responderID role with
    | .error e => .error e
    | .ok tx' => insertRespondersLoop callID responderRoles (i + 1) rest tx'

/-! ## queries_calls.go -/

/-- `GetNextCallNumber`: among the incident numbers that match
`LIKE <year>- || '%'` and have `LENGTH` 8, the largest
`CAST(SUBSTR(incident_number, 6) AS INTEGER)` (0 when there is none), plus
one, printed with `%s%03d` after the year and a dash. -/
def GetNextCallNumber (db : Store) (year : Int) : Except DbError String :=
  let pfx := sprintfD year ++ ['-']
  let rows := db.calls.filter (fun c =>
    likeMatch (pfx ++ ['%']) c.IncidentNumber.data && c.IncidentNumber.length == 8)
  let maxNumber := coalesceMax (rows.map (fun c => castInteger (c.IncidentNumber.data.drop 5)))
  let nextNumber := maxNumber + 1
  .ok (String.mk (pfx ++ sprintf03d nextNumber))

/-- `CreateCall`, run when `CURRENT_TIMESTAMP` is `now`.  Returns the
database afterwards, the caller's `*Call` afterwards and the error (`none`
for nil).  Every return before `tx.Commit()` runs the deferred
`tx.Rollback()`, which leaves the database as it was at `db.Begin()`. -/
def CreateCall (db : Store) (now : Time) (call : Call) (apparatusIDs responderIDs : List Int)
    (responderRoles : List String) : Store × Call × Option DbError :=
  let tx := db
  let number :=
    if call.IncidentNumber = "" then GetNextCallNumber db call.Dispatched.Year
    else .ok call.IncidentNumber
  match number with
  | .error e => (db, call, some e)
  | .ok incidentNumber =>
    let call := { call with IncidentNumber := incidentNumber }
    match insertCall tx now call with
    | .error e => (db, call, some e)
    | .ok (tx, callID) =>
      let call := { call with ID := callID }
      match insertApparatusLoop callID apparatusIDs tx with
      | .error e => (db, call, some e)
      | .ok tx =>
        match insertRespondersLoop callID responderRoles 0 responderIDs tx with
        | .error e => (db, call, some e)
        | .ok tx => (tx, call, none)

/-- The `ORDER BY p.sort_order, p.value` of `GetCallByID`. -/
def apparatusOrder (p q : Picklist) : Prop :=
  p.SortOrder < q.SortOrder ∨ (p.SortOrder = q.SortOrder ∧ textLe p.Value.data q.Value.data = true)

instance : DecidableRel apparatusOrder := fun p q => by
  unfold apparatusOrder
  exact inferInstance

/-- The `ORDER BY u.last_name, u.first_name` of `GetCallByID`. -/
def responderOrder (u v : User) : Prop :=
  (textLe u.LastName.data v.LastName.data = true ∧ u.LastName ≠ v.LastName) ∨
    (u.LastName = v.LastName ∧ textLe u.FirstName.data v.FirstName.data = true)

instance : DecidableRel responderOrder := fun u v => by
  unfold responderOrder
  exact inferInstance

/-- The columns `GetCallByID` scans from a joined `users` row: id, names,
position, active and created; the other fields of the `User` stay zero. -/
def responderOfRow (u : UserRow) : User :=
  { ID := u.id, FirstName := u.first_name, LastName := u.last_name, Position := u.position,
    EMSLevel := "", IsAdmin := false, PIN := "", Active := u.active, JoinedDate := none,
    Created := u.created }

/-- The `Scan` of a row of `calls` into a `Call`.  The columns `dispatched`,
`enroute`, `on_scene` and `clear` hold the text the driver stored for the
`time.Time` of the caller; the first of them, in the order of the column list,
that the driver does not read back as a time fails the `Scan` (a NULL in one of
the last three is scanned into a nil pointer).  `created_at` and `updated_at`
hold the text of `CURRENT_TIMESTAMP`, which the driver reads. -/
def scanCall (e : Engine) (c : Call) : Except DbError Call :=
  if e.readsBack c.Dispatched = false then .error (.scanTime "dispatched")
  else if c.Enroute.any (fun t => e.readsBack t = false) then .error (.scanTime "enroute")
  else if c.OnScene.any (fun t => e.readsBack t = false) then .error (.scanTime "on_scene")
  else if c.Clear.any (fun t => e.readsBack t = false) then .error (.scanTime "clear")
  else .ok c

/-- The rows of `call_apparatus JOIN picklists ... WHERE ca.call_id = ?`,
before the `ORDER BY`. -/
def apparatusJoin (db : Store) (id : Int) : List Picklist :=
  (db.call_apparatus.filter (fun ca => ca.CallID = id)).flatMap (fun ca =>
    db.picklists.filter (fun p => ca.ApparatusID = p.ID))

/-- The rows of `call_responders JOIN users ... WHERE cr.call_id = ?`, before
the `ORDER BY`, each scanned into a `User`. -/
def responderJoin (db : Store) (id : Int) : List User :=
  (db.call_responders.filter (fun cr => cr.CallID = id)).flatMap (fun cr =>
    (db.users.filter (fun u => cr.ResponderID = u.id)).map responderOfRow)

/-- `GetCallByID`: the call, its apparatus (`call_apparatus JOIN picklists`)
and its responders (`call_responders JOIN users`), each ordered. -/
def GetCallByID (e : Engine) (db : Store) (id : Int) :
    Except DbError (Call × List Picklist × List User) :=
  match db.calls.find? (fun c => c.ID = id) with
  | none => .error .ErrNoRows
  | some row =>
    match scanCall e row with
    | .error err => .error err
    | .ok call =>
      .ok (call, e.orderBy apparatusOrder (apparatusJoin db id),
        e.orderBy responderOrder (responderJoin db id))

/-- `UpdateCall`, run when `CURRENT_TIMESTAMP` is `now`: the `UPDATE calls`,
the two `DELETE`s and the re-inserts in one transaction; an error rolls
everything back. -/
def UpdateCall (db : Store) (now : Time) (call : Call) (apparatusIDs responderIDs : List Int)
    (responderRoles : List String) : Store × Option DbError :=
  let tx := { db with
    calls := db.calls.map (fun (c : Call) =>
      if c.ID = call.ID then
        { c with
          IncidentNumber := call.IncidentNumber, CallType := call.CallType,
          MutualAid := call.MutualAid, Address := call.Address, Town := call.Town,
          LocationNotes := call.LocationNotes, Dispatched := call.Dispatched,
          Enroute := call.Enroute, OnScene := call.OnScene, Clear := call.Clear,
          Narrative := call.Narrative, UpdatedAt := now }
      else c) }
  let tx := { tx with call_apparatus := tx.call_apparatus.filter (fun r => r.CallID ≠ call.ID) }
  let tx := { tx with call_responders := tx.call_responders.filter (fun r => r.CallID ≠ call.ID) }
  match insertApparatusLoop call.ID apparatusIDs tx with
  | .error e => (db, some e)
  | .ok tx =>
    match insertRespondersLoop call.ID responderRoles 0 responderIDs tx with
    | .error e => (db, some e)
    | .ok tx => (tx, none)

/-- The white space of `fmt`'s scanner (its table `space`). -/
def fmtIsSpace (c : Char) : Bool :=
  (0x09 ≤ c.toNat && c.toNat ≤ 0x0d) || c.toNat = 0x20 || c.toNat = 0x85 || c.toNat = 0xa0 ||
  c.toNat = 0x1680 || (0x2000 ≤ c.toNat && c.toNat ≤ 0x200a) || c.toNat = 0x2028 ||
  c.toNat = 0x2029 || c.toNat = 0x202f || c.toNat = 0x205f || c.toNat = 0x3000

/-- The scanner's `SkipSpace` as `Sscanf` runs it: white space is skipped, a
newline is an error (`none`). -/
def fmtSkipSpace : List Char → Option (List Char)
  | [] => some []
  | c :: r =>
    if c = '\r' ∧ r.head? = some '\n' then fmtSkipSpace r
    else if c = '\n' then none
    else if fmtIsSpace c then fmtSkipSpace r
    else some (c :: r)

/-- What `fmt.Sscanf(s, "%d", &minutes)` leaves in `minutes`, which starts at
0: after the white space an optional sign and the longest run of decimal
digits are read (what follows them is left unread), and the token is stored
when `strconv.ParseInt(tok, 10, 64)` accepts it (at least one digit, within
64 bits); on any error `minutes` stays 0. -/
def sscanfD (s : List Char) : Int :=
  match fmtSkipSpace s with
  | none => 0
  | some r =>
    let signed : Bool × List Char :=
      match r with
      | '-' :: t => (true, t)
      | '+' :: t => (false, t)
      | t => (false, t)
    let tok := signed.2.takeWhile Char.isDigit
    if tok = [] then 0
    else
      let i : Int := if signed.1 then - (digitsVal tok : Int) else (digitsVal tok : Int)
      if -(2 : Int) ^ 63 ≤ i ∧ i < (2 : Int) ^ 63 then i else 0

/-- `parseTimeLimit`. -/
def parseTimeLimit (s : String) : Int :=
  sscanfD s.data

/-- The constant `time.Minute`, in nanoseconds. -/
def timeMinute : Int := 60000000000

/-- The product of two `time.Duration`s, an `int64` that wraps around. -/
def wrapInt64 (x : Int) : Int :=
  (x + (2 : Int) ^ 63) % (2 : Int) ^ 64 - (2 : Int) ^ 63

/-- `time.Since(t)` when `time.Now()` is `now`: the difference in
nanoseconds, saturating at the ends of `int64`. -/
def timeSince (now t : Time) : Int :=
  max (-(2 : Int) ^ 63) (min ((2 : Int) ^ 63 - 1) (now.UnixNano - t.UnixNano))

/-- `strings.ToLower(s) == "true"`.  The only characters that lower-case to
`t`, `r`, `u`, `e` are these letters and their ASCII capitals. -/
def lowerIsTrue (s : String) : Bool :=
  s.data.map Char.toLower = "true".data

/-- `CanUserEditCall`, run when `time.Now()` is `now`. -/
def CanUserEditCall (db : Store) (now : Time) (callID userID : Int) : Bool × Option DbError :=
  match db.calls.find? (fun c => c.ID = callID) with
  | none => (false, some .ErrNoRows)
  | some c =>
    let createdBy := c.CreatedBy
    let createdAt := c.CreatedAt
    match selectUsersText db "role" userID with
    | .error e => (false, some e)
    | .ok userRole =>
      let adminAllowed : Bool :=
        if userRole = "admin" then
          match selectSetting db "admin_can_always_edit" with
          | .ok adminCanEdit => lowerIsTrue adminCanEdit
          | .error _ => false
        else false
      if adminAllowed then (true, none)
      else if createdBy ≠ userID then (false, none)
      else
        match selectSetting db "edit_time_limit_minutes" with
        | .error e => (false, some e)
        | .ok timeLimitStr =>
          let minutes := if timeLimitStr ≠ "" then parseTimeLimit timeLimitStr else 0
          let timeLimit : Int :=
            if timeLimitStr ≠ "" ∧ minutes > 0 then wrapInt64 (minutes * timeMinute)
            else 30 * timeMinute
          (decide (timeSince now createdAt ≤ timeLimit), none)

/-! ## queries_users.go -/

/-- The `Scan` of column `joined_date` into an `sql.NullTime`: NULL is
scanned as not valid, text that the driver reads as a time gives that time, and
any other text fails the `Scan`. -/
def scanJoinedDate (e : Engine) (cell : Option String) : Except DbError (Option String) :=
  match cell with
  | none => .ok none
  | some text =>
    match e.readTime text with
    | none => .error (.scanTime "joined_date")
    | some t => .ok (some t)

/-- The `Scan` of a full `users` row into a `User`, column by column: a NULL
`ems_level` or `joined_date` leaves the field zero; `pin` is scanned into a Go
`string` and must not be NULL; `joined_date`, which comes after `pin`, is
scanned into an `sql.NullTime`; `created` holds the text of
`CURRENT_TIMESTAMP`, which the driver reads. -/
def scanUser (e : Engine) (u : UserRow) : Except DbError User :=
  match u.pin with
  | none => .error (.scanNull "pin")
  | some pin =>
    match scanJoinedDate e u.joined_date with
    | .error err => .error err
    | .ok joinedDate =>
      .ok { ID := u.id, FirstName := u.first_name, LastName := u.last_name,
            Position := u.position, EMSLevel := u.ems_level.getD "", IsAdmin := u.is_admin,
            PIN := pin, Active := u.active, JoinedDate := joinedDate, Created := u.created }

/-- `GetUserByID`: `(nil, nil)` when no row has the id. -/
def GetUserByID (e : Engine) (db : Store) (id : Int) : Except DbError (Option User) :=
  match db.users.find? (fun u => u.id = id) with
  | none => .ok none
  | some u =>
    match scanUser e u with
    | .error err => .error err
    | .ok user => .ok (some user)

/-- The statement `UPDATE users SET ... WHERE id = ?`: `f` rewrites the row
with that id, if there is one; no row is not an error. -/
def updateUsersWhere (db : Store) (id : Int) (f : UserRow → UserRow) : Store :=
  { db with users := db.users.map (fun u => if u.id = id then f u else u) }

/-- `ChangePIN`. -/
def ChangePIN (db : Store) (userID : Int) (newPIN : String) : Store × Option DbError :=
  (updateUsersWhere db userID (fun u => { u with pin := some newPIN }), none)

/-- The statement `INSERT INTO users (...)` with the columns it names; `id`
is the next of the sequence and `created` defaults to `CURRENT_TIMESTAMP`. -/
def insertUser (db : Store) (now : Time) (firstName lastName position : String)
    (emsLevel : Option String) (isAdmin : Bool) (pin : Option String) : Store :=
  { db with
    users := db.users ++
      [{ id := (db.seq_users : Int) + 1, first_name := firstName, last_name := lastName,
         position := position, ems_level := emsLevel, is_admin := isAdmin, pin := pin,
         active := true, joined_date := none, created := now }],
    seq_users := db.seq_users + 1 }

/-- `CreateUser`, run when `CURRENT_TIMESTAMP` is `now`. -/
def CreateUser (db : Store) (now : Time) (firstName lastName position emsLevel pin : String)
    (isAdmin : Bool) : Store × Option DbError :=
  (insertUser db now firstName lastName position (some emsLevel) isAdmin (some pin), none)

/-- `UpdateUser`. -/
def UpdateUser (db : Store) (user : User) : Store × Option DbError :=
  (updateUsersWhere db user.ID (fun u =>
    { u with
      first_name := user.FirstName, last_name := user.LastName, position := user.Position,
      ems_level := some user.EMSLevel, is_admin := user.IsAdmin, pin := some user.PIN,
      active := user.Active, joined_date := user.JoinedDate }), none)

/-- `UpdateUserPosition`. -/
def UpdateUserPosition (db : Store) (userID : Int) (position : String) :
    Store × Option DbError :=
  (updateUsersWhere db userID (fun u => { u with position := position }), none)

/-- `UpdateUserAdminStatus`. -/
def UpdateUserAdminStatus (db : Store) (userID : Int) (isAdmin : Bool) :
    Store × Option DbError :=
  (updateUsersWhere db userID (fun u => { u with is_admin := isAdmin }), none)

/-- `UpdateUserJoinDate`. -/
def UpdateUserJoinDate (db : Store) (userID : Int) (joinDate : String) :
    Store × Option DbError :=
  (updateUsersWhere db userID (fun u => { u with joined_date := some joinDate }), none)

/-- The virtual user that `AuthenticateUser` returns for the hardcoded
credential; the fields the literal leaves out are zero. -/
def hardcodedAdmin : User :=
  { ID := 0, FirstName := "Admin", LastName := "User", Position := "administrator",
    EMSLevel := "", IsAdmin := true, PIN := "", Active := true, JoinedDate := none,
    Created := Time.zero }

/-- `AuthenticateUser`: the hardcoded credential first, then the first row
`WHERE (first_name || ' ' || last_name) = ? AND pin = ? AND active = 1`. -/
def AuthenticateUser (e : Engine) (db : Store) (fullName pin : String) : Except DbError User :=
  if fullName = "Admin User" ∧ pin = "1234" then .ok hardcodedAdmin
  else
    match db.users.find? (fun u =>
        u.first_name ++ " " ++ u.last_name = fullName ∧ u.pin = some pin ∧ u.active = true) with
    | none => .error .ErrNoRows
    | some u => scanUser e u

/-! ## queries_picklists.go -/

/-- `CreatePicklistItem`, under `UNIQUE(category, value)`. -/
def CreatePicklistItem (db : Store) (category value : String) (sortOrder : Int) :
    Store × Option DbError :=
  if db.picklists.any (fun p => p.Category = category ∧ p.Value = value) then
    (db, some (.uniqueConstraint "picklists"))
  else
    ({ db with
       picklists := db.picklists ++
         [{ ID := (db.seq_picklists : Int) + 1, Category := category, Value := value,
            SortOrder := sortOrder, Active := true }],
       seq_picklists := db.seq_picklists + 1 }, none)

/-- `UpdatePicklistItem`: the row with the id gets the new value, sort order
and active flag, unless another row of its category already has the value. -/
def UpdatePicklistItem (db : Store) (item : Picklist) : Store × Option DbError :=
  match db.picklists.find? (fun p => p.ID = item.ID) with
  | none => (db, none)
  | some old =>
    if db.picklists.any (fun p =>
        p.ID ≠ item.ID ∧ p.Category = old.Category ∧ p.Value = item.Value) then
      (db, some (.uniqueConstraint "picklists"))
    else
      ({ db with
         picklists := db.picklists.map (fun (p : Picklist) =>
           if p.ID = item.ID then
             { p with Value := item.Value, SortOrder := item.SortOrder, Active := item.Active }
           else p) }, none)

/-- `DeletePicklistItem`: the soft delete `UPDATE picklists SET active = 0`. -/
def DeletePicklistItem (db : Store) (id : Int) : Store × Option DbError :=
  ({ db with
     picklists := db.picklists.map (fun (p : Picklist) =>
       if p.ID = id then { p with Active := false } else p) }, none)

/-! ## db.go: seeding -/

/-- The statement `INSERT OR IGNORE INTO picklists (category, value,
sort_order, active) VALUES (?, ?, ?, 1)`. -/
def insertOrIgnorePicklist (db : Store) (category value : String) (sortOrder : Int) : Store :=
  if db.picklists.any (fun p => p.Category = category ∧ p.Value = value) then db
  else
    { db with
      picklists := db.picklists ++
        [{ ID := (db.seq_picklists : Int) + 1, Category := category, Value := value,
           SortOrder := sortOrder, Active := true }],
      seq_picklists := db.seq_picklists + 1 }

/-- The statement `INSERT OR IGNORE INTO settings (key, value)` for one row;
`key` is the primary key. -/
def insertOrIgnoreSetting (db : Store) (key value : String) : Store :=
  if db.settings.any (fun r => r.Key = key) then db
  else { db with settings := db.settings ++ [{ Key := key, Value := value }] }

/-- The table `picklistData` of `seedDefaultData`: category, values, sort
orders. -/
def picklistData : List (String × List String × List Int) :=
  [("call_type", ["Structure Fire", "Vehicle Fire", "Grass Fire", "Medical Emergency",
      "Motor Vehicle Accident", "Hazmat", "Rescue", "Alarm Investigation", "Mutual Aid",
      "Training"], [1, 2, 3, 4, 5, 6, 7, 8, 9, 10]),
   ("mutual_aid", ["No", "Yes"], [1, 2]),
   ("mutual_aid_agencies", ["Readsboro Fire Dept", "Bennington Fire Dept", "Pownal Fire Dept",
      "Wilmington Fire Dept", "Searsburg Fire Dept"], [1, 2, 3, 4, 5]),
   ("apparatus", ["Engine 1", "Engine 2", "Truck 1", "Rescue 1", "Ambulance 1", "Chief",
      "Tanker 1"], [1, 2, 3, 4, 5, 6, 7]),
   ("town", ["Stamford", "Readsboro", "Whitingham"], [1, 2, 3]),
   ("responder_role", ["Driver", "Officer", "Firefighter", "EMT", "Medic", "Chief"],
      [1, 2, 3, 4, 5, 6]),
   ("position", ["Chief", "Deputy Chief", "Captain", "Member", "Probationary"],
      [1, 2, 3, 4, 5]),
   ("ems_level", ["None", "VEFR", "EMR", "EMT", "AEMT", "Paramedic"], [1, 2, 3, 4, 5, 6])]

/-- `seedDefaultData`, run when `CURRENT_TIMESTAMP` is `now`: the default
admin when there is no user; then, unless a picklist row exists, the default
picklists and the default settings. -/
def seedDefaultData (db : Store) (now : Time) : Store × Option DbError :=
  let db :=
    if db.users.length = 0 then
      insertUser db now "Admin" "User" "administrator" none true (some "1234")
    else db
  if db.picklists.length > 0 then (db, none)
  else
    let db := picklistData.foldl (fun db category =>
      category.2.1.enum.foldl (fun db iv =>
        insertOrIgnorePicklist db category.1 iv.2 (category.2.2.getD iv.1 0)) db) db
    let db := insertOrIgnoreSetting db "report_dir" "reports"
    let db := insertOrIgnoreSetting db "auto_print_after_save" "false"
    let db := insertOrIgnoreSetting db "edit_time_limit_minutes" "30"
    let db := insertOrIgnoreSetting db "admin_can_always_edit" "true"
    let db := insertOrIgnoreSetting db "default_date_range_days" "30"
    (db, none)

/-- `ensureAdminExists`, run when `CURRENT_TIMESTAMP` is `now`.  Its first
statement tests the column `role` of table `users`. -/
def ensureAdminExists (db : Store) (now : Time) : Store × Option DbError :=
  match usersTextColumn "role" with
  | none => (db, some (.noSuchColumn "users" "role"))
  | some role =>
    let db := { db with
      users := db.users.map (fun (u : UserRow) =>
        if role u = some "admin" ∧ u.is_admin = false then { u with is_admin := true } else u) }
    let adminExists := db.users.any (fun u => u.is_admin)
    if ¬ adminExists then
      (insertUser db now "Admin" "User" "administrator" none true (some "1234"), none)
    else
      match db.users.find? (fun u =>
          u.first_name = "Admin" ∧ u.last_name = "User" ∧ u.is_admin = true) with
      | none => (db, none)
      | some u =>
        if u.pin = none ∨ u.pin = some "" then
          ({ db with
             users := db.users.map (fun (v : UserRow) =>
               if v.first_name = "Admin" ∧ v.last_name = "User" ∧ v.is_admin = true then
                 { v with pin := some "1234" }
               else v) }, none)
        else (db, none)

/-- `InitDB` on a database file whose content is `file` (`Store.empty` for a
new file): `createTables` only creates what is missing; the errors of
`seedDefaultData` and `ensureAdminExists` are logged and dropped. -/
def InitDB (file : Store) (now : Time) : Store :=
  let database := file
  let database := (seedDefaultData database now).1
  let database := (ensureAdminExists database now).1
  database

/-! ## app.go -/

/-- The errors of the caller layer. -/
inductive AppError where
  /-- The variable `ErrUnauthorized`. -/
  | ErrUnauthorized
  /-- A value made by `errors.New`. -/
  | errorsNew (msg : String)
  /-- An error of the `db` package, passed on. -/
  | db (e : DbError)
  /-- A nil pointer dereference: the run-time aborts the call. -/
  | nilDereference
  deriving DecidableEq, Repr

/-- The `App` struct: the database and the logged-in user (`none` for nil). -/
structure App where
  db : Store
  currentUser : Option User
  deriving DecidableEq, Repr

/-- `App.Login`. -/
def App.Login (e : Engine) (a : App) (name pin : String) : App × Except AppError User :=
  match AuthenticateUser e a.db name pin with
  | .error err => (a, .error (.db err))
  | .ok user => ({ a with currentUser := some user }, .ok user)

/-- `App.Logout`. -/
def App.Logout (a : App) : App :=
  { a with currentUser := none }

/-- `App.ChangePIN`. -/
def App.ChangePIN (e : Engine) (a : App) (oldPIN newPIN : String) : App × Option AppError :=
  match a.currentUser with
  | none => (a, some .ErrUnauthorized)
  | some currentUser =>
    let verified : Bool :=
      if currentUser.ID ≠ 0 then
        match AuthenticateUser e a.db (currentUser.FirstName ++ " " ++ currentUser.LastName)
            oldPIN with
        | .error _ => false
        | .ok _ => true
      else true
    if ¬ verified then (a, some (.errorsNew "incorrect current PIN"))
    else if currentUser.ID = 0 then (a, some (.errorsNew "cannot change hardcoded admin PIN"))
    else
      let r := CallTracker.ChangePIN a.db currentUser.ID newPIN
      ({ a with db := r.1 }, r.2.map AppError.db)

/-- `App.ChangeUserPIN`. -/
def App.ChangeUserPIN (a : App) (userID : Int) (newPIN : String) : App × Option AppError :=
  match a.currentUser with
  | none => (a, some .ErrUnauthorized)
  | some currentUser =>
    if ¬ currentUser.IsAdmin then (a, some .ErrUnauthorized)
    else
      let r := CallTracker.ChangePIN a.db userID newPIN
      ({ a with db := r.1 }, r.2.map AppError.db)

/-- `App.CreateCall`, run when `CURRENT_TIMESTAMP` is `now`; also returns
the caller's `*Call` afterwards. -/
def App.CreateCall (a : App) (now : Time) (call : Call) (apparatusIDs responderIDs : List Int)
    (responderRoles : List String) : App × Call × Option AppError :=
  match a.currentUser with
  | none => (a, call, some .ErrUnauthorized)
  | some currentUser =>
    let call := { call with CreatedBy := currentUser.ID }
    let r := CallTracker.CreateCall a.db now call apparatusIDs responderIDs responderRoles
    ({ a with db := r.1 }, r.2.1, r.2.2.map AppError.db)

/-- `App.UpdateCall`, run when `CURRENT_TIMESTAMP` is `now`. -/
def App.UpdateCall (a : App) (now : Time) (call : Call) (apparatusIDs responderIDs : List Int)
    (responderRoles : List String) : App × Option AppError :=
  let r := CallTracker.UpdateCall a.db now call apparatusIDs responderIDs responderRoles
  ({ a with db := r.1 }, r.2.map AppError.db)

/-! ## queries_calls.go: `SearchCalls` -/

/-- The civil date (year, month, day) of the day `z` days after 1970-01-01 in
the proleptic Gregorian calendar. -/
def civilFromDays (z : Int) : Int × Int × Int :=
  let z := z + 719468
  let era := z / 146097
  let doe := z - era * 146097
  let yoe := (doe - doe / 1460 + doe / 36524 - doe / 146096) / 365
  let doy := doe - (365 * yoe + yoe / 4 - yoe / 100)
  let mp := (5 * doy + 2) / 153
  let d := doy - (153 * mp + 2) / 5 + 1
  let m := if mp < 10 then mp + 3 else mp - 9
  let y := yoe + era * 400 + (if m ≤ 2 then 1 else 0)
  (y, m, d)

/-- The decimal digits of `n`, padded with zeros to `width`. -/
def padDecimal (width : Nat) (n : Int) : List Char :=
  let ds := Nat.toDigits 10 n.toNat
  List.replicate (width - ds.length) '0' ++ ds

/-- The text SQLite's `CURRENT_TIMESTAMP` stores for an instant, which is what
column `created_at` holds: `YYYY-MM-DD HH:MM:SS` in UTC. -/
def sqliteTimestamp (t : Time) : List Char :=
  let secs := t.UnixNano / 1000000000
  let date := civilFromDays (secs / 86400)
  let rem := secs % 86400
  padDecimal 4 date.1 ++ ['-'] ++ padDecimal 2 date.2.1 ++ ['-'] ++ padDecimal 2 date.2.2 ++
    [' '] ++ padDecimal 2 (rem / 3600) ++ [':'] ++ padDecimal 2 (rem % 3600 / 60) ++ [':'] ++
    padDecimal 2 (rem % 60)

/-- Whether SQLite reads the whole text as a number (white space around an
optional sign, digits with an optional decimal point, an optional exponent):
the texts that `NUMERIC` affinity turns into numbers. -/
def sqliteIsNumeric (s : List Char) : Bool :=
  let s := s.dropWhile sqliteIsSpace
  let s := match s with
    | '-' :: r => r
    | '+' :: r => r
    | r => r
  let intDigits := s.takeWhile Char.isDigit
  let s := s.dropWhile Char.isDigit
  let fracDigits := match s with
    | '.' :: r => r.takeWhile Char.isDigit
    | _ => []
  let s := match s with
    | '.' :: r => r.dropWhile Char.isDigit
    | r => r
  let expOk : Bool × List Char :=
    match s with
    | 'e' :: r | 'E' :: r =>
      let r := match r with
        | '-' :: q => q
        | '+' :: q => q
        | q => q
      (!(r.takeWhile Char.isDigit).isEmpty, r.dropWhile Char.isDigit)
    | r => (true, r)
  !(intDigits ++ fracDigits).isEmpty && expOk.1 && (expOk.2.dropWhile sqliteIsSpace).isEmpty

/-- The test `created_at >= ?` with a text argument.  Column `created_at` is
declared `DATETIME` and has `NUMERIC` affinity, which is applied to the
argument: a numeric argument sorts before every text, any other is compared
as text. -/
def createdAtGe (createdAt : Time) (arg : String) : Bool :=
  if sqliteIsNumeric arg.data then true else textLe arg.data (sqliteTimestamp createdAt)

/-- The test `created_at <= ?` with a text argument. -/
def createdAtLe (createdAt : Time) (arg : String) : Bool :=
  if sqliteIsNumeric arg.data then false else textLe (sqliteTimestamp createdAt) arg.data

/-- The `filters` argument of `SearchCalls`, a Go `map[string]interface{}`,
as the lookup it is used for.  The values are the strings a caller puts in;
values of other dynamic types are outside this model. -/
abbrev Filters := String → Option String

/-- One `AND` clause that `SearchCalls` appends to its query, with its
arguments. -/
inductive Clause where
  /-- The clause `AND created_at >= ?`. -/
  | createdAtGe (arg : String)
  /-- The clause `AND created_at <= ?`. -/
  | createdAtLe (arg : String)
  /-- The clause `AND call_type = ?`. -/
  | callTypeEq (arg : String)
  /-- The clause `AND town = ?`. -/
  | townEq (arg : String)
  /-- The clause `AND (address LIKE ? OR incident_number LIKE ?)`. -/
  | addressOrNumberLike (arg1 arg2 : String)
  deriving DecidableEq, Repr

/-- The dynamic `WHERE` clause of `SearchCalls`, built key by key as the code
builds it. -/
def searchQuery (filters : Filters) : List Clause :=
  let query : List Clause := []
  let query :=
    match filters "start_date" with
    | some startDate => query ++ [.createdAtGe startDate]
    | none => query
  let query :=
    match filters "end_date" with
    | some endDate => query ++ [.createdAtLe endDate]
    | none => query
  let query :=
    match filters "call_type" with
    | some callType => if callType ≠ "" then query ++ [.callTypeEq callType] else query
    | none => query
  let query :=
    match filters "town" with
    | some town => if town ≠ "" then query ++ [.townEq town] else query
    | none => query
  let query :=
    match filters "search_text" with
    | some searchText =>
      if searchText ≠ "" then
        let searchPattern := "%" ++ searchText ++ "%"
        query ++ [.addressOrNumberLike searchPattern searchPattern]
      else query
    | none => query
  query

/-- Whether a row of `calls` passes a clause. -/
def Clause.holds (row : Call) : Clause → Bool
  | .createdAtGe arg => CallTracker.createdAtGe row.CreatedAt arg
  | .createdAtLe arg => CallTracker.createdAtLe row.CreatedAt arg
  | .callTypeEq arg => row.CallType = arg
  | .townEq arg => row.Town = arg
  | .addressOrNumberLike arg1 arg2 =>
    likeMatch arg1.data row.Address.data || likeMatch arg2.data row.IncidentNumber.data

/-- The `ORDER BY created_at DESC` of `SearchCalls`: the stored text of `a`
is not before that of `b`. -/
def newestFirst (a b : Call) : Prop :=
  textLe (sqliteTimestamp b.CreatedAt) (sqliteTimestamp a.CreatedAt) = true

instance : DecidableRel newestFirst := fun a b => by
  unfold newestFirst
  exact inferInstance

/-- SQLite's `LIMIT ?`: a negative limit keeps every row. -/
def sqlLimit {α : Type} (limit : Int) (rows : List α) : List α :=
  if limit < 0 then rows else rows.take limit.toNat

/-- SQLite's `OFFSET ?`: a negative offset drops no row. -/
def sqlOffset {α : Type} (offset : Int) (rows : List α) : List α :=
  rows.drop offset.toNat

/-- The loop `for rows.Next() { rows.Scan(...) }`: the rows scanned in the
order returned; the first `Scan` that fails ends the loop with its error. -/
def scanCalls (e : Engine) : List Call → Except DbError (List Call)
  | [] => .ok []
  | row :: rows =>
    match scanCall e row with
    | .error err => .error err
    | .ok call =>
      match scanCalls e rows with
      | .error err => .error err
      | .ok calls => .ok (call :: calls)

/-- The rows that the statement of `SearchCalls` returns: the rows of `calls`
that pass every clause of the query, `ORDER BY created_at DESC LIMIT ? OFFSET
?`. -/
def searchRows (e : Engine) (db : Store) (filters : Filters) (limit offset : Int) : List Call :=
  let query := searchQuery filters
  let rows := db.calls.filter (fun row => query.all (fun clause => clause.holds row))
  let ordered := e.orderBy newestFirst rows
  sqlLimit limit (sqlOffset offset ordered)

/-- `SearchCalls`: the returned rows, scanned one by one. -/
def SearchCalls (e : Engine) (db : Store) (filters : Filters) (limit offset : Int) :
    Except DbError (List Call) :=
  scanCalls e (searchRows e db filters limit offset)

/-! ## app.go: the other user operations, search and delete -/

/-- `App.CreateUser`, run when `CURRENT_TIMESTAMP` is `now`. -/
def App.CreateUser (a : App) (now : Time) (firstName lastName position emsLevel pin : String)
    (isAdmin : Bool) : App × Option AppError :=
  let r := CallTracker.CreateUser a.db now firstName lastName position emsLevel pin isAdmin
  ({ a with db := r.1 }, r.2.map AppError.db)

/-- `App.UpdateUser`. -/
def App.UpdateUser (a : App) (user : User) : App × Option AppError :=
  let r := CallTracker.UpdateUser a.db user
  ({ a with db := r.1 }, r.2.map AppError.db)

/-- `App.DeleteUser`: the user is read, its `Active` field cleared and the
user written back.  `GetUserByID` returns a nil user with a nil error for an
id without a row, and the assignment to `user.Active` then dereferences
nil. -/
def App.DeleteUser (e : Engine) (a : App) (id : Int) : App × Option AppError :=
  match GetUserByID e a.db id with
  | .error err => (a, some (.db err))
  | .ok none => (a, some .nilDereference)
  | .ok (some user) =>
    let user := { user with Active := false }
    let r := CallTracker.UpdateUser a.db user
    ({ a with db := r.1 }, r.2.map AppError.db)

/-- `App.UpdateUserPosition`. -/
def App.UpdateUserPosition (a : App) (userID : Int) (position : String) :
    App × Option AppError :=
  match a.currentUser with
  | none => (a, some .ErrUnauthorized)
  | some currentUser =>
    if ¬ currentUser.IsAdmin then (a, some .ErrUnauthorized)
    else
      let r := CallTracker.UpdateUserPosition a.db userID position
      ({ a with db := r.1 }, r.2.map AppError.db)

/-- `App.UpdateUserAdminStatus`. -/
def App.UpdateUserAdminStatus (a : App) (userID : Int) (isAdmin : Bool) :
    App × Option AppError :=
  match a.currentUser with
  | none => (a, some .ErrUnauthorized)
  | some currentUser =>
    if ¬ currentUser.IsAdmin then (a, some .ErrUnauthorized)
    else
      let r := CallTracker.UpdateUserAdminStatus a.db userID isAdmin
      ({ a with db := r.1 }, r.2.map AppError.db)

/-- `App.UpdateUserJoinDate`. -/
def App.UpdateUserJoinDate (a : App) (userID : Int) (joinDate : String) :
    App × Option AppError :=
  match a.currentUser with
  | none => (a, some .ErrUnauthorized)
  | some currentUser =>
    if ¬ currentUser.IsAdmin then (a, some .ErrUnauthorized)
    else
      let r := CallTracker.UpdateUserJoinDate a.db userID joinDate
      ({ a with db := r.1 }, r.2.map AppError.db)

/-- `App.GetCallByID`. -/
def App.GetCallByID (e : Engine) (a : App) (id : Int) :
    Except DbError (Call × List Picklist × List User) :=
  CallTracker.GetCallByID e a.db id

/-- `App.SearchCalls`: a non-empty query is put into the filters under the
key `query`. -/
def App.SearchCalls (e : Engine) (a : App) (query : String) : Except DbError (List Call) :=
  let filters : Filters := fun _ => none
  let filters : Filters :=
    if query ≠ "" then fun key => if key = "query" then some query else filters key
    else filters
  CallTracker.SearchCalls e a.db filters 100 0

/-- `App.DeleteCall`, run when `CURRENT_TIMESTAMP` is `now`: the call is read
and saved again with empty apparatus, responder and role lists. -/
def App.DeleteCall (e : Engine) (a : App) (now : Time) (id : Int) : App × Option AppError :=
  match CallTracker.GetCallByID e a.db id with
  | .error err => (a, some (.db err))
  | .ok (call, _, _) =>
    let r := CallTracker.UpdateCall a.db now call [] [] []
    ({ a with db := r.1 }, r.2.map AppError.db)

/-! ## queries_logo.go -/

/-- The names of the tables that `createTables` declares with `CREATE TABLE
IF NOT EXISTS`, in the order of its schema text. -/
def createdTables : List String :=
  ["users", "picklists", "form_fields", "calls", "call_apparatus", "call_responders",
   "settings", "audit_log"]

/-- The Go struct `Logo`; a `[]byte` is a list of bytes. -/
structure Logo where
  ID : Int
  ImageData : List (Fin 256)
  MimeType : String
  UploadedAt : Time
  UploadedBy : Int
  deriving DecidableEq, Repr

/-- A row of table `logo`, with the columns that the statements of
queries_logo.go name; `uploaded_by` may hold NULL.  No file of the repository
declares this table, so nothing more is known of it. -/
structure LogoRow where
  id : Int
  image_data : List (Fin 256)
  mime_type : String
  uploaded_by : Option Int
  uploaded_at : Time
  deriving DecidableEq, Repr

/-- Table `logo` of a database file: `none` when the file has no such table,
else its rows in insertion order. -/
abbrev LogoTable := Option (List LogoRow)

/-- What `createTables` makes of table `logo`: a table it declares is created
empty when the file does not have it; any other table stays as the file has
it. -/
def createTablesLogo (file : LogoTable) : LogoTable :=
  if "logo" ∈ createdTables then some (file.getD []) else file

/-- The errors of queries_logo.go. -/
inductive LogoError where
  /-- The value of `fmt.Errorf(context + ": %w", cause)`. -/
  | wrapped (context : String) (cause : DbError)
  /-- The value of `fmt.Errorf("no logo found to delete")`. -/
  | noLogoFound
  deriving DecidableEq, Repr

/-- `SaveLogo`, run when `CURRENT_TIMESTAMP` is `now`, on the users of `db`
and table `logo`: the `DELETE`, the test that the uploader exists, and the
`INSERT` of row 1 with the uploader or with NULL.  Returns the table
afterwards and the error (`none` for nil). -/
def SaveLogo (db : Store) (logo : LogoTable) (now : Time) (imageData : List (Fin 256))
    (mimeType : String) (uploadedBy : Int) : LogoTable × Option LogoError :=
  match logo with
  | none => (none, some (.wrapped "failed to delete existing logo" (.noSuchTable "logo")))
  | some rows =>
    let rows := rows.filter (fun r => r.id ≠ 1)
    let userExists : Bool := db.users.any (fun u => u.id = uploadedBy)
    if userExists then
      (some (rows ++ [{ id := 1, image_data := imageData, mime_type := mimeType,
                        uploaded_by := some uploadedBy, uploaded_at := now }]), none)
    else
      (some (rows ++ [{ id := 1, image_data := imageData, mime_type := mimeType,
                        uploaded_by := none, uploaded_at := now }]), none)

/-- `GetLogo`: the row with id 1, `(nil, nil)` when there is none; the
uploader is read through `COALESCE(uploaded_by, 0)`. -/
def GetLogo (logo : LogoTable) : Except LogoError (Option Logo) :=
  match logo with
  | none => .error (.wrapped "failed to get logo" (.noSuchTable "logo"))
  | some rows =>
    match rows.find? (fun r => r.id = 1) with
    | none => .ok none
    | some r =>
      .ok (some { ID := r.id, ImageData := r.image_data, MimeType := r.mime_type,
                  UploadedAt := r.uploaded_at, UploadedBy := r.uploaded_by.getD 0 })

/-- `DeleteLogo`: the `DELETE` of row 1; no affected row is an error. -/
def DeleteLogo (logo : LogoTable) : LogoTable × Option LogoError :=
  match logo with
  | none => (none, some (.wrapped "failed to delete logo" (.noSuchTable "logo")))
  | some rows =>
    let rowsAffected := (rows.filter (fun r => r.id = 1)).length
    if rowsAffected = 0 then (some (rows.filter (fun r => r.id ≠ 1)), some .noLogoFound)
    else (some (rows.filter (fun r => r.id ≠ 1)), none)

/-! ## Reachable databases -/

/-- The databases the program can produce: `InitDB` on a new file, then any
sequence of the package's writing operations and of restarts (`InitDB` on the
existing file).  `SaveLogo` and `DeleteLogo` write only the table `logo`,
which is not part of this record. -/
inductive Reachable : Store → Prop where
  | init (now : Time) : Reachable (InitDB Store.empty now)
  | restart {db : Store} (now : Time) : Reachable db → Reachable (InitDB db now)
  | createUser {db : Store} (now : Time) (firstName lastName position emsLevel pin : String)
      (isAdmin : Bool) :
      Reachable db → Reachable (CreateUser db now firstName lastName position emsLevel pin isAdmin).1
  | updateUser {db : Store} (user : User) : Reachable db → Reachable (UpdateUser db user).1
  | changePIN {db : Store} (userID : Int) (newPIN : String) :
      Reachable db → Reachable (ChangePIN db userID newPIN).1
  | updateUserPosition {db : Store} (userID : Int) (position : String) :
      Reachable db → Reachable (UpdateUserPosition db userID position).1
  | updateUserAdminStatus {db : Store} (userID : Int) (isAdmin : Bool) :
      Reachable db → Reachable (UpdateUserAdminStatus db userID isAdmin).1
  | updateUserJoinDate {db : Store} (userID : Int) (joinDate : String) :
      Reachable db → Reachable (UpdateUserJoinDate db userID joinDate).1
  | createPicklistItem {db : Store} (category value : String) (sortOrder : Int) :
      Reachable db → Reachable (CreatePicklistItem db category value sortOrder).1
  | updatePicklistItem {db : Store} (item : Picklist) :
      Reachable db → Reachable (UpdatePicklistItem db item).1
  | deletePicklistItem {db : Store} (id : Int) :
      Reachable db → Reachable (DeletePicklistItem db id).1
  | createCall {db : Store} (now : Time) (call : Call) (apparatusIDs responderIDs : List Int)
      (responderRoles : List String) :
      Reachable db →
        Reachable (CreateCall db now call apparatusIDs responderIDs responderRoles).1
  | updateCall {db : Store} (now : Time) (call : Call) (apparatusIDs responderIDs : List Int)
      (responderRoles : List String) :
      Reachable db →
        Reachable (UpdateCall db now call apparatusIDs responderIDs responderRoles).1

/-! ## Vocabulary of the statements -/

/-- The rows the apparatus loop adds for the ids `l` when the sequence of
`call_apparatus` stands at `seq`. -/
def apparatusRows (callID : Int) : Nat → List Int → List CallApparatus
  | _, [] => []
  | seq, a :: rest =>
    { ID := (seq : Int) + 1, CallID := callID, ApparatusID := a } ::
      apparatusRows callID (seq + 1) rest

/-- The rows the responder loop adds, from index `i` on, when the sequence of
`call_responders` stands at `seq`. -/
def responderRows (callID : Int) (responderRoles : List String) :
    Nat → Nat → List Int → List CallResponder
  | _, _, [] => []
  | seq, i, r :: rest =>
    { ID := (seq : Int) + 1, CallID := callID, ResponderID := r,
      ResponderRole := if i < responderRoles.length then responderRoles.getD i "" else "" } ::
      responderRows callID responderRoles (seq + 1) (i + 1) rest

/-- Every id of table `users` is at least 1. -/
def UserIdsPositive (db : Store) : Prop :=
  ∀ u ∈ db.users, 1 ≤ u.id

/-- The incident number of year `Y` with running number `k`: the year, a dash
and `k` padded with zeros to three digits. -/
def numberOf (Y : Int) (k : Nat) : String :=
  String.mk (sprintfD Y ++ ['-'] ++ sprintf03d (k : Int))

/-- The text `s` is an incident number of year `Y`: it begins with the year
and a dash. -/
def OfYear (Y : Int) (s : String) : Prop :=
  s.data.take ((sprintfD Y).length + 1) = sprintfD Y ++ ['-']

/-- The arguments of one call of `CreateCall` and the time at which it
runs. -/
structure CreateRequest where
  now : Time
  call : Call
  apparatusIDs : List Int
  responderIDs : List Int
  responderRoles : List String
  deriving DecidableEq, Repr

/-- The requests run one after the other, each on the database the one
before left; for each, the request, the caller's call afterwards and the
error. -/
def runCreates : Store → List CreateRequest → List (CreateRequest × Call × Option DbError)
  | _, [] => []
  | db, r :: rest =>
    let out := CreateCall db r.now r.call r.apparatusIDs r.responderIDs r.responderRoles
    (r, out.2.1, out.2.2) :: runCreates out.1 rest

/-- The incident numbers of the successful calls dispatched in year `Y`, in
the order of the run. -/
def numbersOfYear (Y : Int) (results : List (CreateRequest × Call × Option DbError)) :
    List String :=
  (results.filter (fun x => x.1.call.Dispatched.Year = Y ∧ x.2.2 = none)).map
    (fun x => x.2.1.IncidentNumber)

/-- The incident numbers of year `Y` in the database are exactly those with
the running numbers 1 to `m`. -/
def NumberedUpTo (db : Store) (Y : Int) (m : Nat) : Prop :=
  (∀ c ∈ db.calls, OfYear Y c.IncidentNumber →
    ∃ j, 1 ≤ j ∧ j ≤ m ∧ c.IncidentNumber = numberOf Y j) ∧
  (∀ j, 1 ≤ j → j ≤ m → ∃ c ∈ db.calls, c.IncidentNumber = numberOf Y j)

/-- The row `c` passes the filters as `SearchCalls` reads them: the two date
bounds whenever the key is present; call type, town and search text when the
key is present and its value is not empty, the search text as the `LIKE`
pattern `%text%` on the address or the incident number. -/
def Matches (filters : Filters) (c : Call) : Prop :=
  (∀ v, filters "start_date" = some v → createdAtGe c.CreatedAt v = true) ∧
  (∀ v, filters "end_date" = some v → createdAtLe c.CreatedAt v = true) ∧
  (∀ v, filters "call_type" = some v → v ≠ "" → c.CallType = v) ∧
  (∀ v, filters "town" = some v → v ≠ "" → c.Town = v) ∧
  (∀ v, filters "search_text" = some v → v ≠ "" →
    likeMatch ("%" ++ v ++ "%").data c.Address.data = true ∨
      likeMatch ("%" ++ v ++ "%").data c.IncidentNumber.data = true)

/-- Referential integrity of the database: every call was created by a stored
user, every apparatus association joins a stored call and a stored picklist
row, every responder association joins a stored call and a stored user. -/
def RefIntegrity (db : Store) : Prop :=
  (∀ c ∈ db.calls, ∃ u ∈ db.users, u.id = c.CreatedBy) ∧
  (∀ r ∈ db.call_apparatus,
    (∃ c ∈ db.calls, c.ID = r.CallID) ∧ ∃ p ∈ db.picklists, p.ID = r.ApparatusID) ∧
  (∀ r ∈ db.call_responders,
    (∃ c ∈ db.calls, c.ID = r.CallID) ∧ ∃ u ∈ db.users, u.id = r.ResponderID)

/-- Every user row and every picklist row of `db` is still there in `db'`,
under the same id. -/
def KeepsRows (db db' : Store) : Prop :=
  (∀ u ∈ db.users, ∃ u' ∈ db'.users, u'.id = u.id) ∧
  (∀ p ∈ db.picklists, ∃ p' ∈ db'.picklists, p'.ID = p.ID)

/-- One writing operation of the package, or a restart, takes `db` to
`db'`. -/
inductive Step : Store → Store → Prop where
  | restart (db : Store) (now : Time) : Step db (InitDB db now)
  | createUser (db : Store) (now : Time) (firstName lastName position emsLevel pin : String)
      (isAdmin : Bool) :
      Step db (CreateUser db now firstName lastName position emsLevel pin isAdmin).1
  | updateUser (db : Store) (user : User) : Step db (UpdateUser db user).1
  | changePIN (db : Store) (userID : Int) (newPIN : String) :
      Step db (ChangePIN db userID newPIN).1
  | updateUserPosition (db : Store) (userID : Int) (position : String) :
      Step db (UpdateUserPosition db userID position).1
  | updateUserAdminStatus (db : Store) (userID : Int) (isAdmin : Bool) :
      Step db (UpdateUserAdminStatus db userID isAdmin).1
  | updateUserJoinDate (db : Store) (userID : Int) (joinDate : String) :
      Step db (UpdateUserJoinDate db userID joinDate).1
  | createPicklistItem (db : Store) (category value : String) (sortOrder : Int) :
      Step db (CreatePicklistItem db category value sortOrder).1
  | updatePicklistItem (db : Store) (item : Picklist) : Step db (UpdatePicklistItem db item).1
  | deletePicklistItem (db : Store) (id : Int) : Step db (DeletePicklistItem db id).1
  | createCall (db : Store) (now : Time) (call : Call) (apparatusIDs responderIDs : List Int)
      (responderRoles : List String) :
      Step db (CreateCall db now call apparatusIDs responderIDs responderRoles).1
  | updateCall (db : Store) (now : Time) (call : Call) (apparatusIDs responderIDs : List Int)
      (responderRoles : List String) :
      Step db (UpdateCall db now call apparatusIDs responderIDs responderRoles).1

/-- The database with the incident number of every call blanked: what is
left of it for a statement that does not read incident numbers. -/
def blankNumbers (db : Store) : Store :=
  { db with calls := db.calls.map (fun (c : Call) => { c with IncidentNumber := "" }) }

/-- The database after the requests have run one after the other. -/
def afterCreates : Store → List CreateRequest → Store
  | db, [] => db
  | db, r :: rest =>
    afterCreates
      (CreateCall db r.now r.call r.apparatusIDs r.responderIDs r.responderRoles).1 rest

/-- The database `db'` has the calls and associations of `db` unchanged and
still has every user row and picklist row of `db`. -/
def Extends (db db' : Store) : Prop :=
  KeepsRows db db' ∧ db'.calls = db.calls ∧ db'.call_apparatus = db.call_apparatus ∧
    db'.call_responders = db.call_responders

/-- The states of table `logo` the program can produce: `createTables` on a
new file, then restarts, `SaveLogo` and `DeleteLogo` in any order and with any
arguments. -/
inductive LogoReachable : LogoTable → Prop where
  | init : LogoReachable (createTablesLogo none)
  | restart {t : LogoTable} : LogoReachable t → LogoReachable (createTablesLogo t)
  | saveLogo {t : LogoTable} (db : Store) (now : Time) (imageData : List (Fin 256))
      (mimeType : String) (uploadedBy : Int) :
      LogoReachable t → LogoReachable (SaveLogo db t now imageData mimeType uploadedBy).1
  | deleteLogo {t : LogoTable} : LogoReachable t → LogoReachable (DeleteLogo t).1

/-- The incident number is one that `GetNextCallNumber` scans for year `Y`:
it begins with the year and a dash and is 8 characters long. -/
def ScannedFor (Y : Int) (s : String) : Prop :=
  s.data.take ((sprintfD Y).length + 1) = sprintfD Y ++ ['-'] ∧ s.length = 8

instance (Y : Int) (s : String) : Decidable (ScannedFor Y s) := by
  unfold ScannedFor
  exact inferInstance

/-- The time is a UTC time of a year from 0 to 9999. -/
def Time.IsUTC (t : Time) : Prop :=
  t.Zone = "UTC" ∧ 0 ≤ t.Year ∧ t.Year ≤ 9999

instance (t : Time) : Decidable t.IsUTC := by
  unfold Time.IsUTC
  exact inferInstance

/-- Every time that the caller gave for the call is a UTC time of a year from
0 to 9999. -/
def TimesUTC (c : Call) : Prop :=
  c.Dispatched.IsUTC ∧ (∀ t ∈ c.Enroute, t.IsUTC) ∧ (∀ t ∈ c.OnScene, t.IsUTC) ∧
    (∀ t ∈ c.Clear, t.IsUTC)

instance (c : Call) : Decidable (TimesUTC c) := by
  unfold TimesUTC
  exact inferInstance

/-- The driver reads back every time stored in the row's columns
`dispatched`, `enroute`, `on_scene` and `clear`. -/
def TimesReadBack (e : Engine) (c : Call) : Prop :=
  e.readsBack c.Dispatched = true ∧ (∀ t ∈ c.Enroute, e.readsBack t = true) ∧
    (∀ t ∈ c.OnScene, e.readsBack t = true) ∧ (∀ t ∈ c.Clear, e.readsBack t = true)

instance (e : Engine) (c : Call) : Decidable (TimesReadBack e c) := by
  unfold TimesReadBack
  exact inferInstance

/-- The driver reads the content of the row's column `joined_date`: NULL, or
text that it reads as a time. -/
def JoinedDateRead (e : Engine) (u : UserRow) : Prop :=
  ∀ text, u.joined_date = some text → e.readTime text ≠ none

/-- The rows of the list differ in the key of the order `r`: no two distinct
rows are each before the other. -/
def DistinctKeys {α : Type} (r : α → α → Prop) (l : List α) : Prop :=
  ∀ a ∈ l, ∀ b ∈ l, r a b → r b a → a = b

instance {α : Type} [DecidableEq α] (r : α → α → Prop) [DecidableRel r] (l : List α) :
    Decidable (DistinctKeys r l) := by
  unfold DistinctKeys
  exact inferInstance

/-- The responder ids paired with their roles as `CreateCall` and
`UpdateCall` store them: the role of index `i` is `responderRoles[i]` when
there is one and the empty string otherwise. -/
def pairedRoles (responderIDs : List Int) (responderRoles : List String) :
    List (Int × String) :=
  responderIDs.enum.map (fun p => (p.2, responderRoles.getD p.1 ""))

/-! ## Sample data -/

/-- An engine that reads back exactly the UTC times of the years 0 to 9999,
reads no text of `joined_date` as a time, and orders rows by an insertion
sort. -/
def sampleEngine : Engine :=
  { readsBack := fun t => decide t.IsUTC
    readsBack_utc := fun t h1 h2 h3 => decide_eq_true ⟨h1, h2, h3⟩
    readsBack_unnamed := fun t h => decide_eq_false (fun h1 => by
      have h2 : t.Zone = "UTC" := h1.1
      rw [h] at h2
      exact absurd h2 (by decide))
    readTime := fun _ => none
    readTime_empty := rfl
    orderBy := fun r _ l => l.insertionSort r
    orderBy_perm := fun r _ l => List.perm_insertionSort r l
    orderBy_sorted := fun r _ l htotal htrans =>
      have : IsTotal _ r := ⟨htotal⟩
      have : IsTrans _ r := ⟨htrans⟩
      List.sorted_insertionSort r l }

/-- The instant 2026-03-01T10:00:00Z. -/
def sampleTime : Time := { Year := 2026, UnixNano := 1772359200000000000 }

/-- The same instant in a fixed zone without a name, one hour east of UTC
(`time.FixedZone("", 3600)`), which `Time.String` prints as `+0100`. -/
def sampleTimeEast : Time := { sampleTime with Zone := "+0100" }

/-- A small database: the seeded admin (id 1), two members (ids 2 and 3), two
apparatus picklist rows and the two settings of the edit policy; no call. -/
def sampleDB : Store :=
  { users :=
      [{ id := 1, first_name := "Admin", last_name := "User", position := "administrator",
         ems_level := none, is_admin := true, pin := some "1234", active := true,
         joined_date := none, created := sampleTime },
       { id := 2, first_name := "Pat", last_name := "Lee", position := "Member",
         ems_level := some "EMT", is_admin := false, pin := some "4321", active := true,
         joined_date := none, created := sampleTime },
       { id := 3, first_name := "Sam", last_name := "Roe", position := "Member",
         ems_level := some "None", is_admin := false, pin := some "2468", active := true,
         joined_date := none, created := sampleTime }],
    picklists :=
      [{ ID := 1, Category := "apparatus", Value := "Engine 1", SortOrder := 1, Active := true },
       { ID := 2, Category := "apparatus", Value := "Engine 2", SortOrder := 2, Active := true }],
    calls := [], call_apparatus := [], call_responders := [],
    settings :=
      [{ Key := "edit_time_limit_minutes", Value := "30" },
       { Key := "admin_can_always_edit", Value := "true" }],
    seq_users := 3, seq_picklists := 2, seq_calls := 0,
    seq_call_apparatus := 0, seq_call_responders := 0 }

/-- A call dispatched at `sampleTime` by the member, with no incident
number. -/
def sampleCall : Call :=
  { ID := 0, IncidentNumber := "", CallType := "Structure Fire", MutualAid := "No",
    Address := "12 Main St", Town := "Stamford", LocationNotes := "",
    Dispatched := sampleTime, Enroute := none, OnScene := none, Clear := none,
    Narrative := "Smoke in the kitchen", CreatedBy := 2, CreatedAt := Time.zero,
    UpdatedAt := Time.zero }

/-- The request to create `sampleCall` with apparatus 1 and the member as
driver. -/
def sampleRequest : CreateRequest :=
  { now := sampleTime, call := sampleCall, apparatusIDs := [1], responderIDs := [2],
    responderRoles := ["Driver"] }

/-- The request to create `sampleCall` with no apparatus and no responder. -/
def bareRequest : CreateRequest :=
  { now := sampleTime, call := sampleCall, apparatusIDs := [], responderIDs := [],
    responderRoles := [] }

/-- The same request for a call dispatched in another year. -/
def requestOfYear (Y : Int) : CreateRequest :=
  { bareRequest with
    call := { sampleCall with Dispatched := { Year := Y, UnixNano := 0 } } }

/-- The member with id 3 as `AuthenticateUser` returns it. -/
def sampleOther : User :=
  { ID := 3, FirstName := "Sam", LastName := "Roe", Position := "Member", EMSLevel := "None",
    IsAdmin := false, PIN := "2468", Active := true, JoinedDate := none, Created := sampleTime }

/-- The database after `sampleRequest` on `sampleDB`: one call, id 1, created
by the member at `sampleTime`. -/
def sampleDB1 : Store :=
  (CreateCall sampleDB sampleTime sampleCall [1] [2] ["Driver"]).1

/-- The database `InitDB` makes from a new file. -/
def freshDB : Store := InitDB Store.empty sampleTime

/-- A session of the stored admin (id 1) after the hardcoded identity gave
it the PIN `5678`: login with the hardcoded credential, `ChangeUserPIN(1,
"5678")`, then login as `Admin User` with `5678`. -/
def storedAdminSession (e : Engine) : App :=
  (App.Login e
    (App.ChangeUserPIN (App.Login e { db := freshDB, currentUser := none } "Admin User" "1234").1
      1 "5678").1
    "Admin User" "5678").1

/-- The database of a new file after `CreateUser("Pat", "Lee", "Member",
"EMT", "4321", false)`, which makes user 2, and `UpdateUserJoinDate(2, "")`,
which stores the empty text as that user's `joined_date`. -/
def joinDateDB : Store :=
  (UpdateUserJoinDate (CreateUser freshDB sampleTime "Pat" "Lee" "Member" "EMT" "4321" false).1
    2 "").1

/-- The database of a new file after one call, id 1, created by the seeded
admin with the apparatus `Engine 1` (picklist row 18) and the admin as
driver; its times are UTC times. -/
def freshDB1 : Store :=
  (CreateCall freshDB sampleTime { sampleCall with CreatedBy := 1 } [18] [1] ["Driver"]).1

/-- The database of a new file after the same call with a time of dispatch in
a fixed zone without a name, one hour east of UTC. -/
def eastDB : Store :=
  (CreateCall freshDB sampleTime
    { sampleCall with CreatedBy := 1, Dispatched := sampleTimeEast } [18] [1] ["Driver"]).1

/-- One minute after `sampleTime`. -/
def sampleTimeMinute : Time := { Year := 2026, UnixNano := 1772359260000000000 }

/-- One hour after `sampleTime`. -/
def sampleTime1 : Time := { Year := 2026, UnixNano := 1772362800000000000 }

/-- Two hours after `sampleTime`. -/
def sampleTime2 : Time := { Year := 2026, UnixNano := 1772366400000000000 }

/-- Three calls on `sampleDB`: a structure fire in Stamford created at
`sampleTime` (id 1), a structure fire in Readsboro an hour later (id 2) and a
medical emergency in Stamford another hour later (id 3). -/
def searchDB : Store :=
  (CreateCall
    (CreateCall sampleDB1 sampleTime1
      { sampleCall with Town := "Readsboro", Address := "4 Branch Hill Rd" } [2] [3] []).1
    sampleTime2
    { sampleCall with CallType := "Medical Emergency", Address := "7 Mill Rd" } [] [2] []).1

/-- The database of `setupTestDB` in queries_logo_test.go: `InitDB` on a new
file, then `CreateUser("Test", "Admin", "Chief", "EMT", "1234", true)`. -/
def testDB : Store :=
  (CreateUser freshDB sampleTime "Test" "Admin" "Chief" "EMT" "1234" true).1

/-- The image of `TestGetLogo`, the eight bytes of a PNG header. -/
def testImageData : List (Fin 256) := [0x89, 0x50, 0x4E, 0x47, 0x0D, 0x0A, 0x1A, 0x0A]

/-- A database whose one call has the number `2026-999`. -/
def fullYearDB : Store :=
  (CreateCall sampleDB sampleTime { sampleCall with IncidentNumber := "2026-999" }
    [] [] []).1

/-! # Theorems -/

set_option maxRecDepth 100000

/-! ## The engine: `ORDER BY` and the `Scan` of times -/

theorem orderBy_nil (e : Engine) {α : Type} (r : α → α → Prop) [DecidableRel r] :
    e.orderBy r ([] : List α) = [] :=
  (e.orderBy_perm r []).eq_nil

theorem mem_orderBy (e : Engine) {α : Type} (r : α → α → Prop) [DecidableRel r] (l : List α)
    (x : α) : x ∈ e.orderBy r l ↔ x ∈ l :=
  (e.orderBy_perm r l).mem_iff

theorem eq_of_perm_of_sorted_of_distinct {α : Type} {r : α → α → Prop} :
    ∀ {l₁ l₂ : List α}, l₁.Perm l₂ → List.Sorted r l₁ → List.Sorted r l₂ →
      DistinctKeys r l₂ → l₁ = l₂
  | [], l₂, hp, _, _, _ => hp.symm.eq_nil.symm
  | a :: l₁, l₂, hp, hs₁, hs₂, hd => by
    have ha : a ∈ l₂ := hp.subset (List.mem_cons_self _ _)
    rcases List.append_of_mem ha with ⟨u₂, v₂, rfl⟩
    have hp1 : l₁.Perm (u₂ ++ v₂) := (List.perm_cons a).1 (hp.trans List.perm_middle)
    have hs₁' : List.Sorted r l₁ := (List.sorted_cons.1 hs₁).2
    have hsub : (u₂ ++ v₂).Sublist (u₂ ++ a :: v₂) := by simp
    have hd' : DistinctKeys r (u₂ ++ v₂) := fun x hx y hy =>
      hd x (hsub.subset hx) y (hsub.subset hy)
    have e1 := eq_of_perm_of_sorted_of_distinct hp1 hs₁' (hs₂.sublist hsub) hd'
    subst e1
    have hu : ∀ x ∈ u₂, x = a := fun x m =>
      hd x (by simp [m]) a (by simp)
        ((List.pairwise_append.1 hs₂).2.2 _ m a (List.mem_cons_self _ _))
        ((List.sorted_cons.1 hs₁).1 _ (by simp [m]))
    have hrep : u₂ = List.replicate u₂.length a := List.eq_replicate_of_mem hu
    rw [hrep]
    have e2 : a :: List.replicate u₂.length a = List.replicate u₂.length a ++ [a] := by
      rw [← List.replicate_succ, List.replicate_succ']
    rw [← List.cons_append, e2, List.append_assoc]
    rfl

theorem orderBy_eq_insertionSort (e : Engine) {α : Type} (r : α → α → Prop) [DecidableRel r]
    (htotal : ∀ a b, r a b ∨ r b a) (htrans : ∀ a b c, r a b → r b c → r a c) (l : List α)
    (hd : DistinctKeys r l) : e.orderBy r l = l.insertionSort r := by
  have : IsTotal α r := ⟨htotal⟩
  have : IsTrans α r := ⟨htrans⟩
  apply eq_of_perm_of_sorted_of_distinct
    ((e.orderBy_perm r l).trans (List.perm_insertionSort r l).symm)
    (e.orderBy_sorted r l htotal htrans) (List.sorted_insertionSort r l)
  intro a ha b hb
  exact hd a ((List.perm_insertionSort r l).subset ha) b ((List.perm_insertionSort r l).subset hb)

theorem scanCall_eq_ok_iff (e : Engine) (c : Call) :
    scanCall e c = .ok c ↔ TimesReadBack e c := by
  unfold scanCall TimesReadBack
  cases c.Enroute <;> cases c.OnScene <;> cases c.Clear <;>
    cases e.readsBack c.Dispatched <;>
    simp only [Option.any_none, Option.any_some, Option.mem_def, Option.some.injEq,
      forall_eq', decide_eq_true_eq, if_true, if_false, Bool.false_eq_true, reduceCtorEq,
      false_and, true_and, and_true, IsEmpty.forall_iff, implies_true, not_false_eq_true] <;>
    (try split_ifs) <;> simp_all

theorem scanCall_cases (e : Engine) (c : Call) :
    scanCall e c = .ok c ∨ ∃ column, scanCall e c = .error (.scanTime column) := by
  unfold scanCall
  split_ifs
  · exact Or.inr ⟨_, rfl⟩
  · exact Or.inr ⟨_, rfl⟩
  · exact Or.inr ⟨_, rfl⟩
  · exact Or.inr ⟨_, rfl⟩
  · exact Or.inl rfl

theorem scanCall_error_of_not (e : Engine) (c : Call) (h : ¬ TimesReadBack e c) :
    ∃ column, scanCall e c = .error (.scanTime column) := by
  rcases scanCall_cases e c with h1 | h1
  · exact absurd ((scanCall_eq_ok_iff e c).1 h1) h
  · exact h1

theorem TimesReadBack_of_utc (e : Engine) {c : Call} (h : TimesUTC c) : TimesReadBack e c :=
  ⟨e.readsBack_utc _ h.1.1 h.1.2.1 h.1.2.2,
   fun t ht => e.readsBack_utc _ (h.2.1 t ht).1 (h.2.1 t ht).2.1 (h.2.1 t ht).2.2,
   fun t ht => e.readsBack_utc _ (h.2.2.1 t ht).1 (h.2.2.1 t ht).2.1 (h.2.2.1 t ht).2.2,
   fun t ht => e.readsBack_utc _ (h.2.2.2 t ht).1 (h.2.2.2 t ht).2.1 (h.2.2.2 t ht).2.2⟩

theorem scanCall_dispatched_east (e : Engine) (c : Call) (h : c.Dispatched.Zone = "+0100") :
    scanCall e c = .error (.scanTime "dispatched") := by
  unfold scanCall
  rw [if_pos (e.readsBack_unnamed _ h)]

theorem scanCalls_ok (e : Engine) :
    ∀ l : List Call, (∀ c ∈ l, TimesReadBack e c) → scanCalls e l = .ok l
  | [], _ => rfl
  | c :: rest, h => by
    unfold scanCalls
    rw [(scanCall_eq_ok_iff e c).2 (h c (List.mem_cons_self _ _)),
      scanCalls_ok e rest (fun x hx => h x (List.mem_cons_of_mem _ hx))]

theorem char_toNat_inj {a b : Char} (h : a.toNat = b.toNat) : a = b := by
  apply Char.eq_of_val_eq
  apply UInt32.ext
  exact h

theorem textLe_refl : ∀ a : List Char, textLe a a = true
  | [] => rfl
  | c :: cs => by simp [textLe, textLe_refl cs]

theorem textLe_total : ∀ a b : List Char, textLe a b = true ∨ textLe b a = true
  | [], _ => Or.inl rfl
  | _ :: _, [] => Or.inr rfl
  | a :: as, b :: bs => by
    simp only [textLe, Bool.or_eq_true, Bool.and_eq_true, decide_eq_true_eq]
    rcases textLe_total as bs with h | h
    · rcases Nat.lt_trichotomy a.toNat b.toNat with h1 | h1 | h1
      · exact Or.inl (Or.inl h1)
      · exact Or.inl (Or.inr ⟨h1, h⟩)
      · exact Or.inr (Or.inl h1)
    · rcases Nat.lt_trichotomy a.toNat b.toNat with h1 | h1 | h1
      · exact Or.inl (Or.inl h1)
      · exact Or.inr (Or.inr ⟨h1.symm, h⟩)
      · exact Or.inr (Or.inl h1)

theorem textLe_trans :
    ∀ a b c : List Char, textLe a b = true → textLe b c = true → textLe a c = true
  | [], _, _, _, _ => rfl
  | _ :: _, [], _, h, _ => by simp [textLe] at h
  | _ :: _, _ :: _, [], _, h => by simp [textLe] at h
  | a :: as, b :: bs, c :: cs, h1, h2 => by
    simp only [textLe, Bool.or_eq_true, Bool.and_eq_true, decide_eq_true_eq] at h1 h2 ⊢
    rcases h1 with h1 | ⟨h1, h1'⟩
    · rcases h2 with h2 | ⟨h2, -⟩
      · exact Or.inl (by omega)
      · exact Or.inl (by omega)
    · rcases h2 with h2 | ⟨h2, h2'⟩
      · exact Or.inl (by omega)
      · exact Or.inr ⟨by omega, textLe_trans as bs cs h1' h2'⟩

theorem textLe_antisymm :
    ∀ a b : List Char, textLe a b = true → textLe b a = true → a = b
  | [], [], _, _ => rfl
  | [], _ :: _, _, h => by simp [textLe] at h
  | _ :: _, [], h, _ => by simp [textLe] at h
  | a :: as, b :: bs, h1, h2 => by
    simp only [textLe, Bool.or_eq_true, Bool.and_eq_true, decide_eq_true_eq] at h1 h2
    rcases h1 with h1 | ⟨h1, h1'⟩
    · rcases h2 with h2 | ⟨h2, -⟩ <;> omega
    · rcases h2 with h2 | ⟨-, h2'⟩
      · omega
      · rw [char_toNat_inj h1, textLe_antisymm as bs h1' h2']

theorem string_eq_of_data {s t : String} (h : s.data = t.data) : s = t := by
  cases s
  cases t
  simp_all

theorem apparatusOrder_total (p q : Picklist) : apparatusOrder p q ∨ apparatusOrder q p := by
  unfold apparatusOrder
  rcases lt_trichotomy p.SortOrder q.SortOrder with h | h | h
  · exact Or.inl (Or.inl h)
  · rcases textLe_total p.Value.data q.Value.data with h' | h'
    · exact Or.inl (Or.inr ⟨h, h'⟩)
    · exact Or.inr (Or.inr ⟨h.symm, h'⟩)
  · exact Or.inr (Or.inl h)

theorem apparatusOrder_trans (p q r : Picklist) (h1 : apparatusOrder p q)
    (h2 : apparatusOrder q r) : apparatusOrder p r := by
  unfold apparatusOrder at h1 h2 ⊢
  rcases h1 with h1 | ⟨h1, h1'⟩
  · rcases h2 with h2 | ⟨h2, -⟩
    · exact Or.inl (by omega)
    · exact Or.inl (by omega)
  · rcases h2 with h2 | ⟨h2, h2'⟩
    · exact Or.inl (by omega)
    · exact Or.inr ⟨by omega, textLe_trans _ _ _ h1' h2'⟩

theorem responderOrder_total (u v : User) : responderOrder u v ∨ responderOrder v u := by
  unfold responderOrder
  by_cases he : u.LastName = v.LastName
  · rcases textLe_total u.FirstName.data v.FirstName.data with h | h
    · exact Or.inl (Or.inr ⟨he, h⟩)
    · exact Or.inr (Or.inr ⟨he.symm, h⟩)
  · rcases textLe_total u.LastName.data v.LastName.data with h | h
    · exact Or.inl (Or.inl ⟨h, he⟩)
    · exact Or.inr (Or.inl ⟨h, fun e => he e.symm⟩)

theorem responderOrder_trans (u v w : User) (h1 : responderOrder u v)
    (h2 : responderOrder v w) : responderOrder u w := by
  unfold responderOrder at h1 h2 ⊢
  rcases h1 with ⟨h1, n1⟩ | ⟨e1, h1⟩
  · rcases h2 with ⟨h2, n2⟩ | ⟨e2, h2⟩
    · refine Or.inl ⟨textLe_trans _ _ _ h1 h2, ?_⟩
      intro e
      rw [e] at h1
      exact n2 (string_eq_of_data (textLe_antisymm _ _ h2 h1))
    · exact Or.inl ⟨e2 ▸ h1, e2 ▸ n1⟩
  · rcases h2 with ⟨h2, n2⟩ | ⟨e2, h2⟩
    · exact Or.inl ⟨e1 ▸ h2, e1 ▸ n2⟩
    · exact Or.inr ⟨e1.trans e2, textLe_trans _ _ _ h1 h2⟩

theorem newestFirst_total (a b : Call) : newestFirst a b ∨ newestFirst b a :=
  textLe_total _ _

theorem newestFirst_trans (a b c : Call) (h1 : newestFirst a b) (h2 : newestFirst b c) :
    newestFirst a c :=
  textLe_trans _ _ _ h2 h1

/-! ## Reads whose result no engine decides -/

theorem GetCallByID_found (e : Engine) (db : Store) (id : Int) (row : Call)
    (hfind : db.calls.find? (fun c => c.ID = id) = some row) (hread : TimesReadBack e row) :
    GetCallByID e db id =
      .ok (row, e.orderBy apparatusOrder (apparatusJoin db id),
        e.orderBy responderOrder (responderJoin db id)) := by
  unfold GetCallByID
  rw [hfind]
  simp only
  rw [(scanCall_eq_ok_iff e row).2 hread]

theorem GetCallByID_unread (e : Engine) (db : Store) (id : Int) (row : Call)
    (hfind : db.calls.find? (fun c => c.ID = id) = some row) (hread : ¬ TimesReadBack e row) :
    ∃ column, GetCallByID e db id = .error (.scanTime column) := by
  obtain ⟨col, hcol⟩ := scanCall_error_of_not e row hread
  refine ⟨col, ?_⟩
  unfold GetCallByID
  rw [hfind]
  simp only
  rw [hcol]

theorem GetCallByID_missing (e : Engine) (db : Store) (id : Int)
    (hfind : db.calls.find? (fun c => c.ID = id) = none) :
    GetCallByID e db id = .error .ErrNoRows := by
  unfold GetCallByID
  rw [hfind]

theorem GetCallByID_east (e : Engine) (db : Store) (id : Int)
    (h : (db.calls.find? (fun c => c.ID = id)).map (fun r => r.Dispatched.Zone) =
      some "+0100") :
    GetCallByID e db id = .error (.scanTime "dispatched") := by
  unfold GetCallByID
  cases hf : db.calls.find? (fun c => c.ID = id) with
  | none =>
    rw [hf] at h
    exact absurd h (by simp)
  | some row =>
    rw [hf] at h
    simp only [Option.map_some', Option.some.injEq] at h
    simp only
    rw [scanCall_dispatched_east e row h]

theorem DistinctKeys_filter {α : Type} (r : α → α → Prop) (p : α → Bool) (l : List α)
    (h : DistinctKeys r l) : DistinctKeys r (l.filter p) :=
  fun a ha b hb => h a (List.mem_filter.1 ha).1 b (List.mem_filter.1 hb).1

theorem GetCallByID_eq_sample (e : Engine) (db : Store) (id : Int)
    (hutc : ∀ row ∈ db.calls.find? (fun c => c.ID = id), TimesUTC row)
    (ha : DistinctKeys apparatusOrder (apparatusJoin db id))
    (hr : DistinctKeys responderOrder (responderJoin db id)) :
    GetCallByID e db id = GetCallByID sampleEngine db id := by
  cases hf : db.calls.find? (fun c => c.ID = id) with
  | none => rw [GetCallByID_missing e db id hf, GetCallByID_missing sampleEngine db id hf]
  | some row =>
    have hrow : TimesUTC row := hutc row (by rw [hf]; rfl)
    rw [GetCallByID_found e db id row hf (TimesReadBack_of_utc e hrow),
      GetCallByID_found sampleEngine db id row hf (TimesReadBack_of_utc sampleEngine hrow),
      orderBy_eq_insertionSort e _ apparatusOrder_total apparatusOrder_trans _ ha,
      orderBy_eq_insertionSort e _ responderOrder_total responderOrder_trans _ hr,
      orderBy_eq_insertionSort sampleEngine _ apparatusOrder_total apparatusOrder_trans _ ha,
      orderBy_eq_insertionSort sampleEngine _ responderOrder_total responderOrder_trans _ hr]

theorem searchRows_eq_sample (e : Engine) (db : Store) (filters : Filters) (limit offset : Int)
    (hd : DistinctKeys newestFirst db.calls) :
    searchRows e db filters limit offset = searchRows sampleEngine db filters limit offset := by
  unfold searchRows
  simp only
  rw [orderBy_eq_insertionSort e _ newestFirst_total newestFirst_trans _
      (DistinctKeys_filter _ _ _ hd),
    orderBy_eq_insertionSort sampleEngine _ newestFirst_total newestFirst_trans _
      (DistinctKeys_filter _ _ _ hd)]

theorem mem_sqlLimit {α : Type} (limit : Int) (l : List α) (x : α) (h : x ∈ sqlLimit limit l) :
    x ∈ l := by
  unfold sqlLimit at h
  split at h
  · exact h
  · exact List.mem_of_mem_take h

theorem mem_sqlOffset {α : Type} (offset : Int) (l : List α) (x : α)
    (h : x ∈ sqlOffset offset l) : x ∈ l :=
  List.mem_of_mem_drop h

theorem mem_searchRows (e : Engine) (db : Store) (filters : Filters) (limit offset : Int)
    (x : Call) (h : x ∈ searchRows e db filters limit offset) : x ∈ db.calls := by
  unfold searchRows at h
  have h1 := mem_sqlOffset _ _ _ (mem_sqlLimit _ _ _ h)
  rw [mem_orderBy] at h1
  exact (List.mem_filter.1 h1).1

theorem SearchCalls_eq_sample (e : Engine) (db : Store) (filters : Filters) (limit offset : Int)
    (hutc : ∀ c ∈ db.calls, TimesUTC c) (hd : DistinctKeys newestFirst db.calls) :
    SearchCalls e db filters limit offset = SearchCalls sampleEngine db filters limit offset := by
  unfold SearchCalls
  rw [searchRows_eq_sample e db filters limit offset hd,
    scanCalls_ok e _ (fun c hc => TimesReadBack_of_utc e (hutc c (mem_searchRows _ _ _ _ _ c hc))),
    scanCalls_ok sampleEngine _
      (fun c hc => TimesReadBack_of_utc sampleEngine (hutc c (mem_searchRows _ _ _ _ _ c hc)))]

theorem scanUser_eq_sample (e : Engine) (u : UserRow) (h : u.joined_date = none) :
    scanUser e u = scanUser sampleEngine u := by
  unfold scanUser scanJoinedDate
  rw [h]

theorem GetUserByID_eq_sample (e : Engine) (db : Store) (id : Int)
    (h : ∀ u ∈ db.users, u.joined_date = none) :
    GetUserByID e db id = GetUserByID sampleEngine db id := by
  unfold GetUserByID
  cases hf : db.users.find? (fun u => u.id = id) with
  | none => rfl
  | some u =>
    simp only
    rw [scanUser_eq_sample e u (h u (List.mem_of_find?_eq_some hf))]

theorem AuthenticateUser_eq_sample (e : Engine) (db : Store) (fullName pin : String)
    (h : ∀ u ∈ db.users, u.joined_date = none) :
    AuthenticateUser e db fullName pin = AuthenticateUser sampleEngine db fullName pin := by
  unfold AuthenticateUser
  split
  · rfl
  · cases hf : db.users.find? (fun u =>
        u.first_name ++ " " ++ u.last_name = fullName ∧ u.pin = some pin ∧ u.active = true) with
    | none => rfl
    | some u =>
      simp only
      rw [scanUser_eq_sample e u (h u (List.mem_of_find?_eq_some hf))]

theorem App_Login_eq_sample (e : Engine) (a : App) (name pin : String)
    (h : ∀ u ∈ a.db.users, u.joined_date = none) :
    App.Login e a name pin = App.Login sampleEngine a name pin := by
  unfold App.Login
  rw [AuthenticateUser_eq_sample e a.db name pin h]

theorem App_ChangePIN_eq_sample (e : Engine) (a : App) (oldPIN newPIN : String)
    (h : ∀ u ∈ a.db.users, u.joined_date = none) :
    App.ChangePIN e a oldPIN newPIN = App.ChangePIN sampleEngine a oldPIN newPIN := by
  unfold App.ChangePIN
  cases a.currentUser with
  | none => rfl
  | some u =>
    simp only
    rw [AuthenticateUser_eq_sample e a.db _ oldPIN h]

theorem App_DeleteUser_eq_sample (e : Engine) (a : App) (id : Int)
    (h : ∀ u ∈ a.db.users, u.joined_date = none) :
    App.DeleteUser e a id = App.DeleteUser sampleEngine a id := by
  unfold App.DeleteUser
  rw [GetUserByID_eq_sample e a.db id h]

theorem App_DeleteCall_eq_sample (e : Engine) (a : App) (now : Time) (id : Int)
    (hutc : ∀ row ∈ a.db.calls.find? (fun c => c.ID = id), TimesUTC row)
    (ha : DistinctKeys apparatusOrder (apparatusJoin a.db id))
    (hr : DistinctKeys responderOrder (responderJoin a.db id)) :
    App.DeleteCall e a now id = App.DeleteCall sampleEngine a now id := by
  unfold App.DeleteCall
  rw [GetCallByID_eq_sample e a.db id hutc ha hr]

theorem storedAdminSession_eq_sample (e : Engine) :
    storedAdminSession e = storedAdminSession sampleEngine := by
  unfold storedAdminSession
  rw [App_Login_eq_sample e _ "Admin User" "1234" (by decide)]
  rw [App_Login_eq_sample e _ "Admin User" "5678" (by decide)]

/-! ## The insert statements and loops -/

theorem insertCallApparatus_ok {tx tx' : Store} {callID a : Int}
    (h : insertCallApparatus tx callID a = .ok tx') :
    tx' = { tx with
            call_apparatus := tx.call_apparatus ++ apparatusRows callID tx.seq_call_apparatus [a],
            seq_call_apparatus := tx.seq_call_apparatus + 1 } ∧
      (∀ r ∈ tx.call_apparatus, ¬ (r.CallID = callID ∧ r.ApparatusID = a)) ∧
      (∃ c ∈ tx.calls, c.ID = callID) ∧ (∃ p ∈ tx.picklists, p.ID = a) := by
  unfold insertCallApparatus at h
  split_ifs at h with h1 h2 h3
  simp only [Except.ok.injEq] at h
  subst h
  refine ⟨rfl, ?_, ?_, ?_⟩
  · simpa using h1
  · simpa using h2
  · simpa using h3

theorem insertCallResponder_ok {tx tx' : Store} {callID r : Int} {role : String}
    (h : insertCallResponder tx callID r role = .ok tx') :
    tx' = { tx with
            call_responders := tx.call_responders ++
              [{ ID := (tx.seq_call_responders : Int) + 1, CallID := callID, ResponderID := r,
                 ResponderRole := role }],
            seq_call_responders := tx.seq_call_responders + 1 } ∧
      (∀ x ∈ tx.call_responders, ¬ (x.CallID = callID ∧ x.ResponderID = r)) ∧
      (∃ c ∈ tx.calls, c.ID = callID) ∧ (∃ u ∈ tx.users, u.id = r) := by
  unfold insertCallResponder at h
  split_ifs at h with h1 h2 h3
  simp only [Except.ok.injEq] at h
  subst h
  refine ⟨rfl, ?_, ?_, ?_⟩
  · simpa using h1
  · simpa using h2
  · simpa using h3

theorem insertApparatusLoop_ok {callID : Int} :
    ∀ (l : List Int) {tx tx' : Store}, insertApparatusLoop callID l tx = .ok tx' →
      tx' = { tx with
              call_apparatus := tx.call_apparatus ++ apparatusRows callID tx.seq_call_apparatus l,
              seq_call_apparatus := tx.seq_call_apparatus + l.length }
  | [], tx, tx', h => by
    simp only [insertApparatusLoop, Except.ok.injEq] at h
    subst h
    simp [apparatusRows]
  | a :: rest, tx, tx', h => by
    simp only [insertApparatusLoop] at h
    split at h
    · exact absurd h (by simp)
    · rename_i tx1 h1
      have e1 := (insertCallApparatus_ok h1).1
      have e2 := insertApparatusLoop_ok rest h
      rw [e2, e1]
      simp [apparatusRows, Nat.add_assoc, Nat.add_comm 1]

theorem insertRespondersLoop_ok {callID : Int} {roles : List String} :
    ∀ (l : List Int) (i : Nat) {tx tx' : Store},
      insertRespondersLoop callID roles i l tx = .ok tx' →
      tx' = { tx with
              call_responders := tx.call_responders ++
                responderRows callID roles tx.seq_call_responders i l,
              seq_call_responders := tx.seq_call_responders + l.length }
  | [], i, tx, tx', h => by
    simp only [insertRespondersLoop, Except.ok.injEq] at h
    subst h
    simp [responderRows]
  | a :: rest, i, tx, tx', h => by
    simp only [insertRespondersLoop] at h
    split at h
    · exact absurd h (by simp)
    · rename_i tx1 h1
      have e1 := (insertCallResponder_ok h1).1
      have e2 := insertRespondersLoop_ok rest (i + 1) h
      rw [e2, e1]
      simp [responderRows, Nat.add_assoc, Nat.add_comm 1]

/-- A successful apparatus loop found every id among the picklists. -/
theorem insertApparatusLoop_ok_refs {callID : Int} :
    ∀ (l : List Int) {tx tx' : Store}, insertApparatusLoop callID l tx = .ok tx' →
      ∀ a ∈ l, ∃ p ∈ tx.picklists, p.ID = a
  | [], _, _, _ => by simp
  | b :: rest, tx, tx', h => by
    simp only [insertApparatusLoop] at h
    split at h
    · exact absurd h (by simp)
    · rename_i tx1 h1
      obtain ⟨e1, -, -, hp⟩ := insertCallApparatus_ok h1
      have ih := insertApparatusLoop_ok_refs rest h
      intro a ha
      rcases List.mem_cons.1 ha with rfl | ha
      · exact hp
      · have := ih a ha
        rw [e1] at this
        exact this

/-- A successful responder loop found every id among the users. -/
theorem insertRespondersLoop_ok_refs {callID : Int} {roles : List String} :
    ∀ (l : List Int) (i : Nat) {tx tx' : Store},
      insertRespondersLoop callID roles i l tx = .ok tx' →
      ∀ a ∈ l, ∃ u ∈ tx.users, u.id = a
  | [], _, _, _, _ => by simp
  | b :: rest, i, tx, tx', h => by
    simp only [insertRespondersLoop] at h
    split at h
    · exact absurd h (by simp)
    · rename_i tx1 h1
      obtain ⟨e1, -, -, hp⟩ := insertCallResponder_ok h1
      have ih := insertRespondersLoop_ok_refs rest (i + 1) h
      intro a ha
      rcases List.mem_cons.1 ha with rfl | ha
      · exact hp
      · have := ih a ha
        rw [e1] at this
        exact this

/-! ## `CreateCall` -/

/-- An error of `CreateCall` leaves the database as it was. -/
theorem CreateCall_error (db : Store) (now : Time) (call : Call) (aIDs rIDs : List Int)
    (roles : List String) (h : (CreateCall db now call aIDs rIDs roles).2.2 ≠ none) :
    (CreateCall db now call aIDs rIDs roles).1 = db := by
  generalize hr : CreateCall db now call aIDs rIDs roles = r at h ⊢
  unfold CreateCall at hr
  simp only at hr
  split at hr
  · rw [← hr]
  · split at hr
    · rw [← hr]
    · split at hr
      · rw [← hr]
      · split at hr
        · rw [← hr]
        · rw [← hr] at h
          exact absurd rfl h

theorem CreateCall_ok (db : Store) (now : Time) (call : Call) (aIDs rIDs : List Int)
    (roles : List String) (h : (CreateCall db now call aIDs rIDs roles).2.2 = none) :
    ∃ num : String,
      (if call.IncidentNumber = "" then GetNextCallNumber db call.Dispatched.Year
        else .ok call.IncidentNumber) = .ok num ∧
      (∃ u ∈ db.users, u.id = call.CreatedBy) ∧
      (∀ a ∈ aIDs, ∃ p ∈ db.picklists, p.ID = a) ∧
      (∀ x ∈ rIDs, ∃ u ∈ db.users, u.id = x) ∧
      (CreateCall db now call aIDs rIDs roles).2.1 =
        { call with IncidentNumber := num, ID := (db.seq_calls : Int) + 1 } ∧
      (CreateCall db now call aIDs rIDs roles).1 =
        { db with
          calls := db.calls ++
            [{ call with IncidentNumber := num, ID := (db.seq_calls : Int) + 1,
                         CreatedAt := now, UpdatedAt := now }],
          seq_calls := db.seq_calls + 1,
          call_apparatus := db.call_apparatus ++
            apparatusRows ((db.seq_calls : Int) + 1) db.seq_call_apparatus aIDs,
          seq_call_apparatus := db.seq_call_apparatus + aIDs.length,
          call_responders := db.call_responders ++
            responderRows ((db.seq_calls : Int) + 1) roles db.seq_call_responders 0 rIDs,
          seq_call_responders := db.seq_call_responders + rIDs.length } := by
  generalize hr : CreateCall db now call aIDs rIDs roles = r at h ⊢
  unfold CreateCall at hr
  simp only at hr
  split at hr
  · rw [← hr] at h
    simp at h
  · rename_i num h1
    split at hr
    · rw [← hr] at h
      simp at h
    · rename_i tx1 callID h2
      split at hr
      · rw [← hr] at h
        simp at h
      · rename_i tx2 h3
        split at hr
        · rw [← hr] at h
          simp at h
        · rename_i tx3 h4
          unfold insertCall at h2
          split_ifs at h2 with hu
          simp only [Except.ok.injEq, Prod.mk.injEq] at h2
          obtain ⟨e1, e2⟩ := h2
          subst e2
          have e3 := insertApparatusLoop_ok _ h3
          have e4 := insertRespondersLoop_ok _ _ h4
          have r3 := insertApparatusLoop_ok_refs _ h3
          have r4 := insertRespondersLoop_ok_refs _ _ h4
          rw [e3, ← e1] at r4
          rw [← e1] at r3
          refine ⟨num, h1, by simpa using hu, r3, r4, ?_, ?_⟩
          · rw [← hr]
          · rw [← hr, e4, e3, ← e1]

theorem apparatusRows_map (callID : Int) :
    ∀ (l : List Int) (seq : Nat),
      (apparatusRows callID seq l).map (fun x => (x.CallID, x.ApparatusID)) =
        l.map (fun a => (callID, a))
  | [], _ => rfl
  | a :: rest, seq => by simp [apparatusRows, apparatusRows_map callID rest]

theorem responderRows_map (callID : Int) (roles : List String) :
    ∀ (l : List Int) (seq i : Nat),
      (responderRows callID roles seq i l).map (fun x => (x.CallID, x.ResponderID)) =
        l.map (fun a => (callID, a))
  | [], _, _ => rfl
  | a :: rest, seq, i => by simp [responderRows, responderRows_map callID roles rest]

theorem CreateCall_users (db : Store) (now : Time) (call : Call) (aIDs rIDs : List Int)
    (roles : List String) : (CreateCall db now call aIDs rIDs roles).1.users = db.users := by
  cases h : (CreateCall db now call aIDs rIDs roles).2.2 with
  | some e => rw [CreateCall_error db now call aIDs rIDs roles (by simp [h])]
  | none =>
    obtain ⟨num, -, -, -, -, -, e⟩ := CreateCall_ok db now call aIDs rIDs roles h
    rw [e]

/-- C3: `CreateCall` is atomic.  When it returns an error the database is
exactly what it was; when it succeeds exactly one call row, one apparatus
association per apparatus id and one responder association per responder id
have been appended and nothing else has changed.  A `created_by`, apparatus
id or responder id that references no stored row makes it return an error. -/
theorem CreateCall_atomic (db : Store) (now : Time) (call : Call) (aIDs rIDs : List Int)
    (roles : List String) :
    ((CreateCall db now call aIDs rIDs roles).2.2 ≠ none →
      (CreateCall db now call aIDs rIDs roles).1 = db) ∧
    ((CreateCall db now call aIDs rIDs roles).2.2 = none →
      (∃ row : Call, (CreateCall db now call aIDs rIDs roles).1.calls = db.calls ++ [row] ∧
        row.ID = (CreateCall db now call aIDs rIDs roles).2.1.ID) ∧
      (∃ rows : List CallApparatus,
        (CreateCall db now call aIDs rIDs roles).1.call_apparatus = db.call_apparatus ++ rows ∧
        rows.map (fun x => (x.CallID, x.ApparatusID)) =
          aIDs.map (fun a => ((CreateCall db now call aIDs rIDs roles).2.1.ID, a))) ∧
      (∃ rows : List CallResponder,
        (CreateCall db now call aIDs rIDs roles).1.call_responders =
          db.call_responders ++ rows ∧
        rows.map (fun x => (x.CallID, x.ResponderID)) =
          rIDs.map (fun a => ((CreateCall db now call aIDs rIDs roles).2.1.ID, a))) ∧
      (CreateCall db now call aIDs rIDs roles).1.users = db.users ∧
      (CreateCall db now call aIDs rIDs roles).1.picklists = db.picklists ∧
      (CreateCall db now call aIDs rIDs roles).1.settings = db.settings) ∧
    ((¬ ∃ u ∈ db.users, u.id = call.CreatedBy) →
      (CreateCall db now call aIDs rIDs roles).2.2 ≠ none) ∧
    ((∃ a ∈ aIDs, ¬ ∃ p ∈ db.picklists, p.ID = a) →
      (CreateCall db now call aIDs rIDs roles).2.2 ≠ none) ∧
    ((∃ x ∈ rIDs, ¬ ∃ u ∈ db.users, u.id = x) →
      (CreateCall db now call aIDs rIDs roles).2.2 ≠ none) := by
  refine ⟨CreateCall_error db now call aIDs rIDs roles, ?_, ?_, ?_, ?_⟩
  · intro h
    obtain ⟨num, -, -, -, -, e1, e2⟩ := CreateCall_ok db now call aIDs rIDs roles h
    rw [e1, e2]
    refine ⟨⟨_, rfl, rfl⟩, ⟨_, rfl, ?_⟩, ⟨_, rfl, ?_⟩, rfl, rfl, rfl⟩
    · exact apparatusRows_map _ _ _
    · exact responderRows_map _ _ _ _ _
  · intro hno h
    obtain ⟨num, -, hu, -⟩ := CreateCall_ok db now call aIDs rIDs roles h
    exact hno hu
  · rintro ⟨a, ha, hno⟩ h
    obtain ⟨num, -, -, hp, -⟩ := CreateCall_ok db now call aIDs rIDs roles h
    exact hno (hp a ha)
  · rintro ⟨a, ha, hno⟩ h
    obtain ⟨num, -, -, -, hp, -⟩ := CreateCall_ok db now call aIDs rIDs roles h
    exact hno (hp a ha)

/-! ## `UpdateCall` and `GetCallByID` -/

/-- An error of `UpdateCall` leaves the database as it was. -/
theorem UpdateCall_error (db : Store) (now : Time) (call : Call) (aIDs rIDs : List Int)
    (roles : List String) (h : (UpdateCall db now call aIDs rIDs roles).2 ≠ none) :
    (UpdateCall db now call aIDs rIDs roles).1 = db := by
  generalize hr : UpdateCall db now call aIDs rIDs roles = r at h ⊢
  unfold UpdateCall at hr
  simp only at hr
  split at hr
  · rw [← hr]
  · split at hr
    · rw [← hr]
    · rw [← hr] at h
      exact absurd rfl h

theorem UpdateCall_ok (db : Store) (now : Time) (call : Call) (aIDs rIDs : List Int)
    (roles : List String) (h : (UpdateCall db now call aIDs rIDs roles).2 = none) :
    (∀ a ∈ aIDs, ∃ p ∈ db.picklists, p.ID = a) ∧
    (∀ x ∈ rIDs, ∃ u ∈ db.users, u.id = x) ∧
    (UpdateCall db now call aIDs rIDs roles).1 =
      { db with
        calls := db.calls.map (fun (c : Call) =>
          if c.ID = call.ID then
            { c with
              IncidentNumber := call.IncidentNumber, CallType := call.CallType,
              MutualAid := call.MutualAid, Address := call.Address, Town := call.Town,
              LocationNotes := call.LocationNotes, Dispatched := call.Dispatched,
              Enroute := call.Enroute, OnScene := call.OnScene, Clear := call.Clear,
              Narrative := call.Narrative, UpdatedAt := now }
          else c),
        call_apparatus := db.call_apparatus.filter (fun r => r.CallID ≠ call.ID) ++
          apparatusRows call.ID db.seq_call_apparatus aIDs,
        seq_call_apparatus := db.seq_call_apparatus + aIDs.length,
        call_responders := db.call_responders.filter (fun r => r.CallID ≠ call.ID) ++
          responderRows call.ID roles db.seq_call_responders 0 rIDs,
        seq_call_responders := db.seq_call_responders + rIDs.length } := by
  generalize hr : UpdateCall db now call aIDs rIDs roles = r at h ⊢
  unfold UpdateCall at hr
  simp only at hr
  split at hr
  · rw [← hr] at h
    simp at h
  · rename_i tx2 h3
    split at hr
    · rw [← hr] at h
      simp at h
    · rename_i tx3 h4
      have e3 := insertApparatusLoop_ok _ h3
      have e4 := insertRespondersLoop_ok _ _ h4
      have r3 := insertApparatusLoop_ok_refs _ h3
      have r4 := insertRespondersLoop_ok_refs _ _ h4
      rw [e3] at r4
      refine ⟨r3, r4, ?_⟩
      rw [← hr, e4, e3]

theorem mem_apparatusRows (callID : Int) :
    ∀ (l : List Int) (seq : Nat) (x : CallApparatus),
      x ∈ apparatusRows callID seq l → x.CallID = callID ∧ x.ApparatusID ∈ l
  | [], _, x, h => by simp [apparatusRows] at h
  | a :: rest, seq, x, h => by
    simp only [apparatusRows, List.mem_cons] at h
    rcases h with rfl | h
    · simp
    · have := mem_apparatusRows callID rest (seq + 1) x h
      exact ⟨this.1, List.mem_cons_of_mem _ this.2⟩

theorem apparatusRows_has (callID : Int) :
    ∀ (l : List Int) (seq : Nat) (a : Int), a ∈ l →
      ∃ x ∈ apparatusRows callID seq l, x.CallID = callID ∧ x.ApparatusID = a
  | [], _, a, h => by simp at h
  | b :: rest, seq, a, h => by
    rcases List.mem_cons.1 h with rfl | h
    · exact ⟨_, List.mem_cons_self _ _, rfl, rfl⟩
    · obtain ⟨x, hx, h1, h2⟩ := apparatusRows_has callID rest (seq + 1) a h
      exact ⟨x, List.mem_cons_of_mem _ hx, h1, h2⟩

theorem mem_responderRows (callID : Int) (roles : List String) :
    ∀ (l : List Int) (seq i : Nat) (x : CallResponder),
      x ∈ responderRows callID roles seq i l → x.CallID = callID ∧ x.ResponderID ∈ l
  | [], _, _, x, h => by simp [responderRows] at h
  | a :: rest, seq, i, x, h => by
    simp only [responderRows, List.mem_cons] at h
    rcases h with rfl | h
    · simp
    · have := mem_responderRows callID roles rest (seq + 1) (i + 1) x h
      exact ⟨this.1, List.mem_cons_of_mem _ this.2⟩

theorem responderRows_has (callID : Int) (roles : List String) :
    ∀ (l : List Int) (seq i : Nat) (a : Int), a ∈ l →
      ∃ x ∈ responderRows callID roles seq i l, x.CallID = callID ∧ x.ResponderID = a
  | [], _, _, a, h => by simp at h
  | b :: rest, seq, i, a, h => by
    rcases List.mem_cons.1 h with rfl | h
    · exact ⟨_, List.mem_cons_self _ _, rfl, rfl⟩
    · obtain ⟨x, hx, h1, h2⟩ := responderRows_has callID roles rest (seq + 1) (i + 1) a h
      exact ⟨x, List.mem_cons_of_mem _ hx, h1, h2⟩

theorem find_UpdateCall_row (l : List Call) (now : Time) (call : Call)
    (hex : ∃ c ∈ l, c.ID = call.ID) :
    ∃ c0 ∈ l, c0.ID = call.ID ∧
      (l.map (fun (c : Call) =>
        if c.ID = call.ID then
          { c with
            IncidentNumber := call.IncidentNumber, CallType := call.CallType,
            MutualAid := call.MutualAid, Address := call.Address, Town := call.Town,
            LocationNotes := call.LocationNotes, Dispatched := call.Dispatched,
            Enroute := call.Enroute, OnScene := call.OnScene, Clear := call.Clear,
            Narrative := call.Narrative, UpdatedAt := now }
        else c)).find? (fun c => c.ID = call.ID) =
      some { c0 with
            IncidentNumber := call.IncidentNumber, CallType := call.CallType,
            MutualAid := call.MutualAid, Address := call.Address, Town := call.Town,
            LocationNotes := call.LocationNotes, Dispatched := call.Dispatched,
            Enroute := call.Enroute, OnScene := call.OnScene, Clear := call.Clear,
            Narrative := call.Narrative, UpdatedAt := now } := by
  induction l with
  | nil =>
    obtain ⟨c, hc, -⟩ := hex
    exact absurd hc (List.not_mem_nil _)
  | cons c rest ih =>
    by_cases hc : c.ID = call.ID
    · refine ⟨c, List.mem_cons_self _ _, hc, ?_⟩
      simp [List.find?_cons, hc]
    · have hex' : ∃ c ∈ rest, c.ID = call.ID := by
        obtain ⟨x, hx, hid⟩ := hex
        rcases List.mem_cons.1 hx with rfl | hx
        · exact absurd hid hc
        · exact ⟨x, hx, hid⟩
      obtain ⟨c0, hc0, hid, hf⟩ := ih hex'
      refine ⟨c0, List.mem_cons_of_mem _ hc0, hid, ?_⟩
      simp only [List.map_cons, hc, if_false, List.find?_cons, decide_False]
      exact hf

/-- C4, as the code has it: after a successful `UpdateCall` of an existing
call, the apparatus joined to the call have exactly the ids `apparatusIDs` and
the users joined to it exactly the ids `responderIDs`, whatever was associated
before.  `GetCallByID` returns rows with exactly these ids when the driver
reads back the times that were given for the call, and else it fails with the
`Scan` error of a time column. -/
theorem UpdateCall_replaces_associations (e : Engine) (db : Store) (now : Time) (call : Call)
    (aIDs rIDs : List Int) (roles : List String)
    (hex : ∃ c ∈ db.calls, c.ID = call.ID)
    (hok : (UpdateCall db now call aIDs rIDs roles).2 = none) :
    (∀ x, x ∈ (apparatusJoin (UpdateCall db now call aIDs rIDs roles).1 call.ID).map
      (fun p => p.ID) ↔ x ∈ aIDs) ∧
    (∀ x, x ∈ (responderJoin (UpdateCall db now call aIDs rIDs roles).1 call.ID).map
      (fun u => u.ID) ↔ x ∈ rIDs) ∧
    (TimesReadBack e call →
      ∃ (c : Call) (apparatus : List Picklist) (responders : List User),
        GetCallByID e (UpdateCall db now call aIDs rIDs roles).1 call.ID =
          .ok (c, apparatus, responders) ∧
        c.ID = call.ID ∧
        (∀ x, x ∈ apparatus.map (fun p => p.ID) ↔ x ∈ aIDs) ∧
        (∀ x, x ∈ responders.map (fun u => u.ID) ↔ x ∈ rIDs)) ∧
    (¬ TimesReadBack e call →
      ∃ column, GetCallByID e (UpdateCall db now call aIDs rIDs roles).1 call.ID =
        .error (.scanTime column)) := by
  obtain ⟨hp, hu, he⟩ := UpdateCall_ok db now call aIDs rIDs roles hok
  obtain ⟨c0, -, hid0, hfind⟩ := find_UpdateCall_row db.calls now call hex
  rw [he]
  have hA : ∀ x, x ∈ (apparatusJoin
      { db with
        calls := db.calls.map (fun (c : Call) =>
          if c.ID = call.ID then
            { c with
              IncidentNumber := call.IncidentNumber, CallType := call.CallType,
              MutualAid := call.MutualAid, Address := call.Address, Town := call.Town,
              LocationNotes := call.LocationNotes, Dispatched := call.Dispatched,
              Enroute := call.Enroute, OnScene := call.OnScene, Clear := call.Clear,
              Narrative := call.Narrative, UpdatedAt := now }
          else c),
        call_apparatus := db.call_apparatus.filter (fun r => r.CallID ≠ call.ID) ++
          apparatusRows call.ID db.seq_call_apparatus aIDs,
        seq_call_apparatus := db.seq_call_apparatus + aIDs.length,
        call_responders := db.call_responders.filter (fun r => r.CallID ≠ call.ID) ++
          responderRows call.ID roles db.seq_call_responders 0 rIDs,
        seq_call_responders := db.seq_call_responders + rIDs.length } call.ID).map
      (fun p => p.ID) ↔ x ∈ aIDs := by
    intro x
    simp only [apparatusJoin, List.mem_map, List.mem_flatMap, List.mem_filter,
      List.mem_append, decide_eq_true_eq]
    constructor
    · rintro ⟨p, ⟨ca, ⟨hca | hca, hcid⟩, -, hpid⟩, rfl⟩
      · exact absurd hcid (by simpa using hca.2)
      · rw [← hpid]
        exact (mem_apparatusRows _ _ _ _ hca).2
    · intro hx
      obtain ⟨p, hp1, hp2⟩ := hp x hx
      obtain ⟨ca, hca, h1, h2⟩ := apparatusRows_has call.ID aIDs db.seq_call_apparatus x hx
      exact ⟨p, ⟨ca, ⟨Or.inr hca, h1⟩, hp1, by rw [h2, hp2]⟩, hp2⟩
  have hR : ∀ x, x ∈ (responderJoin
      { db with
        calls := db.calls.map (fun (c : Call) =>
          if c.ID = call.ID then
            { c with
              IncidentNumber := call.IncidentNumber, CallType := call.CallType,
              MutualAid := call.MutualAid, Address := call.Address, Town := call.Town,
              LocationNotes := call.LocationNotes, Dispatched := call.Dispatched,
              Enroute := call.Enroute, OnScene := call.OnScene, Clear := call.Clear,
              Narrative := call.Narrative, UpdatedAt := now }
          else c),
        call_apparatus := db.call_apparatus.filter (fun r => r.CallID ≠ call.ID) ++
          apparatusRows call.ID db.seq_call_apparatus aIDs,
        seq_call_apparatus := db.seq_call_apparatus + aIDs.length,
        call_responders := db.call_responders.filter (fun r => r.CallID ≠ call.ID) ++
          responderRows call.ID roles db.seq_call_responders 0 rIDs,
        seq_call_responders := db.seq_call_responders + rIDs.length } call.ID).map
      (fun u => u.ID) ↔ x ∈ rIDs := by
    intro x
    simp only [responderJoin, List.mem_map, List.mem_flatMap, List.mem_filter,
      List.mem_append, decide_eq_true_eq]
    constructor
    · rintro ⟨u, ⟨cr, ⟨hcr | hcr, hcid⟩, ⟨w, ⟨-, hw⟩, rfl⟩⟩, rfl⟩
      · exact absurd hcid (by simpa using hcr.2)
      · simp only [responderOfRow]
        rw [← hw]
        exact (mem_responderRows _ _ _ _ _ _ hcr).2
    · intro hx
      obtain ⟨u, hu1, hu2⟩ := hu x hx
      obtain ⟨cr, hcr, h1, h2⟩ :=
        responderRows_has call.ID roles rIDs db.seq_call_responders 0 x hx
      exact ⟨responderOfRow u, ⟨cr, ⟨Or.inr hcr, h1⟩, u, ⟨hu1, by rw [h2, hu2]⟩, rfl⟩, hu2⟩
  refine ⟨hA, hR, ?_, ?_⟩
  · intro hread
    refine ⟨_, _, _, GetCallByID_found e _ call.ID _ hfind hread, hid0, ?_, ?_⟩
    · intro x
      rw [← hA x]
      simp only [List.mem_map, mem_orderBy]
    · intro x
      rw [← hR x]
      simp only [List.mem_map, mem_orderBy]
  · intro hread
    exact GetCallByID_unread e _ call.ID _ hfind hread

/-! ## Stored user ids -/

theorem UpdateCall_users (db : Store) (now : Time) (call : Call) (aIDs rIDs : List Int)
    (roles : List String) : (UpdateCall db now call aIDs rIDs roles).1.users = db.users := by
  cases h : (UpdateCall db now call aIDs rIDs roles).2 with
  | some e => rw [UpdateCall_error db now call aIDs rIDs roles (by simp [h])]
  | none => rw [(UpdateCall_ok db now call aIDs rIDs roles h).2.2]

theorem foldl_users {α : Type} (f : Store → α → Store)
    (hf : ∀ s a, (f s a).users = s.users) :
    ∀ (l : List α) (s : Store), (l.foldl f s).users = s.users
  | [], _ => rfl
  | a :: rest, s => by rw [List.foldl_cons, foldl_users f hf rest, hf]

theorem insertOrIgnorePicklist_users (db : Store) (category value : String) (sortOrder : Int) :
    (insertOrIgnorePicklist db category value sortOrder).users = db.users := by
  unfold insertOrIgnorePicklist
  split <;> rfl

theorem insertOrIgnoreSetting_users (db : Store) (key value : String) :
    (insertOrIgnoreSetting db key value).users = db.users := by
  unfold insertOrIgnoreSetting
  split <;> rfl

theorem seedDefaultData_users (db : Store) (now : Time) :
    (seedDefaultData db now).1.users =
      if db.users.length = 0 then
        (insertUser db now "Admin" "User" "administrator" none true (some "1234")).users
      else db.users := by
  unfold seedDefaultData
  by_cases hlen : db.users.length = 0
  · simp only [hlen, if_true]
    split
    · rfl
    · simp only [insertOrIgnoreSetting_users]
      rw [foldl_users]
      intro s a
      exact foldl_users _ (fun s iv => insertOrIgnorePicklist_users _ _ _ _) _ _
  · simp only [hlen, if_false]
    split
    · rfl
    · simp only [insertOrIgnoreSetting_users]
      rw [foldl_users]
      intro s a
      exact foldl_users _ (fun s iv => insertOrIgnorePicklist_users _ _ _ _) _ _

theorem ensureAdminExists_eq (db : Store) (now : Time) :
    ensureAdminExists db now = (db, some (.noSuchColumn "users" "role")) := by
  rfl

theorem UserIdsPositive_insertUser {db : Store} (h : UserIdsPositive db) (now : Time)
    (f l p : String) (e : Option String) (a : Bool) (pin : Option String) :
    UserIdsPositive (insertUser db now f l p e a pin) := by
  intro u hu
  simp only [insertUser, List.mem_append, List.mem_singleton] at hu
  rcases hu with hu | rfl
  · exact h u hu
  · show (1 : Int) ≤ (db.seq_users : Int) + 1
    omega

theorem UserIdsPositive_updateUsersWhere {db : Store} (h : UserIdsPositive db) (id : Int)
    (f : UserRow → UserRow) (hf : ∀ u, (f u).id = u.id) :
    UserIdsPositive (updateUsersWhere db id f) := by
  intro u hu
  simp only [updateUsersWhere, List.mem_map] at hu
  obtain ⟨v, hv, rfl⟩ := hu
  split
  · rw [hf]
    exact h v hv
  · exact h v hv

theorem UserIdsPositive_of_users {db db' : Store} (h : UserIdsPositive db)
    (e : db'.users = db.users) : UserIdsPositive db' := by
  intro u hu
  rw [e] at hu
  exact h u hu

theorem UserIdsPositive_InitDB {db : Store} (h : UserIdsPositive db) (now : Time) :
    UserIdsPositive (InitDB db now) := by
  unfold InitDB
  simp only [ensureAdminExists_eq]
  intro u hu
  rw [seedDefaultData_users] at hu
  split at hu
  · exact UserIdsPositive_insertUser h _ _ _ _ _ _ _ u hu
  · exact h u hu

theorem Reachable_UserIdsPositive {db : Store} (h : Reachable db) : UserIdsPositive db := by
  induction h with
  | init now => exact UserIdsPositive_InitDB (fun u hu => by simp [Store.empty] at hu) now
  | restart now _ ih => exact UserIdsPositive_InitDB ih now
  | createUser now f l p e pin a _ ih => exact UserIdsPositive_insertUser ih _ _ _ _ _ _ _
  | updateUser user _ ih => exact UserIdsPositive_updateUsersWhere ih _ _ (fun _ => rfl)
  | changePIN id pin _ ih => exact UserIdsPositive_updateUsersWhere ih _ _ (fun _ => rfl)
  | updateUserPosition id p _ ih => exact UserIdsPositive_updateUsersWhere ih _ _ (fun _ => rfl)
  | updateUserAdminStatus id a _ ih =>
    exact UserIdsPositive_updateUsersWhere ih _ _ (fun _ => rfl)
  | updateUserJoinDate id d _ ih => exact UserIdsPositive_updateUsersWhere ih _ _ (fun _ => rfl)
  | createPicklistItem c v o _ ih =>
    refine UserIdsPositive_of_users ih ?_
    unfold CreatePicklistItem
    split <;> rfl
  | updatePicklistItem item _ ih =>
    refine UserIdsPositive_of_users ih ?_
    unfold UpdatePicklistItem
    split
    · rfl
    · split <;> rfl
  | deletePicklistItem id _ ih => exact UserIdsPositive_of_users ih rfl
  | createCall now call a r roles _ ih =>
    exact UserIdsPositive_of_users ih (CreateCall_users _ _ _ _ _ _)
  | updateCall now call a r roles _ ih =>
    exact UserIdsPositive_of_users ih (UpdateCall_users _ _ _ _ _ _)

theorem updateUsersWhere_absent (db : Store) (id : Int) (f : UserRow → UserRow)
    (h : ∀ u ∈ db.users, u.id ≠ id) : updateUsersWhere db id f = db := by
  unfold updateUsersWhere
  have : db.users.map (fun u => if u.id = id then f u else u) = db.users := by
    conv_rhs => rw [← List.map_id db.users]
    apply List.map_congr_left
    intro u hu
    simp [h u hu]
  rw [this]

/-! ## `AuthenticateUser` -/

/-- C8: the hardcoded credential authenticates on every database and yields
the identity with ID 0, admin and active; and in every reachable database all
stored user ids are at least 1, so no stored row is that identity, also when
an active stored user is named `Admin User` with PIN `1234`. -/
theorem AuthenticateUser_hardcoded (e : Engine) (db : Store) :
    (∃ user : User, AuthenticateUser e db "Admin User" "1234" = .ok user ∧
      user.ID = 0 ∧ user.IsAdmin = true ∧ user.Active = true) ∧
    (Reachable db → ∀ u ∈ db.users, 1 ≤ u.id ∧ u.id ≠ 0) := by
  refine ⟨⟨hardcodedAdmin, ?_, rfl, rfl, rfl⟩, ?_⟩
  · simp [AuthenticateUser]
  · intro h u hu
    have := Reachable_UserIdsPositive h u hu
    omega

theorem scanJoinedDate_read (e : Engine) (u : UserRow) (h : JoinedDateRead e u) :
    scanJoinedDate e u.joined_date = .ok (u.joined_date.bind e.readTime) := by
  unfold scanJoinedDate
  cases hj : u.joined_date with
  | none => rfl
  | some text =>
    simp only [Option.some_bind]
    cases hr : e.readTime text with
    | none => exact absurd hr (h text hj)
    | some t => rfl

theorem scanJoinedDate_unread (e : Engine) (u : UserRow) (h : ¬ JoinedDateRead e u) :
    scanJoinedDate e u.joined_date = .error (.scanTime "joined_date") := by
  unfold scanJoinedDate
  cases hj : u.joined_date with
  | none => exact absurd (fun text ht => by rw [hj] at ht; exact absurd ht (by simp)) h
  | some text =>
    simp only
    cases hr : e.readTime text with
    | none => rfl
    | some t =>
      apply absurd _ h
      intro text' ht
      rw [hj] at ht
      cases ht
      rw [hr]
      simp

theorem scanUser_read (e : Engine) (u : UserRow) (pin : String) (hpin : u.pin = some pin)
    (h : JoinedDateRead e u) :
    scanUser e u =
      .ok { ID := u.id, FirstName := u.first_name, LastName := u.last_name,
            Position := u.position, EMSLevel := u.ems_level.getD "", IsAdmin := u.is_admin,
            PIN := pin, Active := u.active, JoinedDate := u.joined_date.bind e.readTime,
            Created := u.created } := by
  unfold scanUser
  rw [hpin]
  simp only
  rw [scanJoinedDate_read e u h]

theorem scanUser_unread (e : Engine) (u : UserRow) (pin : String) (hpin : u.pin = some pin)
    (h : ¬ JoinedDateRead e u) :
    scanUser e u = .error (.scanTime "joined_date") := by
  unfold scanUser
  rw [hpin]
  simp only
  rw [scanJoinedDate_unread e u h]

theorem JoinedDateRead_of_null (e : Engine) (u : UserRow) (h : u.joined_date = none) :
    JoinedDateRead e u := by
  intro text ht
  rw [h] at ht
  exact absurd ht (by simp)

/-- C9, as the code has it: for a credential other than the hardcoded one,
`AuthenticateUser` looks at the first stored row that has the full name, the
PIN and `active`.  With no such row it fails with `sql.ErrNoRows`, the same
error for an unknown name, a wrong PIN and an inactive user.  With such a row
it returns that user when the row's `joined_date` is NULL or text that the
driver reads as a time, and fails with the `Scan` error of `joined_date`, which
is not `sql.ErrNoRows`, when it is any other text. -/
theorem AuthenticateUser_stored (e : Engine) (db : Store) (fullName pin : String)
    (h : ¬ (fullName = "Admin User" ∧ pin = "1234")) :
    (∀ u, db.users.find? (fun u =>
        u.first_name ++ " " ++ u.last_name = fullName ∧ u.pin = some pin ∧ u.active = true) =
          some u →
      (u ∈ db.users ∧ u.first_name ++ " " ++ u.last_name = fullName ∧ u.pin = some pin ∧
        u.active = true) ∧
      (JoinedDateRead e u →
        ∃ user : User, AuthenticateUser e db fullName pin = .ok user ∧ user.ID = u.id ∧
          user.FirstName = u.first_name ∧ user.LastName = u.last_name ∧ user.PIN = pin ∧
          user.Active = true ∧ user.IsAdmin = u.is_admin) ∧
      (¬ JoinedDateRead e u →
        AuthenticateUser e db fullName pin = .error (.scanTime "joined_date"))) ∧
    ((∃ u ∈ db.users, u.first_name ++ " " ++ u.last_name = fullName ∧ u.pin = some pin ∧
        u.active = true) →
      ∃ u, db.users.find? (fun u =>
        u.first_name ++ " " ++ u.last_name = fullName ∧ u.pin = some pin ∧ u.active = true) =
          some u) ∧
    ((¬ ∃ u ∈ db.users, u.first_name ++ " " ++ u.last_name = fullName ∧ u.pin = some pin ∧
        u.active = true) →
      AuthenticateUser e db fullName pin = .error .ErrNoRows) := by
  refine ⟨?_, ?_, ?_⟩
  · intro u hsome
    have hmem := List.mem_of_find?_eq_some hsome
    have hm := List.find?_some hsome
    simp only [decide_eq_true_eq] at hm
    refine ⟨⟨hmem, hm⟩, ?_, ?_⟩
    · intro hread
      refine ⟨{ ID := u.id, FirstName := u.first_name, LastName := u.last_name,
                Position := u.position, EMSLevel := u.ems_level.getD "", IsAdmin := u.is_admin,
                PIN := pin, Active := u.active, JoinedDate := u.joined_date.bind e.readTime,
                Created := u.created }, ?_, rfl, rfl, rfl, rfl, hm.2.2, rfl⟩
      unfold AuthenticateUser
      rw [if_neg h, hsome]
      exact scanUser_read e u pin hm.2.1 hread
    · intro hread
      unfold AuthenticateUser
      rw [if_neg h, hsome]
      exact scanUser_unread e u pin hm.2.1 hread
  · rintro ⟨u, hu, hm⟩
    cases hf : db.users.find? (fun u =>
        u.first_name ++ " " ++ u.last_name = fullName ∧ u.pin = some pin ∧ u.active = true) with
    | none =>
      rw [List.find?_eq_none] at hf
      exact absurd (by simpa using hm) (hf u hu)
    | some w => exact ⟨w, rfl⟩
  · intro hno
    unfold AuthenticateUser
    rw [if_neg h]
    split
    · rfl
    · rename_i u hsome
      have hmem := List.mem_of_find?_eq_some hsome
      have hm := List.find?_some hsome
      simp only [decide_eq_true_eq] at hm
      exact absurd ⟨u, hmem, hm⟩ hno

/-! ## `ChangePIN` -/

/-- C10, as the code has it: `App.ChangePIN` in a session of the hardcoded
identity (ID 0) is rejected with an error and changes nothing; `db.ChangePIN`
with user id 0 is not rejected, it returns nil, and on every reachable
database it changes nothing; `App.ChangeUserPIN` with user id 0 leaves every
reachable database as it was. -/
theorem ChangePIN_hardcoded (newPIN : String) :
    (∀ (e : Engine) (a : App) (oldPIN : String) (u : User), a.currentUser = some u → u.ID = 0 →
      App.ChangePIN e a oldPIN newPIN =
        (a, some (.errorsNew "cannot change hardcoded admin PIN"))) ∧
    (∀ db : Store, Reachable db → ChangePIN db 0 newPIN = (db, none)) ∧
    (∀ a : App, Reachable a.db → (App.ChangeUserPIN a 0 newPIN).1 = a) := by
  have key : ∀ db : Store, Reachable db → ChangePIN db 0 newPIN = (db, none) := by
    intro db h
    unfold ChangePIN
    rw [updateUsersWhere_absent]
    intro u hu
    have := Reachable_UserIdsPositive h u hu
    omega
  refine ⟨?_, key, ?_⟩
  · intro e a oldPIN u hu h0
    unfold App.ChangePIN
    simp [hu, h0]
  · intro a h
    unfold App.ChangeUserPIN
    split
    · rfl
    · split
      · rfl
      · simp [key a.db h]

/-! ## Decimal text -/

theorem toDigitsCore_acc :
    ∀ (f n : Nat) (acc : List Char),
      Nat.toDigitsCore 10 f n acc = Nat.toDigitsCore 10 f n [] ++ acc
  | 0, _, _ => by simp [Nat.toDigitsCore]
  | f + 1, n, acc => by
    simp only [Nat.toDigitsCore]
    split
    · simp
    · rw [toDigitsCore_acc f (n / 10) (_ :: acc), toDigitsCore_acc f (n / 10) [_]]
      simp

theorem toDigitsCore_fuel :
    ∀ (f g n : Nat) (acc : List Char), n < f → n < g →
      Nat.toDigitsCore 10 f n acc = Nat.toDigitsCore 10 g n acc
  | 0, _, _, _, hf, _ => absurd hf (Nat.not_lt_zero _)
  | _ + 1, 0, _, _, _, hg => absurd hg (Nat.not_lt_zero _)
  | f + 1, g + 1, n, acc, hf, hg => by
    simp only [Nat.toDigitsCore]
    split
    · rfl
    · rename_i hne
      have h10 : n / 10 < n := Nat.div_lt_self (by omega) (by omega)
      exact toDigitsCore_fuel f g (n / 10) _ (by omega) (by omega)

theorem toDigits_small (n : Nat) (h : n < 10) : Nat.toDigits 10 n = [Nat.digitChar n] := by
  unfold Nat.toDigits
  simp only [Nat.toDigitsCore]
  rw [if_pos (by omega), Nat.mod_eq_of_lt h]

theorem toDigits_step (n : Nat) (h : 10 ≤ n) :
    Nat.toDigits 10 n = Nat.toDigits 10 (n / 10) ++ [Nat.digitChar (n % 10)] := by
  unfold Nat.toDigits
  simp only [Nat.toDigitsCore]
  rw [if_neg (by omega), toDigitsCore_acc]
  congr 1
  exact toDigitsCore_fuel n (n / 10 + 1) (n / 10) [] (by omega) (by omega)

/-- A number below ten prints as one of the ten decimal digit characters. -/
theorem digitChar_mem (d : Nat) (h : d < 10) : Nat.digitChar d ∈ "0123456789".data := by
  interval_cases d <;> decide

theorem digitVal_digitChar (d : Nat) (h : d < 10) : digitVal (Nat.digitChar d) = d := by
  interval_cases d <;> decide

theorem digitsVal_append (l : List Char) (c : Char) :
    digitsVal (l ++ [c]) = digitsVal l * 10 + digitVal c := by
  simp [digitsVal, List.foldl_append]

theorem digitsVal_toDigits (n : Nat) : digitsVal (Nat.toDigits 10 n) = n := by
  induction n using Nat.strong_induction_on with
  | _ n ih =>
    by_cases h : n < 10
    · rw [toDigits_small n h]
      simp [digitsVal, digitVal_digitChar n h]
    · rw [toDigits_step n (by omega), digitsVal_append, ih (n / 10) (by omega),
        digitVal_digitChar _ (Nat.mod_lt _ (by omega))]
      omega

theorem toDigits_mem (n : Nat) : ∀ c ∈ Nat.toDigits 10 n, c ∈ "0123456789".data := by
  induction n using Nat.strong_induction_on with
  | _ n ih =>
    by_cases h : n < 10
    · rw [toDigits_small n h]
      intro c hc
      rw [List.mem_singleton] at hc
      rw [hc]
      exact digitChar_mem n h
    · rw [toDigits_step n (by omega)]
      intro c hc
      rcases List.mem_append.1 hc with hc | hc
      · exact ih (n / 10) (by omega) c hc
      · rw [List.mem_singleton] at hc
        rw [hc]
        exact digitChar_mem _ (Nat.mod_lt _ (by omega))

theorem toDigits_length_1 (n : Nat) (h : n < 10) : (Nat.toDigits 10 n).length = 1 := by
  rw [toDigits_small n h]
  rfl

theorem toDigits_length_2 (n : Nat) (h1 : 10 ≤ n) (h2 : n < 100) :
    (Nat.toDigits 10 n).length = 2 := by
  rw [toDigits_step n h1, List.length_append, toDigits_length_1 _ (by omega)]
  rfl

theorem toDigits_length_3 (n : Nat) (h1 : 100 ≤ n) (h2 : n < 1000) :
    (Nat.toDigits 10 n).length = 3 := by
  rw [toDigits_step n (by omega), List.length_append, toDigits_length_2 _ (by omega) (by omega)]
  rfl

theorem toDigits_length_4 (n : Nat) (h1 : 1000 ≤ n) (h2 : n < 10000) :
    (Nat.toDigits 10 n).length = 4 := by
  rw [toDigits_step n (by omega), List.length_append, toDigits_length_3 _ (by omega) (by omega)]
  rfl

theorem toDigits_inj (a b : Nat) (h : Nat.toDigits 10 a = Nat.toDigits 10 b) : a = b := by
  rw [← digitsVal_toDigits a, ← digitsVal_toDigits b, h]

theorem digitsVal_zeros (l : List Char) :
    ∀ z : Nat, digitsVal (List.replicate z '0' ++ l) = digitsVal l
  | 0 => by simp
  | z + 1 => by
    have ih := digitsVal_zeros l z
    simp only [digitsVal] at ih ⊢
    rw [List.replicate_succ, List.cons_append, List.foldl_cons]
    exact ih

/-! ## `LIKE` and `CAST` on the texts of incident numbers -/

theorem literal_facts :
    ∀ c ∈ "0123456789-".data, c ≠ '%' ∧ c ≠ '_' ∧ likeFold c = c := by
  decide

theorem digit_facts :
    ∀ c ∈ "0123456789".data,
      c ∈ "0123456789-".data ∧ c ≠ '-' ∧ c ≠ '+' ∧ c.isDigit = true ∧ sqliteIsSpace c = false := by
  decide

theorem ofNat_upper_not_literal (m : Nat) (h1 : 65 ≤ m) (h2 : m ≤ 90) :
    Char.ofNat m ∉ "0123456789-".data := by
  interval_cases m <;> decide

theorem likeFold_eq_literal (c d : Char) (hc : c ∈ "0123456789-".data)
    (h : likeFold c = likeFold d) : d = c := by
  rw [(literal_facts c hc).2.2] at h
  unfold likeFold at h
  split at h
  · rename_i hl
    have h97 : 'a'.toNat = 97 := by decide
    have h122 : 'z'.toNat = 122 := by decide
    rw [h97, h122] at hl
    exact absurd (h ▸ hc) (ofNat_upper_not_literal _ (by omega) (by omega))
  · exact h.symm

theorem likeMatch_percent (s : List Char) : likeMatch ['%'] s = true := by
  simp only [likeMatch, if_true, List.any_eq_true]
  exact ⟨[], by simp, rfl⟩

theorem likeMatch_literal_self :
    ∀ (p rest : List Char), (∀ c ∈ p, c ∈ "0123456789-".data) →
      likeMatch (p ++ ['%']) (p ++ rest) = true
  | [], rest, _ => likeMatch_percent rest
  | c :: p, rest, hp => by
    have hc := literal_facts c (hp c (List.mem_cons_self _ _))
    simp only [List.cons_append, likeMatch, if_neg hc.1, List.append_eq]
    rw [likeMatch_literal_self p rest (fun x hx => hp x (List.mem_cons_of_mem _ hx))]
    simp

theorem likeMatch_literal_take :
    ∀ (p s : List Char), (∀ c ∈ p, c ∈ "0123456789-".data) →
      likeMatch (p ++ ['%']) s = true → s.take p.length = p
  | [], s, _, _ => by simp
  | c :: p, s, hp, h => by
    have hcm := hp c (List.mem_cons_self _ _)
    have hc := literal_facts c hcm
    simp only [List.cons_append, likeMatch, if_neg hc.1, List.append_eq] at h
    cases s with
    | nil => simp at h
    | cons d s' =>
      simp only [Bool.and_eq_true, Bool.or_eq_true, decide_eq_true_eq] at h
      obtain ⟨h1, h2⟩ := h
      have hd : d = c := by
        rcases h1 with h1 | h1
        · exact absurd h1 hc.2.1
        · exact likeFold_eq_literal c d hcm h1
      rw [hd, List.length_cons, List.take_succ_cons,
        likeMatch_literal_take p s' (fun x hx => hp x (List.mem_cons_of_mem _ hx)) h2]

theorem castInteger_digits (l : List Char) (h : ∀ c ∈ l, c ∈ "0123456789".data) :
    castInteger l = (digitsVal l : Int) := by
  cases l with
  | nil => rfl
  | cons c r =>
    have hc := digit_facts c (h c (List.mem_cons_self _ _))
    have htake : (c :: r).takeWhile Char.isDigit = c :: r := by
      rw [List.takeWhile_eq_self_iff]
      intro x hx
      exact (digit_facts x (h x hx)).2.2.2.1
    unfold castInteger
    rw [List.dropWhile_cons_of_neg (by simp [hc.2.2.2.2])]
    split
    · rename_i heq
      exact absurd (List.cons.inj heq).1 hc.2.1
    · rename_i heq
      exact absurd (List.cons.inj heq).1 hc.2.2.1
    · rw [htake]

/-! ## Incident numbers of a four-digit year -/

theorem foldl_max_eq :
    ∀ (xs : List Int) (a t : Int), t ∈ a :: xs → (∀ x ∈ a :: xs, x ≤ t) → xs.foldl max a = t
  | [], a, t, hm, _ => by
    rw [List.mem_singleton] at hm
    exact hm.symm
  | y :: ys, a, t, hm, hle => by
    rw [List.foldl_cons]
    have ha := hle a (List.mem_cons_self _ _)
    have hy := hle y (List.mem_cons_of_mem _ (List.mem_cons_self _ _))
    apply foldl_max_eq ys (max a y) t
    · rcases List.mem_cons.1 hm with rfl | hm
      · rw [max_eq_left hy]
        exact List.mem_cons_self _ _
      · rcases List.mem_cons.1 hm with rfl | hm
        · rw [max_eq_right ha]
          exact List.mem_cons_self _ _
        · exact List.mem_cons_of_mem _ hm
    · intro x hx
      rcases List.mem_cons.1 hx with rfl | hx
      · exact max_le ha hy
      · exact hle x (List.mem_cons_of_mem _ (List.mem_cons_of_mem _ hx))

theorem coalesceMax_eq (l : List Int) (t : Int) (hm : t ∈ l) (hle : ∀ x ∈ l, x ≤ t) :
    coalesceMax l = t := by
  cases l with
  | nil => simp at hm
  | cons a xs => exact foldl_max_eq xs a t hm hle

theorem sprintfD_fourDigit (Y : Int) (h1 : 1000 ≤ Y) (h2 : Y ≤ 9999) :
    sprintfD Y = Nat.toDigits 10 Y.toNat ∧ (sprintfD Y).length = 4 ∧
      ∀ c ∈ sprintfD Y, c ∈ "0123456789".data := by
  have e : sprintfD Y = Nat.toDigits 10 Y.toNat := by
    unfold sprintfD
    rw [if_neg (by omega)]
    congr 1
    omega
  refine ⟨e, ?_, ?_⟩
  · rw [e]
    exact toDigits_length_4 _ (by omega) (by omega)
  · rw [e]
    exact toDigits_mem _

theorem sprintf03d_nat (k : Nat) :
    sprintf03d (k : Int) =
      List.replicate (3 - (Nat.toDigits 10 k).length) '0' ++ Nat.toDigits 10 k := by
  unfold sprintf03d
  simp only [Int.natAbs_ofNat]
  rw [if_neg (by omega)]

theorem sprintf03d_mem (k : Nat) : ∀ c ∈ sprintf03d (k : Int), c ∈ "0123456789".data := by
  rw [sprintf03d_nat]
  intro c hc
  rcases List.mem_append.1 hc with hc | hc
  · rw [(List.mem_replicate.1 hc).2]
    decide
  · exact toDigits_mem k c hc

theorem sprintf03d_length (k : Nat) (h : k ≤ 999) : (sprintf03d (k : Int)).length = 3 := by
  rw [sprintf03d_nat, List.length_append, List.length_replicate]
  by_cases h1 : k < 10
  · rw [toDigits_length_1 k h1]
  · by_cases h2 : k < 100
    · rw [toDigits_length_2 k (by omega) h2]
    · rw [toDigits_length_3 k (by omega) (by omega)]

theorem sprintf03d_length_4 (k : Nat) (h1 : 1000 ≤ k) (h2 : k ≤ 9999) :
    (sprintf03d (k : Int)).length = 4 := by
  rw [sprintf03d_nat, List.length_append, List.length_replicate,
    toDigits_length_4 k h1 (by omega)]

theorem castInteger_sprintf03d (k : Nat) : castInteger (sprintf03d (k : Int)) = (k : Int) := by
  rw [castInteger_digits _ (sprintf03d_mem k), sprintf03d_nat, digitsVal_zeros,
    digitsVal_toDigits]

theorem sprintf03d_inj (a b : Nat) (h : sprintf03d (a : Int) = sprintf03d (b : Int)) :
    a = b := by
  have := congrArg castInteger h
  rw [castInteger_sprintf03d, castInteger_sprintf03d] at this
  exact_mod_cast this

theorem yearDash_literal (Y : Int) (h1 : 1000 ≤ Y) (h2 : Y ≤ 9999) :
    ∀ c ∈ sprintfD Y ++ ['-'], c ∈ "0123456789-".data := by
  intro c hc
  rcases List.mem_append.1 hc with hc | hc
  · exact (digit_facts c ((sprintfD_fourDigit Y h1 h2).2.2 c hc)).1
  · rw [List.mem_singleton.1 hc]
    decide

theorem numberOf_data (Y : Int) (k : Nat) :
    (numberOf Y k).data = (sprintfD Y ++ ['-']) ++ sprintf03d (k : Int) := rfl

theorem numberOf_inj (Y : Int) (a b : Nat) (h : numberOf Y a = numberOf Y b) : a = b := by
  have := congrArg String.data h
  rw [numberOf_data, numberOf_data] at this
  exact sprintf03d_inj a b (List.append_cancel_left this)

theorem numberOf_ofYear (Y : Int) (k : Nat) : OfYear Y (numberOf Y k) := by
  unfold OfYear
  rw [numberOf_data]
  have : (sprintfD Y).length + 1 = (sprintfD Y ++ ['-']).length := by simp
  rw [this, List.take_left]

/-- The numbers up to 999 of a four-digit year pass the `WHERE` clause of
`GetNextCallNumber`. -/
theorem whereClause_numberOf (Y : Int) (h1 : 1000 ≤ Y) (h2 : Y ≤ 9999) (k : Nat) (hk : k ≤ 999) :
    (likeMatch ((sprintfD Y ++ ['-']) ++ ['%']) (numberOf Y k).data &&
      (numberOf Y k).length == 8) = true := by
  rw [numberOf_data, likeMatch_literal_self _ _ (yearDash_literal Y h1 h2)]
  show (true && ((sprintfD Y ++ ['-']) ++ sprintf03d (k : Int)).length == 8) = true
  rw [List.length_append, List.length_append, (sprintfD_fourDigit Y h1 h2).2.1,
    sprintf03d_length k hk]
  rfl

theorem whereClause_ofYear (Y : Int) (h1 : 1000 ≤ Y) (h2 : Y ≤ 9999) (s : String)
    (h : (likeMatch ((sprintfD Y ++ ['-']) ++ ['%']) s.data && s.length == 8) = true) :
    OfYear Y s ∧ s.data.length = 8 := by
  rw [Bool.and_eq_true] at h
  refine ⟨?_, beq_iff_eq.1 h.2⟩
  unfold OfYear
  have := likeMatch_literal_take _ _ (yearDash_literal Y h1 h2) h.1
  simpa using this

theorem castSuffix_numberOf (Y : Int) (h1 : 1000 ≤ Y) (h2 : Y ≤ 9999) (k : Nat) :
    castInteger ((numberOf Y k).data.drop 5) = (k : Int) := by
  rw [numberOf_data]
  have : (5 : Nat) = (sprintfD Y ++ ['-']).length := by
    simp [(sprintfD_fourDigit Y h1 h2).2.1]
  rw [this, List.drop_left, castInteger_sprintf03d]

theorem numberOf_length_8 (Y : Int) (h1 : 1000 ≤ Y) (h2 : Y ≤ 9999) (k : Nat) (hk : k ≤ 1000)
    (h : (numberOf Y k).data.length = 8) : k ≤ 999 := by
  by_contra hc
  have hk' : k = 1000 := by omega
  subst hk'
  rw [numberOf_data, List.length_append, List.length_append, (sprintfD_fourDigit Y h1 h2).2.1,
    sprintf03d_length_4 1000 (by omega) (by omega)] at h
  simp at h

/-- With the numbers 1 to `m` of a four-digit year stored (`m` at most
1000), `GetNextCallNumber` returns number `m + 1`, but never more than
1000. -/
theorem GetNextCallNumber_numbered (db : Store) (Y : Int) (h1 : 1000 ≤ Y) (h2 : Y ≤ 9999)
    (m : Nat) (hm : m ≤ 1000) (inv : NumberedUpTo db Y m) :
    GetNextCallNumber db Y = .ok (numberOf Y (min (m + 1) 1000)) := by
  unfold GetNextCallNumber
  simp only
  have key : coalesceMax
      ((db.calls.filter (fun c =>
        likeMatch ((sprintfD Y ++ ['-']) ++ ['%']) c.IncidentNumber.data &&
          c.IncidentNumber.length == 8)).map
        (fun c => castInteger (c.IncidentNumber.data.drop 5))) = ((min m 999 : Nat) : Int) := by
    by_cases hm0 : m = 0
    · subst hm0
      have : db.calls.filter (fun c =>
          likeMatch ((sprintfD Y ++ ['-']) ++ ['%']) c.IncidentNumber.data &&
            c.IncidentNumber.length == 8) = [] := by
        rw [List.filter_eq_nil_iff]
        intro c hc hw
        obtain ⟨j, hj1, hj2, -⟩ := inv.1 c hc (whereClause_ofYear Y h1 h2 _ hw).1
        omega
      rw [this]
      rfl
    · apply coalesceMax_eq
      · obtain ⟨c, hc, hnum⟩ := inv.2 (min m 999) (by omega) (by omega)
        rw [List.mem_map]
        refine ⟨c, ?_, ?_⟩
        · rw [List.mem_filter]
          refine ⟨hc, ?_⟩
          rw [hnum]
          exact whereClause_numberOf Y h1 h2 _ (by omega)
        · rw [hnum]
          exact castSuffix_numberOf Y h1 h2 _
      · intro x hx
        rw [List.mem_map] at hx
        obtain ⟨c, hc, rfl⟩ := hx
        rw [List.mem_filter] at hc
        obtain ⟨hof, hlen⟩ := whereClause_ofYear Y h1 h2 _ hc.2
        obtain ⟨j, hj1, hj2, hnum⟩ := inv.1 c hc.1 hof
        rw [hnum] at hlen ⊢
        have := numberOf_length_8 Y h1 h2 j (by omega) hlen
        rw [castSuffix_numberOf Y h1 h2 j]
        have : j ≤ min m 999 := by omega
        exact_mod_cast this
  rw [key]
  have e : ((min m 999 : Nat) : Int) + 1 = ((min (m + 1) 1000 : Nat) : Int) := by
    have : min m 999 + 1 = min (m + 1) 1000 := by omega
    exact_mod_cast this
  rw [e]
  rfl

theorem dash_split :
    ∀ (a b rest : List Char), (∀ c ∈ a, c ≠ '-') → (∀ c ∈ b, c ≠ '-') →
      (a ++ '-' :: rest).take (b.length + 1) = b ++ ['-'] → a = b
  | [], [], _, _, _, _ => rfl
  | [], c :: b, rest, _, hb, h => by
    simp only [List.nil_append, List.length_cons, List.take_succ_cons, List.cons_append,
      List.cons.injEq] at h
    exact absurd h.1.symm (hb c (List.mem_cons_self _ _))
  | x :: a, [], rest, ha, _, h => by
    simp only [List.cons_append, List.length_nil, Nat.zero_add, List.take_succ_cons,
      List.nil_append, List.cons.injEq] at h
    exact absurd h.1 (ha x (List.mem_cons_self _ _))
  | x :: a, c :: b, rest, ha, hb, h => by
    simp only [List.cons_append, List.length_cons, List.take_succ_cons, List.cons.injEq] at h
    rw [h.1, dash_split a b rest (fun y hy => ha y (List.mem_cons_of_mem _ hy))
      (fun y hy => hb y (List.mem_cons_of_mem _ hy)) h.2]

/-- A number generated for another year is not a number of the four-digit
year `Y`. -/
theorem otherYear_not_ofYear (Y : Int) (h1 : 1000 ≤ Y) (h2 : Y ≤ 9999) (Y' : Int)
    (hne : Y' ≠ Y) (rest : List Char) :
    ¬ OfYear Y (String.mk ((sprintfD Y' ++ ['-']) ++ rest)) := by
  obtain ⟨e, hlen, hdig⟩ := sprintfD_fourDigit Y h1 h2
  unfold OfYear
  intro h
  simp only [List.append_assoc, List.singleton_append] at h
  have hb : ∀ c ∈ sprintfD Y, c ≠ '-' := fun c hc => (digit_facts c (hdig c hc)).2.1
  by_cases hneg : Y' < 0
  · have e' : sprintfD Y' = '-' :: Nat.toDigits 10 Y'.natAbs := by
      unfold sprintfD
      rw [if_pos hneg]
    rw [e', hlen] at h
    cases hs : sprintfD Y with
    | nil => rw [hs] at hlen; simp at hlen
    | cons c r =>
      rw [hs] at h
      simp only [List.cons_append, List.take_succ_cons, List.cons.injEq] at h
      exact hb c (by rw [hs]; exact List.mem_cons_self _ _) h.1.symm
  · have e' : sprintfD Y' = Nat.toDigits 10 Y'.natAbs := by
      unfold sprintfD
      rw [if_neg hneg]
    have ha : ∀ c ∈ sprintfD Y', c ≠ '-' := by
      rw [e']
      exact fun c hc => (digit_facts c (toDigits_mem _ c hc)).2.1
    have := dash_split _ _ _ ha hb h
    rw [e', e] at this
    have := toDigits_inj _ _ this
    omega

theorem GetNextCallNumber_form (db : Store) (Y' : Int) :
    ∃ rest : List Char, GetNextCallNumber db Y' = .ok (String.mk ((sprintfD Y' ++ ['-']) ++ rest)) :=
  ⟨_, rfl⟩

theorem NumberedUpTo_append_next {db db' : Store} {Y : Int} {m : Nat} {row : Call}
    (inv : NumberedUpTo db Y m) (hm : m ≤ 1000) (hc : db'.calls = db.calls ++ [row])
    (hrow : row.IncidentNumber = numberOf Y (min (m + 1) 1000)) :
    NumberedUpTo db' Y (min (m + 1) 1000) := by
  constructor
  · intro c hcm hof
    rw [hc, List.mem_append, List.mem_singleton] at hcm
    rcases hcm with hcm | rfl
    · obtain ⟨j, hj1, hj2, hj3⟩ := inv.1 c hcm hof
      exact ⟨j, hj1, by omega, hj3⟩
    · exact ⟨min (m + 1) 1000, by omega, le_refl _, hrow⟩
  · intro j hj1 hj2
    by_cases hj : j ≤ m
    · obtain ⟨c, hcm, hnum⟩ := inv.2 j hj1 hj
      exact ⟨c, by rw [hc]; exact List.mem_append_left _ hcm, hnum⟩
    · have : j = min (m + 1) 1000 := by omega
      exact ⟨row, by rw [hc]; simp, by rw [hrow, this]⟩

theorem NumberedUpTo_append_other {db db' : Store} {Y : Int} {m : Nat} {row : Call}
    (inv : NumberedUpTo db Y m) (hc : db'.calls = db.calls ++ [row])
    (hrow : ¬ OfYear Y row.IncidentNumber) : NumberedUpTo db' Y m := by
  constructor
  · intro c hcm hof
    rw [hc, List.mem_append, List.mem_singleton] at hcm
    rcases hcm with hcm | rfl
    · exact inv.1 c hcm hof
    · exact absurd hof hrow
  · intro j hj1 hj2
    obtain ⟨c, hcm, hnum⟩ := inv.2 j hj1 hj2
    exact ⟨c, by rw [hc]; exact List.mem_append_left _ hcm, hnum⟩

theorem numbersOfYear_cons_skip (Y : Int) (x : CreateRequest × Call × Option DbError)
    (xs : List (CreateRequest × Call × Option DbError))
    (h : ¬ (x.1.call.Dispatched.Year = Y ∧ x.2.2 = none)) :
    numbersOfYear Y (x :: xs) = numbersOfYear Y xs := by
  unfold numbersOfYear
  rw [List.filter_cons_of_neg (by simpa using h)]

theorem numbersOfYear_cons_keep (Y : Int) (x : CreateRequest × Call × Option DbError)
    (xs : List (CreateRequest × Call × Option DbError))
    (h : x.1.call.Dispatched.Year = Y ∧ x.2.2 = none) :
    numbersOfYear Y (x :: xs) = x.2.1.IncidentNumber :: numbersOfYear Y xs := by
  unfold numbersOfYear
  rw [List.filter_cons_of_pos (by simpa using h), List.map_cons]

/-- The numbers a run hands out in a four-digit year: when the numbers 1 to
`min k 1000` are stored, the successful calls of that year get the numbers
`k + 1`, `k + 2`, ... in order, each capped at 1000. -/
theorem runCreates_numbers (Y : Int) (h1 : 1000 ≤ Y) (h2 : Y ≤ 9999) :
    ∀ (reqs : List CreateRequest) (db : Store) (k : Nat),
      (∀ r ∈ reqs, r.call.IncidentNumber = "") → NumberedUpTo db Y (min k 1000) →
      numbersOfYear Y (runCreates db reqs) =
        (List.range' (k + 1) (numbersOfYear Y (runCreates db reqs)).length).map
          (fun j => numberOf Y (min j 1000))
  | [], db, k, _, _ => by simp [runCreates, numbersOfYear]
  | r :: rest, db, k, hreq, inv => by
    have hrest : ∀ x ∈ rest, x.call.IncidentNumber = "" :=
      fun x hx => hreq x (List.mem_cons_of_mem _ hx)
    have hr : r.call.IncidentNumber = "" := hreq r (List.mem_cons_self _ _)
    simp only [runCreates]
    cases herr : (CreateCall db r.now r.call r.apparatusIDs r.responderIDs r.responderRoles).2.2 with
    | some e =>
      rw [CreateCall_error db _ _ _ _ _ (by simp [herr]),
        numbersOfYear_cons_skip Y _ _ (by simp)]
      exact runCreates_numbers Y h1 h2 rest db k hrest inv
    | none =>
      obtain ⟨num, hnum, -, -, -, hcall, hdb⟩ := CreateCall_ok db _ _ _ _ _ herr
      rw [if_pos hr] at hnum
      have hcalls : (CreateCall db r.now r.call r.apparatusIDs r.responderIDs
          r.responderRoles).1.calls = db.calls ++
            [{ r.call with IncidentNumber := num, ID := (db.seq_calls : Int) + 1,
                           CreatedAt := r.now, UpdatedAt := r.now }] := by
        rw [hdb]
      by_cases hy : r.call.Dispatched.Year = Y
      · rw [hy, GetNextCallNumber_numbered db Y h1 h2 _ (by omega) inv] at hnum
        have hnum' : num = numberOf Y (min (k + 1) 1000) := by
          have := (Except.ok.inj hnum).symm
          rw [this]
          congr 1
          omega
        have inv' : NumberedUpTo (CreateCall db r.now r.call r.apparatusIDs r.responderIDs
            r.responderRoles).1 Y (min (k + 1) 1000) := by
          have := NumberedUpTo_append_next inv (by omega) hcalls
            (show _ = numberOf Y (min (min k 1000 + 1) 1000) from (Except.ok.inj hnum).symm)
          have e : min (min k 1000 + 1) 1000 = min (k + 1) 1000 := by omega
          rwa [e] at this
        have ih := runCreates_numbers Y h1 h2 rest _ (k + 1) hrest inv'
        rw [numbersOfYear_cons_keep Y _ _ ⟨hy, rfl⟩, List.length_cons, List.range'_succ,
          List.map_cons, ← ih, hcall]
        simp only [hnum']
      · obtain ⟨tl, htl⟩ := GetNextCallNumber_form db r.call.Dispatched.Year
        rw [htl] at hnum
        have hno : ¬ OfYear Y num := by
          rw [← Except.ok.inj hnum]
          exact otherYear_not_ofYear Y h1 h2 _ hy tl
        have inv' := NumberedUpTo_append_other inv hcalls hno
        rw [numbersOfYear_cons_skip Y _ _ (by simp [hy])]
        exact runCreates_numbers Y h1 h2 rest _ k hrest inv'

/-- C1, as the code has it: for a four-digit year `Y`, on a database that
holds no incident number of year `Y`, in any run of `CreateCall`s with an
empty incident number (of year `Y` or of other years, failed ones included),
the `k`-th successful call dispatched in year `Y` gets the number `Y`, a
dash and `k` padded with zeros to three digits, for every `k` up to 1000. -/
theorem CreateCall_numbers_gapless (Y : Int) (h1 : 1000 ≤ Y) (h2 : Y ≤ 9999) (db : Store)
    (reqs : List CreateRequest)
    (hdb : ∀ c ∈ db.calls, ¬ OfYear Y c.IncidentNumber)
    (hreq : ∀ r ∈ reqs, r.call.IncidentNumber = "")
    (k : Nat) (hk : k < (numbersOfYear Y (runCreates db reqs)).length) (hk' : k < 1000) :
    (numbersOfYear Y (runCreates db reqs))[k]? = some (numberOf Y (k + 1)) := by
  have inv : NumberedUpTo db Y (min 0 1000) :=
    ⟨fun c hc hof => absurd hof (hdb c hc), fun j hj1 hj2 => by omega⟩
  have := runCreates_numbers Y h1 h2 reqs db 0 hreq inv
  rw [this] at hk ⊢
  simp only [List.length_map, List.length_range'] at hk
  rw [List.getElem?_map, List.getElem?_range' _ _ (by simpa using hk)]
  simp only [Option.map_some']
  congr 2
  omega

theorem runCreates_numbers_getElem (Y : Int) (h1 : 1000 ≤ Y) (h2 : Y ≤ 9999)
    (reqs : List CreateRequest) (db : Store) (k : Nat)
    (hreq : ∀ r ∈ reqs, r.call.IncidentNumber = "") (inv : NumberedUpTo db Y (min k 1000))
    (i : Nat) (hi : i < (numbersOfYear Y (runCreates db reqs)).length) :
    (numbersOfYear Y (runCreates db reqs))[i]? = some (numberOf Y (min (k + 1 + i) 1000)) := by
  have := runCreates_numbers Y h1 h2 reqs db k hreq inv
  rw [this] at hi ⊢
  simp only [List.length_map, List.length_range'] at hi
  rw [List.getElem?_map, List.getElem?_range' _ _ (by simpa using hi)]
  simp

theorem CreateCall_bare_ok (db : Store) (now : Time) (call : Call) (roles : List String)
    (hu : ∃ u ∈ db.users, u.id = call.CreatedBy) :
    (CreateCall db now call [] [] roles).2.2 = none := by
  have hany : ∀ c : Call, c.CreatedBy = call.CreatedBy →
      (db.users.any fun u => decide (u.id = c.CreatedBy)) = true := by
    intro c hc
    rw [hc]
    simpa using hu
  unfold CreateCall
  simp only
  split
  · rename_i e he
    split at he
    · exact absurd he (by simp [GetNextCallNumber])
    · exact absurd he (by simp)
  · rename_i num hnum
    simp only [insertCall, hany, if_true, insertApparatusLoop, insertRespondersLoop]

theorem runCreates_replicate_length (req : CreateRequest) (hA : req.apparatusIDs = [])
    (hR : req.responderIDs = []) :
    ∀ (n : Nat) (db : Store), (∃ u ∈ db.users, u.id = req.call.CreatedBy) →
      (numbersOfYear req.call.Dispatched.Year (runCreates db (List.replicate n req))).length = n
  | 0, _, _ => rfl
  | n + 1, db, hu => by
    have hok := CreateCall_bare_ok db req.now req.call req.responderRoles hu
    rw [List.replicate_succ]
    simp only [runCreates, hA, hR]
    rw [numbersOfYear_cons_keep req.call.Dispatched.Year
      (req, (CreateCall db req.now req.call [] [] req.responderRoles).2.1,
        (CreateCall db req.now req.call [] [] req.responderRoles).2.2) _ ⟨rfl, hok⟩,
      List.length_cons]
    have := runCreates_replicate_length req hA hR n
      (CreateCall db req.now req.call [] [] req.responderRoles).1
      (by rw [CreateCall_users]; exact hu)
    rw [this]

/-! ## The claims on sample data -/

/-- C1 on sample data: two calls of 2026 with a call of 2025 between them
get `2026-001` and `2026-002`. -/
theorem CreateCall_numbers_gapless_witness :
    (numbersOfYear 2026
        (runCreates sampleDB [sampleRequest, requestOfYear 2025, sampleRequest]))[1]? =
      some (numberOf 2026 (1 + 1)) ∧
    numberOf 2026 1 = "2026-001" ∧ numberOf 2026 (1 + 1) = "2026-002" :=
  ⟨CreateCall_numbers_gapless 2026 (by decide) (by decide) sampleDB
      [sampleRequest, requestOfYear 2025, sampleRequest]
      (fun c hc => absurd hc (List.not_mem_nil c)) (by decide) 1 (by decide) (by decide),
    by decide, by decide⟩

/-- C1 fails as stated.  In year 999 the second call gets `999-001` again,
where the claim asks for `999-002`; and in 2026 the 1001st call on a database
without calls gets `2026-1000`, the number of the 1000th, where the claim
asks for `2026-1001`. -/
theorem CreateCall_numbers_not_gapless :
    sampleDB.calls = [] ∧
    (numbersOfYear 999 (runCreates sampleDB [requestOfYear 999, requestOfYear 999]))[1]? =
      some "999-001" ∧
    "999-001" ≠ numberOf 999 2 ∧
    (numbersOfYear 2026 (runCreates sampleDB (List.replicate 1001 bareRequest)))[1000]? =
      some "2026-1000" ∧
    "2026-1000" ≠ numberOf 2026 1001 := by
  refine ⟨rfl, by decide, by decide, ?_, by decide⟩
  have hlen := runCreates_replicate_length bareRequest rfl rfl 1001 sampleDB
    ⟨_, List.mem_cons_of_mem _ (List.mem_cons_self _ _), rfl⟩
  have hreq : ∀ r ∈ List.replicate 1001 bareRequest, r.call.IncidentNumber = "" := by
    intro r hr
    rw [(List.mem_replicate.1 hr).2]
    rfl
  have inv : NumberedUpTo sampleDB 2026 (min 0 1000) :=
    ⟨fun c hc _ => absurd hc (List.not_mem_nil c), fun j hj1 hj2 => by omega⟩
  have := runCreates_numbers_getElem 2026 (by decide) (by decide)
    (List.replicate 1001 bareRequest) sampleDB 0 hreq inv 1000
    (by
      have : (numbersOfYear 2026 (runCreates sampleDB (List.replicate 1001 bareRequest))).length
          = 1001 := hlen
      omega)
  rw [this]
  decide

/-- C3 on sample data: the sample request succeeds and appends its rows; the
same request with an apparatus id that no picklist row has fails and leaves
the database as it was. -/
theorem CreateCall_atomic_witness :
    ((∃ row : Call,
        (CreateCall sampleDB sampleTime sampleCall [1] [2] ["Driver"]).1.calls =
          sampleDB.calls ++ [row] ∧
        row.ID = (CreateCall sampleDB sampleTime sampleCall [1] [2] ["Driver"]).2.1.ID) ∧
      (∃ rows : List CallApparatus,
        (CreateCall sampleDB sampleTime sampleCall [1] [2] ["Driver"]).1.call_apparatus =
          sampleDB.call_apparatus ++ rows ∧
        rows.map (fun x => (x.CallID, x.ApparatusID)) =
          [1].map (fun a =>
            ((CreateCall sampleDB sampleTime sampleCall [1] [2] ["Driver"]).2.1.ID, a))) ∧
      (∃ rows : List CallResponder,
        (CreateCall sampleDB sampleTime sampleCall [1] [2] ["Driver"]).1.call_responders =
          sampleDB.call_responders ++ rows ∧
        rows.map (fun x => (x.CallID, x.ResponderID)) =
          [2].map (fun a =>
            ((CreateCall sampleDB sampleTime sampleCall [1] [2] ["Driver"]).2.1.ID, a))) ∧
      (CreateCall sampleDB sampleTime sampleCall [1] [2] ["Driver"]).1.users = sampleDB.users ∧
      (CreateCall sampleDB sampleTime sampleCall [1] [2] ["Driver"]).1.picklists =
        sampleDB.picklists ∧
      (CreateCall sampleDB sampleTime sampleCall [1] [2] ["Driver"]).1.settings =
        sampleDB.settings) ∧
    (CreateCall sampleDB sampleTime sampleCall [1, 99] [2] ["Driver"]).1 = sampleDB :=
  ⟨(CreateCall_atomic sampleDB sampleTime sampleCall [1] [2] ["Driver"]).2.1 (by decide),
    (CreateCall_atomic sampleDB sampleTime sampleCall [1, 99] [2] ["Driver"]).1 (by decide)⟩

/-- C4 on sample data: the call of `sampleDB1` has apparatus 1 and responder
2; after an update with apparatus `[2]` and responders `[1]` and a UTC time of
dispatch, `GetCallByID` returns exactly those. -/
theorem UpdateCall_replaces_associations_witness :
    ∃ (c : Call) (apparatus : List Picklist) (responders : List User),
      GetCallByID sampleEngine
          (UpdateCall sampleDB1 sampleTime { sampleCall with ID := 1 } [2] [1] []).1 1 =
        .ok (c, apparatus, responders) ∧
      c.ID = 1 ∧
      (∀ x, x ∈ apparatus.map (fun p => p.ID) ↔ x ∈ [2]) ∧
      (∀ x, x ∈ responders.map (fun u => u.ID) ↔ x ∈ [1]) :=
  (UpdateCall_replaces_associations sampleEngine sampleDB1 sampleTime { sampleCall with ID := 1 }
    [2] [1] [] (by decide) (by decide)).2.2.1 (by decide)

/-- C4 fails as stated: call 1 of `sampleDB1` is updated with apparatus `[2]`,
responders `[1]` and a time of dispatch in a fixed zone without a name, one
hour east of UTC.  `UpdateCall` returns nil, and `GetCallByID(1)` then fails
with the `Scan` error of column `dispatched` and returns no apparatus and no
responders. -/
theorem UpdateCall_then_GetCallByID_fails :
    (∃ c ∈ sampleDB1.calls, c.ID = 1) ∧
    (UpdateCall sampleDB1 sampleTime1
      { sampleCall with ID := 1, Dispatched := sampleTimeEast } [2] [1] []).2 = none ∧
    ∀ e : Engine,
      GetCallByID e
          (UpdateCall sampleDB1 sampleTime1
            { sampleCall with ID := 1, Dispatched := sampleTimeEast } [2] [1] []).1 1 =
        .error (.scanTime "dispatched") :=
  ⟨by decide, by decide, fun e => GetCallByID_east e _ 1 (by decide)⟩

/-! ## `CanUserEditCall` and the caller layer -/

theorem selectUsersText_role (db : Store) (id : Int) :
    selectUsersText db "role" id = .error (.noSuchColumn "users" "role") := by
  rfl

/-- C5, on the code: `CanUserEditCall` never answers true, because its
statement `SELECT role FROM users` names a column that table `users` does not
have.  On `sampleDB1` the call 1 was created by user 2 at `sampleTime`; asked
at that same instant, inside the 30 minute window, whether user 2 may edit
it, the code answers false with that error, where the claim says true. -/
theorem CanUserEditCall_creator_denied :
    (∀ (db : Store) (now : Time) (callID userID : Int),
      (CanUserEditCall db now callID userID).1 = false) ∧
    sampleDB1.calls.map (fun c => (c.ID, c.CreatedBy, c.CreatedAt)) = [(1, 2, sampleTime)] ∧
    selectSetting sampleDB1 "edit_time_limit_minutes" = .ok "30" ∧
    CanUserEditCall sampleDB1 sampleTime 1 2 = (false, some (.noSuchColumn "users" "role")) := by
  refine ⟨?_, by decide, by decide, by decide⟩
  intro db now callID userID
  unfold CanUserEditCall
  split
  · rfl
  · simp only [selectUsersText_role]

/-- C6, on the code: for every existing call and every user id,
`CanUserEditCall` returns false and the error of the missing column `role`,
whatever the admin flag of the user and the setting
`admin_can_always_edit`. -/
theorem CanUserEditCall_admin_denied (db : Store) (now : Time) (callID userID : Int)
    (h : ∃ c ∈ db.calls, c.ID = callID) :
    CanUserEditCall db now callID userID = (false, some (.noSuchColumn "users" "role")) := by
  unfold CanUserEditCall
  split
  · rename_i hnone
    rw [List.find?_eq_none] at hnone
    obtain ⟨c, hc, hid⟩ := h
    exact absurd (by simpa using hid) (hnone c hc)
  · simp only [selectUsersText_role]

/-- C6 on sample data: user 1 is a stored admin, `admin_can_always_edit` is
`true`, call 1 exists, and the answer is false. -/
theorem CanUserEditCall_admin_denied_witness :
    (∃ u ∈ sampleDB1.users, u.id = 1 ∧ u.is_admin = true) ∧
    selectSetting sampleDB1 "admin_can_always_edit" = .ok "true" ∧
    CanUserEditCall sampleDB1 sampleTime 1 1 = (false, some (.noSuchColumn "users" "role")) :=
  ⟨by decide, by decide, CanUserEditCall_admin_denied sampleDB1 sampleTime 1 1 (by decide)⟩

/-- C7, on the code: `App.UpdateCall` passes every request on to
`db.UpdateCall`, whoever is logged in.  With no current user it rewrites the
narrative of call 1 of `sampleDB1` and removes its associations; so it does
for the logged-in member 3, who did not create the call, is no admin, and
whom `CanUserEditCall` denies. -/
theorem App_UpdateCall_not_gated (e : Engine) :
    (∀ (a : App) (now : Time) (call : Call) (aIDs rIDs : List Int) (roles : List String),
      (App.UpdateCall a now call aIDs rIDs roles).1.db =
        (UpdateCall a.db now call aIDs rIDs roles).1) ∧
    (GetCallByID e sampleDB1 1).map (fun r => (r.1.Narrative, r.2.1.length, r.2.2.length)) =
      .ok ("Smoke in the kitchen", 1, 1) ∧
    (App.UpdateCall { db := sampleDB1, currentUser := none } sampleTime
        { sampleCall with ID := 1, Narrative := "rewritten" } [] [] []).2 = none ∧
    (GetCallByID e
        (App.UpdateCall { db := sampleDB1, currentUser := none } sampleTime
          { sampleCall with ID := 1, Narrative := "rewritten" } [] [] []).1.db 1).map
        (fun r => (r.1.Narrative, r.2.1.length, r.2.2.length)) = .ok ("rewritten", 0, 0) ∧
    AuthenticateUser e sampleDB1 "Sam Roe" "2468" = .ok sampleOther ∧
    (CanUserEditCall sampleDB1 sampleTime 1 3).1 = false ∧
    (App.UpdateCall { db := sampleDB1, currentUser := some sampleOther } sampleTime
        { sampleCall with ID := 1, Narrative := "rewritten" } [] [] []).2 = none ∧
    (GetCallByID e
        (App.UpdateCall { db := sampleDB1, currentUser := some sampleOther } sampleTime
          { sampleCall with ID := 1, Narrative := "rewritten" } [] [] []).1.db 1).map
        (fun r => (r.1.Narrative, r.2.1.length, r.2.2.length)) = .ok ("rewritten", 0, 0) := by
  refine ⟨fun a now call aIDs rIDs roles => rfl, ?_, by decide, ?_, ?_,
    by decide, by decide, ?_⟩
  · rw [GetCallByID_eq_sample e _ 1 (by decide) (by decide) (by decide)]
    decide
  · rw [GetCallByID_eq_sample e _ 1 (by decide) (by decide) (by decide)]
    decide
  · rw [AuthenticateUser_eq_sample e _ _ _ (by decide)]
    decide
  · rw [GetCallByID_eq_sample e _ 1 (by decide) (by decide) (by decide)]
    decide

/-- C8 on the database `InitDB` makes from a new file: it is reachable, its
only user is the seeded `Admin User` with PIN `1234` and id 1, and the
hardcoded credential still yields the identity with ID 0. -/
theorem AuthenticateUser_hardcoded_witness :
    (∀ u ∈ (InitDB Store.empty sampleTime).users, 1 ≤ u.id ∧ u.id ≠ 0) ∧
    (InitDB Store.empty sampleTime).users.map
      (fun u => (u.id, u.first_name, u.last_name, u.pin, u.active)) =
        [(1, "Admin", "User", some "1234", true)] ∧
    ∀ e : Engine,
      (AuthenticateUser e (InitDB Store.empty sampleTime) "Admin User" "1234").map
        (fun u => u.ID) = .ok 0 :=
  ⟨(AuthenticateUser_hardcoded sampleEngine (InitDB Store.empty sampleTime)).2
      (Reachable.init sampleTime),
    by decide,
    fun e => by
      rw [AuthenticateUser_eq_sample e _ _ _ (by decide)]
      decide⟩

theorem AuthenticateUser_empty_date (e : Engine) (db : Store) (fullName pin : String)
    (hn : ¬ (fullName = "Admin User" ∧ pin = "1234"))
    (h : (db.users.find? (fun u =>
        u.first_name ++ " " ++ u.last_name = fullName ∧ u.pin = some pin ∧
          u.active = true)).map (fun u => u.joined_date) = some (some "")) :
    AuthenticateUser e db fullName pin = .error (.scanTime "joined_date") := by
  unfold AuthenticateUser
  rw [if_neg hn]
  cases hf : db.users.find? (fun u =>
      u.first_name ++ " " ++ u.last_name = fullName ∧ u.pin = some pin ∧ u.active = true) with
  | none =>
    rw [hf] at h
    exact absurd h (by simp)
  | some u =>
    rw [hf] at h
    simp only [Option.map_some', Option.some.injEq] at h
    have hm := List.find?_some hf
    simp only [decide_eq_true_eq] at hm
    apply scanUser_unread e u pin hm.2.1
    intro hread
    exact hread "" h e.readTime_empty

/-- C9 on sample data: `Pat Lee` with PIN `4321` is authenticated as the
stored user 2, whose `joined_date` is NULL; with PIN `0000`, and as
`Pat Leigh`, the error is `sql.ErrNoRows`. -/
theorem AuthenticateUser_stored_witness :
    (∃ user : User, AuthenticateUser sampleEngine sampleDB "Pat Lee" "4321" = .ok user ∧
      user.ID = 2 ∧ user.FirstName = "Pat" ∧ user.LastName = "Lee" ∧ user.PIN = "4321" ∧
      user.Active = true ∧ user.IsAdmin = false) ∧
    AuthenticateUser sampleEngine sampleDB "Pat Lee" "0000" = .error .ErrNoRows ∧
    AuthenticateUser sampleEngine sampleDB "Pat Leigh" "4321" = .error .ErrNoRows :=
  ⟨((AuthenticateUser_stored sampleEngine sampleDB "Pat Lee" "4321" (by decide)).1
      { id := 2, first_name := "Pat", last_name := "Lee", position := "Member",
        ems_level := some "EMT", is_admin := false, pin := some "4321", active := true,
        joined_date := none, created := sampleTime }
      (by decide)).2.1 (JoinedDateRead_of_null _ _ rfl),
    (AuthenticateUser_stored sampleEngine sampleDB "Pat Lee" "0000" (by decide)).2.2 (by decide),
    (AuthenticateUser_stored sampleEngine sampleDB "Pat Leigh" "4321" (by decide)).2.2
      (by decide)⟩

/-- C9 fails as stated: `joinDateDB` is reachable and its user 2 is `Pat Lee`
with PIN `4321`, active, with the empty text as `joined_date`.  The name and
the PIN match a stored active user, and `AuthenticateUser` fails, with the
`Scan` error of `joined_date` and not with `sql.ErrNoRows`. -/
theorem AuthenticateUser_scan_error :
    Reachable joinDateDB ∧
    joinDateDB.users.map
        (fun u => (u.id, u.first_name ++ " " ++ u.last_name, u.pin, u.active, u.joined_date)) =
      [(1, "Admin User", some "1234", true, none), (2, "Pat Lee", some "4321", true, some "")] ∧
    ∀ e : Engine,
      AuthenticateUser e joinDateDB "Pat Lee" "4321" = .error (.scanTime "joined_date") :=
  ⟨Reachable.updateUserJoinDate 2 ""
      (Reachable.createUser sampleTime "Pat" "Lee" "Member" "EMT" "4321" false
        (Reachable.init sampleTime)),
    by decide,
    fun e => AuthenticateUser_empty_date e joinDateDB "Pat Lee" "4321" (by decide) (by decide)⟩

/-- C10 fails as stated: `db.ChangePIN` with user id 0 returns nil, not an
error, and so does `App.ChangeUserPIN` with user id 0 in an admin session. -/
theorem ChangePIN_zero_not_rejected :
    (ChangePIN sampleDB 0 "9999").2 = none ∧
    (App.ChangeUserPIN { db := sampleDB, currentUser := some hardcodedAdmin } 0 "9999").2 =
      none := by
  decide

/-- C10 on sample data, for the new PIN `9999`: the session of the hardcoded
identity is refused, and on the database of a new file `db.ChangePIN` with
user id 0 changes nothing. -/
theorem ChangePIN_hardcoded_witness :
    (∀ e : Engine,
      App.ChangePIN e { db := sampleDB, currentUser := some hardcodedAdmin } "1234" "9999" =
        ({ db := sampleDB, currentUser := some hardcodedAdmin },
          some (.errorsNew "cannot change hardcoded admin PIN"))) ∧
    ChangePIN (InitDB Store.empty sampleTime) 0 "9999" = (InitDB Store.empty sampleTime, none) ∧
    (App.ChangeUserPIN { db := InitDB Store.empty sampleTime, currentUser := some hardcodedAdmin }
      0 "9999").1 = { db := InitDB Store.empty sampleTime, currentUser := some hardcodedAdmin } :=
  ⟨fun e => (ChangePIN_hardcoded "9999").1 e _ "1234" hardcodedAdmin rfl rfl,
    (ChangePIN_hardcoded "9999").2.1 (InitDB Store.empty sampleTime) (Reachable.init sampleTime),
    (ChangePIN_hardcoded "9999").2.2
      { db := InitDB Store.empty sampleTime, currentUser := some hardcodedAdmin }
      (Reachable.init sampleTime)⟩

/-! ## The caller layer's user operations -/

/-- C11, on the code: with no current user `App.ChangePIN` returns
`ErrUnauthorized` and changes nothing.  But the old PIN is verified by
`AuthenticateUser` on the session's full name, which accepts the hardcoded
pair: in `storedAdminSession` the current user is the stored user 1, named
`Admin User`, whose stored PIN is `5678`; `App.ChangePIN("1234", "9999")`
returns nil and overwrites the stored PIN, although `1234` is not the stored
PIN. -/
theorem App_ChangePIN_old_pin_not_verified (e : Engine) :
    (∀ (db : Store) (oldPIN newPIN : String),
      App.ChangePIN e { db := db, currentUser := none } oldPIN newPIN =
        ({ db := db, currentUser := none }, some .ErrUnauthorized)) ∧
    Reachable (storedAdminSession e).db ∧
    (storedAdminSession e).currentUser.map (fun u => (u.ID, u.FirstName, u.LastName)) =
      some (1, "Admin", "User") ∧
    (storedAdminSession e).db.users.map (fun u => (u.id, u.pin)) = [(1, some "5678")] ∧
    (App.ChangePIN e (storedAdminSession e) "1234" "9999").2 = none ∧
    (App.ChangePIN e (storedAdminSession e) "1234" "9999").1.db.users.map
        (fun u => (u.id, u.pin)) =
      [(1, some "9999")] := by
  rw [storedAdminSession_eq_sample e,
    App_ChangePIN_eq_sample e (storedAdminSession sampleEngine) "1234" "9999" (by decide)]
  refine ⟨fun db oldPIN newPIN => rfl, ?_, by decide, by decide, by decide, by decide⟩
  have h : (storedAdminSession sampleEngine).db = (ChangePIN freshDB 1 "5678").1 := by decide
  rw [h]
  exact Reachable.changePIN 1 "5678" (Reachable.init sampleTime)

/-- C12: in a session with no current user, or with a current user whose
admin flag is false, `App.ChangeUserPIN`, `App.UpdateUserPosition`,
`App.UpdateUserAdminStatus` and `App.UpdateUserJoinDate` return
`ErrUnauthorized` and leave the session and the database as they were, for
every target id and argument. -/
theorem admin_operations_gated (a : App)
    (h : a.currentUser = none ∨ ∃ u, a.currentUser = some u ∧ u.IsAdmin = false)
    (userID : Int) (newPIN position joinDate : String) (isAdmin : Bool) :
    App.ChangeUserPIN a userID newPIN = (a, some .ErrUnauthorized) ∧
    App.UpdateUserPosition a userID position = (a, some .ErrUnauthorized) ∧
    App.UpdateUserAdminStatus a userID isAdmin = (a, some .ErrUnauthorized) ∧
    App.UpdateUserJoinDate a userID joinDate = (a, some .ErrUnauthorized) := by
  rcases h with h | ⟨u, h, hu⟩
  · simp [App.ChangeUserPIN, App.UpdateUserPosition, App.UpdateUserAdminStatus,
      App.UpdateUserJoinDate, h]
  · simp [App.ChangeUserPIN, App.UpdateUserPosition, App.UpdateUserAdminStatus,
      App.UpdateUserJoinDate, h, hu]

/-- C12 on sample data: the member 3, who is no admin, and a session without
user are refused. -/
theorem admin_operations_gated_witness :
    (App.ChangeUserPIN { db := sampleDB, currentUser := some sampleOther } 1 "0000" =
        ({ db := sampleDB, currentUser := some sampleOther }, some .ErrUnauthorized) ∧
      App.UpdateUserPosition { db := sampleDB, currentUser := some sampleOther } 1 "Chief" =
        ({ db := sampleDB, currentUser := some sampleOther }, some .ErrUnauthorized) ∧
      App.UpdateUserAdminStatus { db := sampleDB, currentUser := some sampleOther } 1 true =
        ({ db := sampleDB, currentUser := some sampleOther }, some .ErrUnauthorized) ∧
      App.UpdateUserJoinDate { db := sampleDB, currentUser := some sampleOther } 1 "2020-01-01" =
        ({ db := sampleDB, currentUser := some sampleOther }, some .ErrUnauthorized)) ∧
    App.UpdateUserAdminStatus { db := sampleDB, currentUser := none } 3 true =
      ({ db := sampleDB, currentUser := none }, some .ErrUnauthorized) :=
  ⟨admin_operations_gated { db := sampleDB, currentUser := some sampleOther }
      (Or.inr ⟨sampleOther, rfl, rfl⟩) 1 "0000" "Chief" "2020-01-01" true,
    (admin_operations_gated { db := sampleDB, currentUser := none } (Or.inl rfl) 3 "" "" ""
      true).2.2.1⟩

/-- C13, on the code: `App.CreateUser`, `App.UpdateUser` and `App.DeleteUser`
look at no session at all and pass the request to the database.  On
`sampleDB` a session without user creates a fourth user who is admin; the
member 3 sets its own admin flag with `App.UpdateUser`, and deactivates the
admin 1 with `App.DeleteUser`; each returns nil. -/
theorem user_management_not_gated (e : Engine) :
    (∀ (a : App) (now : Time) (firstName lastName position emsLevel pin : String)
        (isAdmin : Bool),
      (App.CreateUser a now firstName lastName position emsLevel pin isAdmin).1.db =
        (CreateUser a.db now firstName lastName position emsLevel pin isAdmin).1) ∧
    (∀ (a : App) (user : User), (App.UpdateUser a user).1.db = (UpdateUser a.db user).1) ∧
    sampleDB.users.map (fun u => (u.id, u.is_admin, u.active)) =
      [(1, true, true), (2, false, true), (3, false, true)] ∧
    (App.CreateUser { db := sampleDB, currentUser := none } sampleTime "Eve" "Doe" "Member"
      "None" "0000" true).2 = none ∧
    (App.CreateUser { db := sampleDB, currentUser := none } sampleTime "Eve" "Doe" "Member"
      "None" "0000" true).1.db.users.map (fun u => (u.id, u.is_admin, u.active)) =
      [(1, true, true), (2, false, true), (3, false, true), (4, true, true)] ∧
    (App.UpdateUser { db := sampleDB, currentUser := some sampleOther }
      { sampleOther with IsAdmin := true }).2 = none ∧
    (App.UpdateUser { db := sampleDB, currentUser := some sampleOther }
      { sampleOther with IsAdmin := true }).1.db.users.map
        (fun u => (u.id, u.is_admin, u.active)) =
      [(1, true, true), (2, false, true), (3, true, true)] ∧
    (App.DeleteUser e { db := sampleDB, currentUser := some sampleOther } 1).2 = none ∧
    (App.DeleteUser e { db := sampleDB, currentUser := some sampleOther } 1).1.db.users.map
        (fun u => (u.id, u.is_admin, u.active)) =
      [(1, true, false), (2, false, true), (3, false, true)] := by
  rw [App_DeleteUser_eq_sample e { db := sampleDB, currentUser := some sampleOther } 1
    (by decide)]
  refine ⟨fun _ _ _ _ _ _ _ _ => rfl, fun _ _ => rfl, by decide, by decide, by decide,
    by decide, by decide, by decide, by decide⟩

/-! ## Search and delete in the caller layer -/

theorem searchQuery_none : searchQuery (fun _ => none) = [] := rfl

/-- C18, on the code: `App.SearchCalls` puts the text under the key `query`,
which `db.SearchCalls` never reads, so for every text it returns the 100
newest calls.  On `sampleDB1` the search for `zzz` returns call 1, whose
address is `12 Main St` and whose number is `2026-001`. -/
theorem App_SearchCalls_ignores_query (e : Engine) :
    (∀ (a : App) (q : String),
      App.SearchCalls e a q = SearchCalls e a.db (fun _ => none) 100 0) ∧
    sampleDB1.calls.map (fun c => (c.ID, c.Address, c.IncidentNumber)) =
      [(1, "12 Main St", "2026-001")] ∧
    (App.SearchCalls e { db := sampleDB1, currentUser := none } "zzz").map
      (fun l => l.map (fun c => c.ID)) = .ok [1] := by
  have key : ∀ (a : App) (q : String),
      App.SearchCalls e a q = SearchCalls e a.db (fun _ => none) 100 0 := by
    intro a q
    unfold App.SearchCalls
    by_cases hq : q = ""
    · simp [hq]
    · simp only [hq, ne_eq, not_false_eq_true, if_true]
      unfold SearchCalls searchRows
      have : searchQuery (fun key => if key = "query" then some q else none) = [] := by
        simp [searchQuery]
      simp only [this, searchQuery_none]
  refine ⟨key, by decide, ?_⟩
  rw [key, SearchCalls_eq_sample e _ _ _ _ (by decide) (by decide)]
  decide

theorem UpdateCall_empty (db : Store) (now : Time) (call : Call) (roles : List String) :
    UpdateCall db now call [] [] roles =
      ({ db with
         calls := db.calls.map (fun (c : Call) =>
           if c.ID = call.ID then
             { c with
               IncidentNumber := call.IncidentNumber, CallType := call.CallType,
               MutualAid := call.MutualAid, Address := call.Address, Town := call.Town,
               LocationNotes := call.LocationNotes, Dispatched := call.Dispatched,
               Enroute := call.Enroute, OnScene := call.OnScene, Clear := call.Clear,
               Narrative := call.Narrative, UpdatedAt := now }
           else c),
         call_apparatus := db.call_apparatus.filter (fun r => r.CallID ≠ call.ID),
         call_responders := db.call_responders.filter (fun r => r.CallID ≠ call.ID) }, none) := by
  rfl

theorem GetCallByID_ok {e : Engine} {db : Store} {id : Int} {c : Call}
    {apparatus : List Picklist} {responders : List User}
    (h : GetCallByID e db id = .ok (c, apparatus, responders)) :
    db.calls.find? (fun x => x.ID = id) = some c ∧ c ∈ db.calls ∧ c.ID = id ∧
      TimesReadBack e c := by
  cases hf : db.calls.find? (fun x => x.ID = id) with
  | none =>
    rw [GetCallByID_missing e db id hf] at h
    exact absurd h (by simp)
  | some row =>
    by_cases hread : TimesReadBack e row
    · rw [GetCallByID_found e db id row hf hread] at h
      simp only [Except.ok.injEq, Prod.mk.injEq] at h
      rw [← h.1]
      exact ⟨rfl, List.mem_of_find?_eq_some hf, by simpa using List.find?_some hf, hread⟩
    · obtain ⟨col, hcol⟩ := GetCallByID_unread e db id row hf hread
      rw [hcol] at h
      exact absurd h (by simp)

theorem apparatusJoin_after_delete (db : Store) (calls : List Call) (id : Int) :
    apparatusJoin
      { db with
        calls := calls,
        call_apparatus := db.call_apparatus.filter (fun r => r.CallID ≠ id),
        call_responders := db.call_responders.filter (fun r => r.CallID ≠ id) } id = [] := by
  unfold apparatusJoin
  have e1 : List.filter (fun ca => decide (ca.CallID = id))
      (List.filter (fun r => decide (r.CallID ≠ id)) db.call_apparatus) = [] := by
    rw [List.filter_eq_nil_iff]
    intro x hx
    simpa using (List.mem_filter.1 hx).2
  simp only [e1, List.flatMap_nil]

theorem responderJoin_after_delete (db : Store) (calls : List Call) (id : Int) :
    responderJoin
      { db with
        calls := calls,
        call_apparatus := db.call_apparatus.filter (fun r => r.CallID ≠ id),
        call_responders := db.call_responders.filter (fun r => r.CallID ≠ id) } id = [] := by
  unfold responderJoin
  have e2 : List.filter (fun cr => decide (cr.CallID = id))
      (List.filter (fun r => decide (r.CallID ≠ id)) db.call_responders) = [] := by
    rw [List.filter_eq_nil_iff]
    intro x hx
    simpa using (List.mem_filter.1 hx).2
  simp only [e2, List.flatMap_nil]

theorem App_DeleteCall_of_read (e : Engine) (a : App) (now : Time) (id : Int) (c : Call)
    (apparatus : List Picklist) (responders : List User)
    (h : GetCallByID e a.db id = .ok (c, apparatus, responders)) :
    (App.DeleteCall e a now id).2 = none ∧
    GetCallByID e (App.DeleteCall e a now id).1.db id =
      .ok ({ c with UpdatedAt := now }, [], []) ∧
    (App.DeleteCall e a now id).1.db.calls.map (fun x => x.ID) =
      a.db.calls.map (fun x => x.ID) ∧
    (App.DeleteCall e a now id).1.db.call_apparatus =
      a.db.call_apparatus.filter (fun r => r.CallID ≠ id) ∧
    (App.DeleteCall e a now id).1.db.call_responders =
      a.db.call_responders.filter (fun r => r.CallID ≠ id) ∧
    (App.DeleteCall e a now id).1.db.users = a.db.users ∧
    (App.DeleteCall e a now id).1.db.picklists = a.db.picklists := by
  obtain ⟨hfind, -, hid, hread⟩ := GetCallByID_ok h
  have e1 : App.DeleteCall e a now id =
      ({ a with db := (UpdateCall a.db now c [] [] []).1 },
        (UpdateCall a.db now c [] [] []).2.map AppError.db) := by
    unfold App.DeleteCall
    rw [h]
  rw [e1, UpdateCall_empty, hid]
  refine ⟨rfl, ?_, ?_, rfl, rfl, rfl, rfl⟩
  · have hp : ((fun (x : Call) => decide (x.ID = id)) ∘ fun (c_1 : Call) =>
        if c_1.ID = id then
          { c_1 with
            IncidentNumber := c.IncidentNumber, CallType := c.CallType,
            MutualAid := c.MutualAid, Address := c.Address, Town := c.Town,
            LocationNotes := c.LocationNotes, Dispatched := c.Dispatched,
            Enroute := c.Enroute, OnScene := c.OnScene, Clear := c.Clear,
            Narrative := c.Narrative, UpdatedAt := now }
        else c_1) = fun x => decide (x.ID = id) := by
      funext x
      simp only [Function.comp]
      split <;> simp_all
    have hf2 : (a.db.calls.map (fun (c_1 : Call) =>
        if c_1.ID = id then
          { c_1 with
            IncidentNumber := c.IncidentNumber, CallType := c.CallType,
            MutualAid := c.MutualAid, Address := c.Address, Town := c.Town,
            LocationNotes := c.LocationNotes, Dispatched := c.Dispatched,
            Enroute := c.Enroute, OnScene := c.OnScene, Clear := c.Clear,
            Narrative := c.Narrative, UpdatedAt := now }
        else c_1)).find? (fun x => x.ID = id) = some { c with UpdatedAt := now } := by
      rw [List.find?_map, hp, hfind]
      simp only [Option.map_some', hid, if_true]
    have hread' : TimesReadBack e { c with UpdatedAt := now } := hread
    rw [GetCallByID_found e _ id _ hf2 hread']
    show Except.ok (_, e.orderBy apparatusOrder (apparatusJoin _ id),
      e.orderBy responderOrder (responderJoin _ id)) = _
    rw [apparatusJoin_after_delete, responderJoin_after_delete, orderBy_nil, orderBy_nil, hid]
  · rw [List.map_map]
    apply List.map_congr_left
    intro x _
    simp only [Function.comp]
    split <;> rfl

/-- C20, on the code: `App.DeleteCall` reads the call and saves it again
with empty apparatus, responder and role lists, so `UpdateCall` deletes every
association of the call and inserts none.  For every stored call that
`GetCallByID` reads, the delete returns nil, keeps the call row with every
field but `updated_at`, and afterwards `GetCallByID` returns the call with two
empty lists.  Call 1 of `sampleDB1` has one apparatus and one responder, and
after `App.DeleteCall(1)` it has none, where the claim keeps both. -/
theorem App_DeleteCall_wipes_associations (e : Engine) :
    (∀ (a : App) (now : Time) (id : Int) (c : Call) (apparatus : List Picklist)
        (responders : List User),
      GetCallByID e a.db id = .ok (c, apparatus, responders) →
        (App.DeleteCall e a now id).2 = none ∧
        GetCallByID e (App.DeleteCall e a now id).1.db id =
          .ok ({ c with UpdatedAt := now }, [], []) ∧
        (App.DeleteCall e a now id).1.db.call_apparatus =
          a.db.call_apparatus.filter (fun r => r.CallID ≠ id) ∧
        (App.DeleteCall e a now id).1.db.call_responders =
          a.db.call_responders.filter (fun r => r.CallID ≠ id)) ∧
    (GetCallByID e sampleDB1 1).map
        (fun r => (r.2.1.map (fun p => p.ID), r.2.2.map (fun u => u.ID))) =
      .ok ([1], [2]) ∧
    (App.DeleteCall e { db := sampleDB1, currentUser := none } sampleTime1 1).2 = none ∧
    (GetCallByID e
        (App.DeleteCall e { db := sampleDB1, currentUser := none } sampleTime1 1).1.db 1).map
        (fun r => (r.2.1.map (fun p => p.ID), r.2.2.map (fun u => u.ID))) =
      .ok ([], []) := by
  refine ⟨?_, ?_, ?_, ?_⟩
  · intro a now id c apparatus responders h
    have := App_DeleteCall_of_read e a now id c apparatus responders h
    exact ⟨this.1, this.2.1, this.2.2.2.1, this.2.2.2.2.1⟩
  · rw [GetCallByID_eq_sample e _ 1 (by decide) (by decide) (by decide)]
    decide
  · rw [App_DeleteCall_eq_sample e _ _ 1 (by decide) (by decide) (by decide)]
    decide
  · rw [App_DeleteCall_eq_sample e _ _ 1 (by decide) (by decide) (by decide),
      GetCallByID_eq_sample e _ 1 (by decide) (by decide) (by decide)]
    decide

/-! ## `GetCallByID` -/

/-- C19, as the code has it: `GetCallByID` looks at the stored row with the
id.  When the driver reads back the times of the row, it returns that row,
the rows of `call_apparatus JOIN picklists` of the call, each as often as the
join yields it, in ascending order of (sort order, value), and the rows of
`call_responders JOIN users` of the call, likewise, in ascending order of
(last name, first name); these are the picklist rows that an apparatus
association of the call names and the users that a responder association of
the call names, and no others; the active flag of a row plays no part; without
an association the list is empty.  When the driver does not read back one of
the times, it fails with the `Scan` error of a time column.  Every stored id
has such a row, and for an id without a stored call it returns
`sql.ErrNoRows`. -/
theorem GetCallByID_returns_linked_rows (e : Engine) (db : Store) (id : Int) :
    (∀ row, db.calls.find? (fun c => c.ID = id) = some row → TimesReadBack e row →
      ∃ (apparatus : List Picklist) (responders : List User),
        GetCallByID e db id = .ok (row, apparatus, responders) ∧
        row ∈ db.calls ∧ row.ID = id ∧
        apparatus.Perm (apparatusJoin db id) ∧
        List.Sorted apparatusOrder apparatus ∧
        (∀ p, p ∈ apparatus ↔
          p ∈ db.picklists ∧ ∃ ca ∈ db.call_apparatus, ca.CallID = id ∧ ca.ApparatusID = p.ID) ∧
        responders.Perm (responderJoin db id) ∧
        List.Sorted responderOrder responders ∧
        (∀ u, u ∈ responders ↔
          ∃ row ∈ db.users, u = responderOfRow row ∧
            ∃ cr ∈ db.call_responders, cr.CallID = id ∧ cr.ResponderID = row.id) ∧
        ((∀ ca ∈ db.call_apparatus, ca.CallID ≠ id) → apparatus = []) ∧
        ((∀ cr ∈ db.call_responders, cr.CallID ≠ id) → responders = [])) ∧
    (∀ row, db.calls.find? (fun c => c.ID = id) = some row → ¬ TimesReadBack e row →
      ∃ column, GetCallByID e db id = .error (.scanTime column)) ∧
    ((∃ c ∈ db.calls, c.ID = id) → ∃ row, db.calls.find? (fun c => c.ID = id) = some row) ∧
    ((¬ ∃ c ∈ db.calls, c.ID = id) → GetCallByID e db id = .error .ErrNoRows) := by
  refine ⟨?_, ?_, ?_, ?_⟩
  · intro row hsome hread
    have hmemA : ∀ p, p ∈ e.orderBy apparatusOrder (apparatusJoin db id) ↔
        p ∈ db.picklists ∧
          ∃ ca ∈ db.call_apparatus, ca.CallID = id ∧ ca.ApparatusID = p.ID := by
      intro p
      simp only [mem_orderBy, apparatusJoin, List.mem_flatMap, List.mem_filter,
        decide_eq_true_eq]
      constructor
      · rintro ⟨ca, ⟨h1, h2⟩, h3, h4⟩
        exact ⟨h3, ca, h1, h2, h4⟩
      · rintro ⟨h3, ca, h1, h2, h4⟩
        exact ⟨ca, ⟨h1, h2⟩, h3, h4⟩
    have hmemR : ∀ u, u ∈ e.orderBy responderOrder (responderJoin db id) ↔
        ∃ row ∈ db.users, u = responderOfRow row ∧
          ∃ cr ∈ db.call_responders, cr.CallID = id ∧ cr.ResponderID = row.id := by
      intro u
      simp only [mem_orderBy, responderJoin, List.mem_flatMap, List.mem_filter, List.mem_map,
        decide_eq_true_eq]
      constructor
      · rintro ⟨cr, ⟨h1, h2⟩, row, ⟨h3, h4⟩, rfl⟩
        exact ⟨row, h3, rfl, cr, h1, h2, h4⟩
      · rintro ⟨row, h3, rfl, cr, h1, h2, h4⟩
        exact ⟨cr, ⟨h1, h2⟩, row, ⟨h3, h4⟩, rfl⟩
    refine ⟨_, _, GetCallByID_found e db id row hsome hread, List.mem_of_find?_eq_some hsome,
      by simpa using List.find?_some hsome,
      e.orderBy_perm _ _,
      e.orderBy_sorted _ _ apparatusOrder_total apparatusOrder_trans, hmemA,
      e.orderBy_perm _ _,
      e.orderBy_sorted _ _ responderOrder_total responderOrder_trans, hmemR, ?_, ?_⟩
    · intro hno
      apply List.eq_nil_iff_forall_not_mem.2
      intro p hp
      obtain ⟨-, ca, h1, h2, -⟩ := (hmemA p).1 hp
      exact hno ca h1 h2
    · intro hno
      apply List.eq_nil_iff_forall_not_mem.2
      intro u hu
      obtain ⟨-, -, -, cr, h1, h2, -⟩ := (hmemR u).1 hu
      exact hno cr h1 h2
  · intro row hsome hread
    exact GetCallByID_unread e db id row hsome hread
  · rintro ⟨c, hc, hid⟩
    cases hf : db.calls.find? (fun c => c.ID = id) with
    | none =>
      rw [List.find?_eq_none] at hf
      exact absurd (by simpa using hid) (hf c hc)
    | some row => exact ⟨row, rfl⟩
  · intro hno
    apply GetCallByID_missing
    cases hf : db.calls.find? (fun c => c.ID = id) with
    | none => rfl
    | some c =>
      exact absurd ⟨c, List.mem_of_find?_eq_some hf, by simpa using List.find?_some hf⟩ hno

/-- C19 on `freshDB1`: call 1 is stored with UTC times and comes back with its
one apparatus and its one responder, whatever the engine; no call has id 99,
and the result is `sql.ErrNoRows`. -/
theorem GetCallByID_returns_linked_rows_witness :
    (∀ e : Engine,
      (GetCallByID e freshDB1 1).toOption.map (fun x => (x.1.ID, x.2.1.map (fun p => p.Value),
        x.2.2.map (fun u => u.LastName))) = some (1, ["Engine 1"], ["User"])) ∧
    (¬ ∃ c ∈ freshDB1.calls, c.ID = 99) ∧
    GetCallByID sampleEngine freshDB1 99 = .error .ErrNoRows :=
  ⟨fun e => by
      rw [GetCallByID_eq_sample e _ 1 (by decide) (by decide) (by decide)]
      decide,
    by decide,
    (GetCallByID_returns_linked_rows sampleEngine freshDB1 99).2.2.2 (by decide)⟩

/-- C19 fails as stated: `eastDB` is reachable and holds call 1, created with
a time of dispatch in a fixed zone without a name, one hour east of UTC.  For
this stored id `GetCallByID` returns no call: it fails with the `Scan` error of
column `dispatched`. -/
theorem GetCallByID_scan_error :
    Reachable eastDB ∧
    eastDB.calls.map (fun c => (c.ID, c.IncidentNumber, c.Dispatched.Zone)) =
      [(1, "2026-001", "+0100")] ∧
    ∀ e : Engine, GetCallByID e eastDB 1 = .error (.scanTime "dispatched") :=
  ⟨Reachable.createCall sampleTime _ [18] [1] ["Driver"] (Reachable.init sampleTime),
    by decide, fun e => GetCallByID_east e eastDB 1 (by decide)⟩

/-! ## `SearchCalls` -/

/-- The query built from the filters holds of a row exactly when the row
passes the filters. -/
theorem searchQuery_all (filters : Filters) (row : Call) :
    (searchQuery filters).all (fun clause => clause.holds row) = true ↔ Matches filters row := by
  unfold searchQuery Matches
  cases h1 : filters "start_date" <;> cases h2 : filters "end_date" <;>
    cases h3 : filters "call_type" <;> cases h4 : filters "town" <;>
    cases h5 : filters "search_text" <;>
    simp only [List.nil_append, List.all_nil, List.all_cons, List.all_append, Clause.holds,
      Bool.and_true, Bool.and_eq_true, Bool.or_eq_true, decide_eq_true_eq, Option.some.injEq,
      forall_eq', reduceCtorEq, false_implies, implies_true, true_and, and_true, ne_eq,
      ite_not] <;>
    (repeat' split) <;>
    simp_all [Clause.holds]

theorem searchRows_eq (e : Engine) (db : Store) (filters : Filters) (limit offset : Int) :
    searchRows e db filters limit offset =
      sqlLimit limit (sqlOffset offset
        (e.orderBy newestFirst (db.calls.filter (fun row =>
          (searchQuery filters).all (fun clause => clause.holds row))))) :=
  rfl

theorem SearchCalls_congr (e : Engine) (db : Store) (f g : Filters) (limit offset : Int)
    (h : ∀ row, Matches f row ↔ Matches g row) :
    SearchCalls e db f limit offset = SearchCalls e db g limit offset := by
  unfold SearchCalls
  rw [searchRows_eq, searchRows_eq]
  have : (fun row => (searchQuery f).all (fun clause => clause.holds row)) =
      fun row => (searchQuery g).all (fun clause => clause.holds row) := by
    funext row
    rw [Bool.eq_iff_iff, searchQuery_all, searchQuery_all]
    exact h row
  rw [this]

theorem createdAtGe_empty (t : Time) : createdAtGe t "" = true := rfl

/-- C17, on the code: for the keys `start_date`, `call_type`, `town` and
`search_text` the empty string gives the same result as no key; so
`{call_type: "Structure Fire", town: ""}` on `searchDB` returns the structure
fires of both towns, newest first.  For `end_date` it does not: the clause
`created_at <= ''` is added and no row passes it, so on `sampleDB1` the
search with `end_date` empty returns nothing while the search without it
returns call 1. -/
theorem SearchCalls_empty_filter (e : Engine) :
    (∀ (db : Store) (filters : Filters) (limit offset : Int),
      SearchCalls e db (Function.update filters "start_date" (some "")) limit offset =
        SearchCalls e db (Function.update filters "start_date" none) limit offset ∧
      SearchCalls e db (Function.update filters "call_type" (some "")) limit offset =
        SearchCalls e db (Function.update filters "call_type" none) limit offset ∧
      SearchCalls e db (Function.update filters "town" (some "")) limit offset =
        SearchCalls e db (Function.update filters "town" none) limit offset ∧
      SearchCalls e db (Function.update filters "search_text" (some "")) limit offset =
        SearchCalls e db (Function.update filters "search_text" none) limit offset) ∧
    (SearchCalls e searchDB
      (Function.update (Function.update (fun _ => none) "call_type" (some "Structure Fire"))
        "town" (some "")) 100 0).map (fun l => l.map (fun c => (c.ID, c.CallType, c.Town))) =
      .ok [(2, "Structure Fire", "Readsboro"), (1, "Structure Fire", "Stamford")] ∧
    (SearchCalls e sampleDB1 (Function.update (fun _ => none) "end_date" (some "")) 100 0).map
      (fun l => l.map (fun c => c.ID)) = .ok [] ∧
    (SearchCalls e sampleDB1 (Function.update (fun _ => none) "end_date" none) 100 0).map
      (fun l => l.map (fun c => c.ID)) = .ok [1] := by
  refine ⟨fun db filters limit offset => ⟨?_, ?_, ?_, ?_⟩, ?_, ?_, ?_⟩
  · apply SearchCalls_congr
    intro row
    unfold Matches
    simp [Function.update_apply, createdAtGe_empty]
  · apply SearchCalls_congr
    intro row
    unfold Matches
    simp [Function.update_apply, createdAtGe_empty]
  · apply SearchCalls_congr
    intro row
    unfold Matches
    simp [Function.update_apply, createdAtGe_empty]
  · apply SearchCalls_congr
    intro row
    unfold Matches
    simp [Function.update_apply, createdAtGe_empty]
  · rw [SearchCalls_eq_sample e _ _ _ _ (by decide) (by decide)]
    decide
  · rw [SearchCalls_eq_sample e _ _ _ _ (by decide) (by decide)]
    decide
  · rw [SearchCalls_eq_sample e _ _ _ _ (by decide) (by decide)]
    decide

/-! ## Referential integrity -/

theorem KeepsRows_refl (db : Store) : KeepsRows db db :=
  ⟨fun u hu => ⟨u, hu, rfl⟩, fun p hp => ⟨p, hp, rfl⟩⟩

theorem KeepsRows_trans {a b c : Store} (h1 : KeepsRows a b) (h2 : KeepsRows b c) :
    KeepsRows a c := by
  constructor
  · intro u hu
    obtain ⟨u', hu', e'⟩ := h1.1 u hu
    obtain ⟨u'', hu'', e''⟩ := h2.1 u' hu'
    exact ⟨u'', hu'', e''.trans e'⟩
  · intro p hp
    obtain ⟨p', hp', e'⟩ := h1.2 p hp
    obtain ⟨p'', hp'', e''⟩ := h2.2 p' hp'
    exact ⟨p'', hp'', e''.trans e'⟩

theorem Extends_refl (db : Store) : Extends db db :=
  ⟨KeepsRows_refl db, rfl, rfl, rfl⟩

theorem Extends_trans {a b c : Store} (h1 : Extends a b) (h2 : Extends b c) : Extends a c :=
  ⟨KeepsRows_trans h1.1 h2.1, h2.2.1.trans h1.2.1, h2.2.2.1.trans h1.2.2.1,
    h2.2.2.2.trans h1.2.2.2⟩

theorem RefIntegrity_of_extends {db db' : Store} (h : RefIntegrity db) (e : Extends db db') :
    RefIntegrity db' := by
  obtain ⟨⟨ku, kp⟩, ec, ea, er⟩ := e
  refine ⟨?_, ?_, ?_⟩
  · intro c hc
    rw [ec] at hc
    obtain ⟨u, hu, hid⟩ := h.1 c hc
    obtain ⟨u', hu', e'⟩ := ku u hu
    exact ⟨u', hu', e'.trans hid⟩
  · intro r hr
    rw [ea] at hr
    obtain ⟨hc, p, hp, hid⟩ := h.2.1 r hr
    obtain ⟨p', hp', e'⟩ := kp p hp
    rw [ec]
    exact ⟨hc, p', hp', e'.trans hid⟩
  · intro r hr
    rw [er] at hr
    obtain ⟨hc, u, hu, hid⟩ := h.2.2 r hr
    obtain ⟨u', hu', e'⟩ := ku u hu
    rw [ec]
    exact ⟨hc, u', hu', e'.trans hid⟩

theorem Extends_insertUser (db : Store) (now : Time) (f l p : String) (e : Option String)
    (a : Bool) (pin : Option String) : Extends db (insertUser db now f l p e a pin) :=
  ⟨⟨fun u hu => ⟨u, by simp [insertUser, hu], rfl⟩, fun p hp => ⟨p, hp, rfl⟩⟩, rfl, rfl, rfl⟩

theorem Extends_updateUsersWhere (db : Store) (id : Int) (f : UserRow → UserRow)
    (hf : ∀ u, (f u).id = u.id) : Extends db (updateUsersWhere db id f) := by
  refine ⟨⟨?_, fun p hp => ⟨p, hp, rfl⟩⟩, rfl, rfl, rfl⟩
  intro u hu
  refine ⟨if u.id = id then f u else u, ?_, ?_⟩
  · simp only [updateUsersWhere, List.mem_map]
    exact ⟨u, hu, rfl⟩
  · split
    · exact hf u
    · rfl

theorem Extends_insertOrIgnorePicklist (db : Store) (category value : String)
    (sortOrder : Int) : Extends db (insertOrIgnorePicklist db category value sortOrder) := by
  unfold insertOrIgnorePicklist
  split
  · exact Extends_refl db
  · exact ⟨⟨fun u hu => ⟨u, hu, rfl⟩, fun p hp => ⟨p, by simp [hp], rfl⟩⟩, rfl, rfl, rfl⟩

theorem Extends_insertOrIgnoreSetting (db : Store) (key value : String) :
    Extends db (insertOrIgnoreSetting db key value) := by
  unfold insertOrIgnoreSetting
  split
  · exact Extends_refl db
  · exact ⟨⟨fun u hu => ⟨u, hu, rfl⟩, fun p hp => ⟨p, hp, rfl⟩⟩, rfl, rfl, rfl⟩

theorem Extends_foldl {α : Type} (f : Store → α → Store) (hf : ∀ s a, Extends s (f s a)) :
    ∀ (l : List α) (s : Store), Extends s (l.foldl f s)
  | [], s => Extends_refl s
  | a :: rest, s => by
    rw [List.foldl_cons]
    exact Extends_trans (hf s a) (Extends_foldl f hf rest _)

theorem Extends_seedDefaultData (db : Store) (now : Time) :
    Extends db (seedDefaultData db now).1 := by
  have chain : ∀ s : Store, Extends s
      (insertOrIgnoreSetting
        (insertOrIgnoreSetting
          (insertOrIgnoreSetting
            (insertOrIgnoreSetting
              (insertOrIgnoreSetting
                (List.foldl
                  (fun db category =>
                    List.foldl (fun db iv =>
                      insertOrIgnorePicklist db category.1 iv.2 (category.2.2.getD iv.1 0))
                      db category.2.1.enum)
                  s picklistData)
                "report_dir" "reports")
              "auto_print_after_save" "false")
            "edit_time_limit_minutes" "30")
          "admin_can_always_edit" "true")
        "default_date_range_days" "30") := by
    intro s
    refine Extends_trans ?_ (Extends_insertOrIgnoreSetting _ _ _)
    refine Extends_trans ?_ (Extends_insertOrIgnoreSetting _ _ _)
    refine Extends_trans ?_ (Extends_insertOrIgnoreSetting _ _ _)
    refine Extends_trans ?_ (Extends_insertOrIgnoreSetting _ _ _)
    refine Extends_trans ?_ (Extends_insertOrIgnoreSetting _ _ _)
    apply Extends_foldl
    intro s category
    apply Extends_foldl
    intro s iv
    exact Extends_insertOrIgnorePicklist _ _ _ _
  unfold seedDefaultData
  by_cases hlen : db.users.length = 0
  · simp only [hlen, if_true]
    refine Extends_trans
      (Extends_insertUser db now "Admin" "User" "administrator" none true (some "1234")) ?_
    by_cases hp :
        (insertUser db now "Admin" "User" "administrator" none true (some "1234")).picklists.length
          > 0
    · rw [if_pos hp]
      exact Extends_refl (insertUser db now "Admin" "User" "administrator" none true (some "1234"))
    · rw [if_neg hp]
      dsimp only
      exact chain (insertUser db now "Admin" "User" "administrator" none true (some "1234"))
  · simp only [hlen, if_false]
    by_cases hp : db.picklists.length > 0
    · rw [if_pos hp]
      exact Extends_refl db
    · rw [if_neg hp]
      dsimp only
      exact chain db

theorem Extends_InitDB (db : Store) (now : Time) : Extends db (InitDB db now) := by
  unfold InitDB
  simp only [ensureAdminExists_eq]
  exact Extends_seedDefaultData db now

theorem Extends_CreatePicklistItem (db : Store) (category value : String) (sortOrder : Int) :
    Extends db (CreatePicklistItem db category value sortOrder).1 := by
  unfold CreatePicklistItem
  split
  · exact Extends_refl db
  · exact ⟨⟨fun u hu => ⟨u, hu, rfl⟩, fun p hp => ⟨p, by simp [hp], rfl⟩⟩, rfl, rfl, rfl⟩

theorem Extends_mapPicklists (db : Store) (f : Picklist → Picklist)
    (hf : ∀ p, (f p).ID = p.ID) : Extends db { db with picklists := db.picklists.map f } :=
  ⟨⟨fun u hu => ⟨u, hu, rfl⟩, fun p hp => ⟨f p, List.mem_map_of_mem f hp, hf p⟩⟩, rfl, rfl, rfl⟩

theorem Extends_UpdatePicklistItem (db : Store) (item : Picklist) :
    Extends db (UpdatePicklistItem db item).1 := by
  unfold UpdatePicklistItem
  split
  · exact Extends_refl db
  · split
    · exact Extends_refl db
    · apply Extends_mapPicklists
      intro p
      split <;> rfl

theorem Extends_DeletePicklistItem (db : Store) (id : Int) :
    Extends db (DeletePicklistItem db id).1 := by
  unfold DeletePicklistItem
  apply Extends_mapPicklists
  intro p
  split <;> rfl

theorem CreateCall_picklists (db : Store) (now : Time) (call : Call) (aIDs rIDs : List Int)
    (roles : List String) :
    (CreateCall db now call aIDs rIDs roles).1.picklists = db.picklists := by
  cases h : (CreateCall db now call aIDs rIDs roles).2.2 with
  | some e => rw [CreateCall_error db now call aIDs rIDs roles (by simp [h])]
  | none =>
    obtain ⟨num, -, -, -, -, -, e⟩ := CreateCall_ok db now call aIDs rIDs roles h
    rw [e]

theorem UpdateCall_picklists (db : Store) (now : Time) (call : Call) (aIDs rIDs : List Int)
    (roles : List String) :
    (UpdateCall db now call aIDs rIDs roles).1.picklists = db.picklists := by
  cases h : (UpdateCall db now call aIDs rIDs roles).2 with
  | some e => rw [UpdateCall_error db now call aIDs rIDs roles (by simp [h])]
  | none => rw [(UpdateCall_ok db now call aIDs rIDs roles h).2.2]

theorem KeepsRows_of_eq {db db' : Store} (hu : db'.users = db.users)
    (hp : db'.picklists = db.picklists) : KeepsRows db db' :=
  ⟨fun u h => ⟨u, by rw [hu]; exact h, rfl⟩, fun p h => ⟨p, by rw [hp]; exact h, rfl⟩⟩

theorem Step_KeepsRows {db db' : Store} (h : Step db db') : KeepsRows db db' := by
  cases h with
  | restart now => exact (Extends_InitDB db now).1
  | createUser now f l p e pin a => exact (Extends_insertUser _ _ _ _ _ _ _ _).1
  | updateUser user =>
    show KeepsRows db (updateUsersWhere db _ _)
    exact (Extends_updateUsersWhere db _ _ (by intro u; rfl)).1
  | changePIN id pin =>
    show KeepsRows db (updateUsersWhere db _ _)
    exact (Extends_updateUsersWhere db _ _ (by intro u; rfl)).1
  | updateUserPosition id p =>
    show KeepsRows db (updateUsersWhere db _ _)
    exact (Extends_updateUsersWhere db _ _ (by intro u; rfl)).1
  | updateUserAdminStatus id a =>
    show KeepsRows db (updateUsersWhere db _ _)
    exact (Extends_updateUsersWhere db _ _ (by intro u; rfl)).1
  | updateUserJoinDate id d =>
    show KeepsRows db (updateUsersWhere db _ _)
    exact (Extends_updateUsersWhere db _ _ (by intro u; rfl)).1
  | createPicklistItem c v o => exact (Extends_CreatePicklistItem _ _ _ _).1
  | updatePicklistItem item => exact (Extends_UpdatePicklistItem _ _).1
  | deletePicklistItem id => exact (Extends_DeletePicklistItem _ _).1
  | createCall now call a r roles =>
    exact KeepsRows_of_eq (CreateCall_users _ _ _ _ _ _) (CreateCall_picklists _ _ _ _ _ _)
  | updateCall now call a r roles =>
    exact KeepsRows_of_eq (UpdateCall_users _ _ _ _ _ _) (UpdateCall_picklists _ _ _ _ _ _)

theorem insertApparatusLoop_ok_call {callID : Int} :
    ∀ (l : List Int) {tx tx' : Store}, insertApparatusLoop callID l tx = .ok tx' →
      l ≠ [] → ∃ c ∈ tx.calls, c.ID = callID
  | [], _, _, _, hne => absurd rfl hne
  | b :: rest, tx, tx', h, _ => by
    simp only [insertApparatusLoop] at h
    split at h
    · exact absurd h (by simp)
    · rename_i tx1 h1
      exact (insertCallApparatus_ok h1).2.2.1

theorem insertRespondersLoop_ok_call {callID : Int} {roles : List String} :
    ∀ (l : List Int) (i : Nat) {tx tx' : Store},
      insertRespondersLoop callID roles i l tx = .ok tx' →
      l ≠ [] → ∃ c ∈ tx.calls, c.ID = callID
  | [], _, _, _, _, hne => absurd rfl hne
  | b :: rest, i, tx, tx', h, _ => by
    simp only [insertRespondersLoop] at h
    split at h
    · exact absurd h (by simp)
    · rename_i tx1 h1
      exact (insertCallResponder_ok h1).2.2.1

/-- A successful `UpdateCall` with an association to insert found the call. -/
theorem UpdateCall_ok_call (db : Store) (now : Time) (call : Call) (aIDs rIDs : List Int)
    (roles : List String) (h : (UpdateCall db now call aIDs rIDs roles).2 = none)
    (hne : aIDs ≠ [] ∨ rIDs ≠ []) : ∃ c ∈ db.calls, c.ID = call.ID := by
  generalize hr : UpdateCall db now call aIDs rIDs roles = r at h
  unfold UpdateCall at hr
  simp only at hr
  split at hr
  · rw [← hr] at h
    simp at h
  · rename_i tx2 h3
    split at hr
    · rw [← hr] at h
      simp at h
    · rename_i tx3 h4
      have key : ∀ {l : List Call}, (∃ c ∈ l.map (fun (c : Call) =>
          if c.ID = call.ID then
            { c with
              IncidentNumber := call.IncidentNumber, CallType := call.CallType,
              MutualAid := call.MutualAid, Address := call.Address, Town := call.Town,
              LocationNotes := call.LocationNotes, Dispatched := call.Dispatched,
              Enroute := call.Enroute, OnScene := call.OnScene, Clear := call.Clear,
              Narrative := call.Narrative, UpdatedAt := now }
          else c), c.ID = call.ID) → ∃ c ∈ l, c.ID = call.ID := by
        intro l hx
        obtain ⟨c', hc', hid⟩ := hx
        rw [List.mem_map] at hc'
        obtain ⟨c, hc, rfl⟩ := hc'
        refine ⟨c, hc, ?_⟩
        split at hid
        · assumption
        · exact hid
      rcases hne with hne | hne
      · exact key (insertApparatusLoop_ok_call _ h3 hne)
      · have := insertRespondersLoop_ok_call _ _ h4 hne
        rw [insertApparatusLoop_ok _ h3] at this
        exact key this

theorem RefIntegrity_CreateCall {db : Store} (h : RefIntegrity db) (now : Time) (call : Call)
    (aIDs rIDs : List Int) (roles : List String) :
    RefIntegrity (CreateCall db now call aIDs rIDs roles).1 := by
  cases herr : (CreateCall db now call aIDs rIDs roles).2.2 with
  | some e =>
    rw [CreateCall_error db now call aIDs rIDs roles (by simp [herr])]
    exact h
  | none =>
    obtain ⟨num, -, hu, hp, hr, -, e⟩ := CreateCall_ok db now call aIDs rIDs roles herr
    rw [e]
    refine ⟨?_, ?_, ?_⟩
    · intro c hc
      rcases List.mem_append.1 hc with hc | hc
      · exact h.1 c hc
      · rw [List.mem_singleton.1 hc]
        exact hu
    · intro r hr'
      rcases List.mem_append.1 hr' with hr' | hr'
      · obtain ⟨⟨c, hc, hid⟩, hpk⟩ := h.2.1 r hr'
        exact ⟨⟨c, List.mem_append_left _ hc, hid⟩, hpk⟩
      · obtain ⟨h1, h2⟩ := mem_apparatusRows _ _ _ _ hr'
        exact ⟨⟨_, List.mem_append_right _ (List.mem_singleton_self _), h1.symm⟩, hp _ h2⟩
    · intro r hr'
      rcases List.mem_append.1 hr' with hr' | hr'
      · obtain ⟨⟨c, hc, hid⟩, hus⟩ := h.2.2 r hr'
        exact ⟨⟨c, List.mem_append_left _ hc, hid⟩, hus⟩
      · obtain ⟨h1, h2⟩ := mem_responderRows _ _ _ _ _ _ hr'
        exact ⟨⟨_, List.mem_append_right _ (List.mem_singleton_self _), h1.symm⟩, hr _ h2⟩

theorem RefIntegrity_UpdateCall {db : Store} (h : RefIntegrity db) (now : Time) (call : Call)
    (aIDs rIDs : List Int) (roles : List String) :
    RefIntegrity (UpdateCall db now call aIDs rIDs roles).1 := by
  cases herr : (UpdateCall db now call aIDs rIDs roles).2 with
  | some e =>
    rw [UpdateCall_error db now call aIDs rIDs roles (by simp [herr])]
    exact h
  | none =>
    obtain ⟨hp, hr, e⟩ := UpdateCall_ok db now call aIDs rIDs roles herr
    have hcall := UpdateCall_ok_call db now call aIDs rIDs roles herr
    rw [e]
    have keep : ∀ {id : Int}, (∃ c ∈ db.calls, c.ID = id) →
        ∃ c ∈ db.calls.map (fun (c : Call) =>
          if c.ID = call.ID then
            { c with
              IncidentNumber := call.IncidentNumber, CallType := call.CallType,
              MutualAid := call.MutualAid, Address := call.Address, Town := call.Town,
              LocationNotes := call.LocationNotes, Dispatched := call.Dispatched,
              Enroute := call.Enroute, OnScene := call.OnScene, Clear := call.Clear,
              Narrative := call.Narrative, UpdatedAt := now }
          else c), c.ID = id := by
      rintro id ⟨c, hc, hid⟩
      refine ⟨_, List.mem_map_of_mem _ hc, ?_⟩
      split
      · exact hid
      · exact hid
    refine ⟨?_, ?_, ?_⟩
    · intro c hc
      simp only [List.mem_map] at hc
      obtain ⟨c0, hc0, rfl⟩ := hc
      obtain ⟨u, hu, hid⟩ := h.1 c0 hc0
      refine ⟨u, hu, ?_⟩
      split
      · exact hid
      · exact hid
    · intro r hr'
      rcases List.mem_append.1 hr' with hr' | hr'
      · obtain ⟨hc, hpk⟩ := h.2.1 r (List.mem_filter.1 hr').1
        exact ⟨keep hc, hpk⟩
      · obtain ⟨h1, h2⟩ := mem_apparatusRows _ _ _ _ hr'
        have hne : aIDs ≠ [] := List.ne_nil_of_mem h2
        rw [h1]
        exact ⟨keep (hcall (Or.inl hne)), hp _ h2⟩
    · intro r hr'
      rcases List.mem_append.1 hr' with hr' | hr'
      · obtain ⟨hc, hus⟩ := h.2.2 r (List.mem_filter.1 hr').1
        exact ⟨keep hc, hus⟩
      · obtain ⟨h1, h2⟩ := mem_responderRows _ _ _ _ _ _ hr'
        have hne : rIDs ≠ [] := List.ne_nil_of_mem h2
        rw [h1]
        exact ⟨keep (hcall (Or.inr hne)), hr _ h2⟩

theorem RefIntegrity_step {db db' : Store} (h : RefIntegrity db) (s : Step db db') :
    RefIntegrity db' := by
  cases s with
  | restart now => exact RefIntegrity_of_extends h (Extends_InitDB db now)
  | createUser now f l p e pin a =>
    exact RefIntegrity_of_extends h (Extends_insertUser _ _ _ _ _ _ _ _)
  | updateUser user =>
    exact RefIntegrity_of_extends h
      (show Extends db (updateUsersWhere db _ _) from
        Extends_updateUsersWhere db _ _ (by intro u; rfl))
  | changePIN id pin =>
    exact RefIntegrity_of_extends h
      (show Extends db (updateUsersWhere db _ _) from
        Extends_updateUsersWhere db _ _ (by intro u; rfl))
  | updateUserPosition id p =>
    exact RefIntegrity_of_extends h
      (show Extends db (updateUsersWhere db _ _) from
        Extends_updateUsersWhere db _ _ (by intro u; rfl))
  | updateUserAdminStatus id a =>
    exact RefIntegrity_of_extends h
      (show Extends db (updateUsersWhere db _ _) from
        Extends_updateUsersWhere db _ _ (by intro u; rfl))
  | updateUserJoinDate id d =>
    exact RefIntegrity_of_extends h
      (show Extends db (updateUsersWhere db _ _) from
        Extends_updateUsersWhere db _ _ (by intro u; rfl))
  | createPicklistItem c v o =>
    exact RefIntegrity_of_extends h (Extends_CreatePicklistItem _ _ _ _)
  | updatePicklistItem item => exact RefIntegrity_of_extends h (Extends_UpdatePicklistItem _ _)
  | deletePicklistItem id => exact RefIntegrity_of_extends h (Extends_DeletePicklistItem _ _)
  | createCall now call a r roles => exact RefIntegrity_CreateCall h _ _ _ _ _
  | updateCall now call a r roles => exact RefIntegrity_UpdateCall h _ _ _ _ _

theorem RefIntegrity_empty : RefIntegrity Store.empty :=
  ⟨fun c hc => absurd hc (List.not_mem_nil c), fun r hr => absurd hr (List.not_mem_nil r),
    fun r hr => absurd hr (List.not_mem_nil r)⟩

theorem Reachable_RefIntegrity {db : Store} (h : Reachable db) : RefIntegrity db := by
  induction h with
  | init now => exact RefIntegrity_step RefIntegrity_empty (Step.restart _ now)
  | restart now _ ih => exact RefIntegrity_step ih (Step.restart _ now)
  | createUser now f l p e pin a _ ih =>
    exact RefIntegrity_step ih (Step.createUser _ now f l p e pin a)
  | updateUser user _ ih => exact RefIntegrity_step ih (Step.updateUser _ user)
  | changePIN id pin _ ih => exact RefIntegrity_step ih (Step.changePIN _ id pin)
  | updateUserPosition id p _ ih => exact RefIntegrity_step ih (Step.updateUserPosition _ id p)
  | updateUserAdminStatus id a _ ih =>
    exact RefIntegrity_step ih (Step.updateUserAdminStatus _ id a)
  | updateUserJoinDate id d _ ih => exact RefIntegrity_step ih (Step.updateUserJoinDate _ id d)
  | createPicklistItem c v o _ ih => exact RefIntegrity_step ih (Step.createPicklistItem _ c v o)
  | updatePicklistItem item _ ih => exact RefIntegrity_step ih (Step.updatePicklistItem _ item)
  | deletePicklistItem id _ ih => exact RefIntegrity_step ih (Step.deletePicklistItem _ id)
  | createCall now call a r roles _ ih =>
    exact RefIntegrity_step ih (Step.createCall _ now call a r roles)
  | updateCall now call a r roles _ ih =>
    exact RefIntegrity_step ih (Step.updateCall _ now call a r roles)

theorem Reachable_step {db db' : Store} (h : Reachable db) (s : Step db db') :
    Reachable db' := by
  cases s with
  | restart now => exact Reachable.restart now h
  | createUser now f l p e pin a => exact Reachable.createUser now f l p e pin a h
  | updateUser user => exact Reachable.updateUser user h
  | changePIN id pin => exact Reachable.changePIN id pin h
  | updateUserPosition id p => exact Reachable.updateUserPosition id p h
  | updateUserAdminStatus id a => exact Reachable.updateUserAdminStatus id a h
  | updateUserJoinDate id d => exact Reachable.updateUserJoinDate id d h
  | createPicklistItem c v o => exact Reachable.createPicklistItem c v o h
  | updatePicklistItem item => exact Reachable.updatePicklistItem item h
  | deletePicklistItem id => exact Reachable.deletePicklistItem id h
  | createCall now call a r roles => exact Reachable.createCall now call a r roles h
  | updateCall now call a r roles => exact Reachable.updateCall now call a r roles h

/-- C15: in every database reachable from `InitDB` on a new file by the
package's writing operations and restarts, every call's `created_by` is the
id of a stored user, every apparatus association names a stored call and a
stored picklist row, and every responder association names a stored call and
a stored user.  Every such operation takes a reachable database to a
reachable one and keeps every user row and every picklist row, under its
id. -/
theorem referential_integrity (db : Store) (h : Reachable db) :
    RefIntegrity db ∧
    ∀ db', Step db db' → Reachable db' ∧ RefIntegrity db' ∧ KeepsRows db db' :=
  ⟨Reachable_RefIntegrity h, fun _ s =>
    ⟨Reachable_step h s, RefIntegrity_step (Reachable_RefIntegrity h) s, Step_KeepsRows s⟩⟩

/-- C15 on the database of a new file after one `CreateCall` by the seeded
admin with apparatus 18 (`Engine 1`): integrity holds there, and after the
soft delete of that picklist row the row is still stored and the association
still names it. -/
theorem referential_integrity_witness :
    RefIntegrity (CreateCall freshDB sampleTime { sampleCall with CreatedBy := 1 } [18] [1]
      ["Driver"]).1 ∧
    KeepsRows
      (CreateCall freshDB sampleTime { sampleCall with CreatedBy := 1 } [18] [1] ["Driver"]).1
      (DeletePicklistItem
        (CreateCall freshDB sampleTime { sampleCall with CreatedBy := 1 } [18] [1]
          ["Driver"]).1 18).1 ∧
    RefIntegrity
      (DeletePicklistItem
        (CreateCall freshDB sampleTime { sampleCall with CreatedBy := 1 } [18] [1]
          ["Driver"]).1 18).1 ∧
    (CreateCall freshDB sampleTime { sampleCall with CreatedBy := 1 } [18] [1]
      ["Driver"]).2.2 = none ∧
    (DeletePicklistItem
        (CreateCall freshDB sampleTime { sampleCall with CreatedBy := 1 } [18] [1]
          ["Driver"]).1 18).1.picklists.filter (fun p => p.ID = 18) =
      [{ ID := 18, Category := "apparatus", Value := "Engine 1", SortOrder := 1,
         Active := false }] :=
  have hr : Reachable (CreateCall freshDB sampleTime { sampleCall with CreatedBy := 1 } [18] [1]
      ["Driver"]).1 :=
    Reachable.createCall sampleTime _ [18] [1] ["Driver"] (Reachable.init sampleTime)
  ⟨(referential_integrity _ hr).1,
    ((referential_integrity _ hr).2 _ (Step.deletePicklistItem _ 18)).2.2,
    ((referential_integrity _ hr).2 _ (Step.deletePicklistItem _ 18)).2.1,
    by decide, by decide⟩

/-! ## The uniqueness of incident numbers -/

theorem blankNumbers_any (tx : Store) (id : Int) :
    (blankNumbers tx).calls.any (fun c => c.ID = id) = tx.calls.any (fun c => c.ID = id) := by
  unfold blankNumbers
  simp only [List.any_map]
  rfl

theorem insertCallApparatus_blank (tx : Store) (callID b : Int) :
    insertCallApparatus (blankNumbers tx) callID b =
      (insertCallApparatus tx callID b).map blankNumbers := by
  unfold insertCallApparatus
  rw [blankNumbers_any]
  show (if tx.call_apparatus.any (fun r => r.CallID = callID ∧ r.ApparatusID = b) then _
    else if ¬ tx.calls.any (fun c => c.ID = callID) then _
    else if ¬ tx.picklists.any (fun p => p.ID = b) then _ else _) = _
  split
  · rfl
  · split
    · rfl
    · split
      · rfl
      · rfl

theorem insertCallResponder_blank (tx : Store) (callID b : Int) (role : String) :
    insertCallResponder (blankNumbers tx) callID b role =
      (insertCallResponder tx callID b role).map blankNumbers := by
  unfold insertCallResponder
  rw [blankNumbers_any]
  show (if tx.call_responders.any (fun r => r.CallID = callID ∧ r.ResponderID = b) then _
    else if ¬ tx.calls.any (fun c => c.ID = callID) then _
    else if ¬ tx.users.any (fun u => u.id = b) then _ else _) = _
  split
  · rfl
  · split
    · rfl
    · split
      · rfl
      · rfl

theorem insertApparatusLoop_blank (callID : Int) :
    ∀ (l : List Int) (tx : Store), insertApparatusLoop callID l (blankNumbers tx) =
      (insertApparatusLoop callID l tx).map blankNumbers
  | [], _ => rfl
  | b :: rest, tx => by
    simp only [insertApparatusLoop]
    rw [insertCallApparatus_blank]
    cases insertCallApparatus tx callID b with
    | error e => rfl
    | ok tx1 => exact insertApparatusLoop_blank callID rest tx1

theorem insertRespondersLoop_blank (callID : Int) (roles : List String) :
    ∀ (l : List Int) (i : Nat) (tx : Store),
      insertRespondersLoop callID roles i l (blankNumbers tx) =
        (insertRespondersLoop callID roles i l tx).map blankNumbers
  | [], _, _ => rfl
  | b :: rest, i, tx => by
    simp only [insertRespondersLoop]
    rw [insertCallResponder_blank]
    cases insertCallResponder tx callID b
        (if i < roles.length then roles.getD i "" else "") with
    | error e => rfl
    | ok tx1 => exact insertRespondersLoop_blank callID roles rest (i + 1) tx1

/-- The error of the two insert loops, run one after the other. -/
theorem loops_error_blank (callID : Int) (aIDs rIDs : List Int) (roles : List String)
    (tx tx' : Store) (h : blankNumbers tx = blankNumbers tx') :
    (match insertApparatusLoop callID aIDs tx with
      | .error e => some e
      | .ok t =>
        match insertRespondersLoop callID roles 0 rIDs t with
        | .error e => some e
        | .ok _ => none) =
    (match insertApparatusLoop callID aIDs tx' with
      | .error e => some e
      | .ok t =>
        match insertRespondersLoop callID roles 0 rIDs t with
        | .error e => some e
        | .ok _ => none) := by
  have h1 := insertApparatusLoop_blank callID aIDs tx
  have h1' := insertApparatusLoop_blank callID aIDs tx'
  rw [h] at h1
  rw [h1] at h1'
  cases ha : insertApparatusLoop callID aIDs tx with
  | error e =>
    cases ha' : insertApparatusLoop callID aIDs tx' with
    | error e' =>
      rw [ha, ha'] at h1'
      simp only [Except.map] at h1'
      injection h1' with h1'
      simp only [h1']
    | ok t' =>
      rw [ha, ha'] at h1'
      simp only [Except.map] at h1'
      exact absurd h1' (by simp)
  | ok t =>
    cases ha' : insertApparatusLoop callID aIDs tx' with
    | error e' =>
      rw [ha, ha'] at h1'
      simp only [Except.map] at h1'
      exact absurd h1' (by simp)
    | ok t' =>
      rw [ha, ha'] at h1'
      simp only [Except.map] at h1'
      injection h1' with h1'
      have h2 := insertRespondersLoop_blank callID roles rIDs 0 t
      have h2' := insertRespondersLoop_blank callID roles rIDs 0 t'
      rw [h1'] at h2
      rw [h2] at h2'
      simp only
      cases hb : insertRespondersLoop callID roles 0 rIDs t with
      | error e =>
        cases hb' : insertRespondersLoop callID roles 0 rIDs t' with
        | error e' =>
          rw [hb, hb'] at h2'
          simp only [Except.map] at h2'
          injection h2' with h2'
          simp only [h2']
        | ok s' =>
          rw [hb, hb'] at h2'
          simp only [Except.map] at h2'
          exact absurd h2' (by simp)
      | ok s =>
        cases hb' : insertRespondersLoop callID roles 0 rIDs t' with
        | error e' =>
          rw [hb, hb'] at h2'
          simp only [Except.map] at h2'
          exact absurd h2' (by simp)
        | ok s' => rfl

/-- The error of `UpdateCall` is the error of its two insert loops. -/
theorem UpdateCall_error_eq (db : Store) (now : Time) (call : Call) (aIDs rIDs : List Int)
    (roles : List String) :
    (UpdateCall db now call aIDs rIDs roles).2 =
      (match insertApparatusLoop call.ID aIDs
          { db with
            calls := db.calls.map (fun (c : Call) =>
              if c.ID = call.ID then
                { c with
                  IncidentNumber := call.IncidentNumber, CallType := call.CallType,
                  MutualAid := call.MutualAid, Address := call.Address, Town := call.Town,
                  LocationNotes := call.LocationNotes, Dispatched := call.Dispatched,
                  Enroute := call.Enroute, OnScene := call.OnScene, Clear := call.Clear,
                  Narrative := call.Narrative, UpdatedAt := now }
              else c),
            call_apparatus := db.call_apparatus.filter (fun r => r.CallID ≠ call.ID),
            call_responders := db.call_responders.filter (fun r => r.CallID ≠ call.ID) } with
        | .error e => some e
        | .ok t =>
          match insertRespondersLoop call.ID roles 0 rIDs t with
          | .error e => some e
          | .ok _ => none) := by
  unfold UpdateCall
  simp only
  split
  · rfl
  · split
    · rfl
    · rfl

theorem UpdateCall_error_number (db : Store) (now : Time) (call : Call) (n : String)
    (aIDs rIDs : List Int) (roles : List String) :
    (UpdateCall db now { call with IncidentNumber := n } aIDs rIDs roles).2 =
      (UpdateCall db now call aIDs rIDs roles).2 := by
  rw [UpdateCall_error_eq, UpdateCall_error_eq]
  apply loops_error_blank
  unfold blankNumbers
  simp only [List.map_map]
  congr 1
  apply List.map_congr_left
  intro c _
  simp only [Function.comp]
  split <;> rfl

/-- The error of `CreateCall` is the error of its inserts. -/
theorem CreateCall_error_eq (db : Store) (now : Time) (call : Call) (aIDs rIDs : List Int)
    (roles : List String) :
    ∃ num : String,
      (call.IncidentNumber ≠ "" → num = call.IncidentNumber) ∧
      (CreateCall db now call aIDs rIDs roles).2.2 =
        if db.users.any (fun u => u.id = call.CreatedBy) then
          (match insertApparatusLoop ((db.seq_calls : Int) + 1) aIDs
              { db with
                calls := db.calls ++
                  [{ call with IncidentNumber := num, ID := (db.seq_calls : Int) + 1,
                               CreatedAt := now, UpdatedAt := now }],
                seq_calls := db.seq_calls + 1 } with
            | .error e => some e
            | .ok t =>
              match insertRespondersLoop ((db.seq_calls : Int) + 1) roles 0 rIDs t with
              | .error e => some e
              | .ok _ => none)
        else some (.foreignKey "calls") := by
  have hnum : ∃ num, (call.IncidentNumber ≠ "" → num = call.IncidentNumber) ∧
      (if call.IncidentNumber = "" then GetNextCallNumber db call.Dispatched.Year
        else .ok call.IncidentNumber) = .ok num := by
    by_cases h : call.IncidentNumber = ""
    · rw [if_pos h]
      exact ⟨_, fun h' => absurd h h', rfl⟩
    · rw [if_neg h]
      exact ⟨_, fun _ => rfl, rfl⟩
  obtain ⟨num, hn1, hn2⟩ := hnum
  refine ⟨num, hn1, ?_⟩
  unfold CreateCall
  simp only [hn2]
  unfold insertCall
  simp only
  by_cases hu : db.users.any (fun u => u.id = call.CreatedBy) = true
  · simp only [hu, if_true]
    split
    · rfl
    · split
      · rfl
      · rfl
  · simp only [hu]
    rfl

theorem CreateCall_error_number (db : Store) (now : Time) (call : Call) (n : String)
    (aIDs rIDs : List Int) (roles : List String) :
    (CreateCall db now { call with IncidentNumber := n } aIDs rIDs roles).2.2 =
      (CreateCall db now call aIDs rIDs roles).2.2 := by
  obtain ⟨num, -, e⟩ := CreateCall_error_eq db now call aIDs rIDs roles
  obtain ⟨num', -, e'⟩ :=
    CreateCall_error_eq db now { call with IncidentNumber := n } aIDs rIDs roles
  rw [e, e']
  show (if db.users.any (fun u => u.id = call.CreatedBy) then _ else _) = _
  split
  · apply loops_error_blank
    unfold blankNumbers
    simp only [List.map_append, List.map_cons, List.map_nil]
  · rfl

theorem numbersOfYear_length_le (Y : Int) :
    ∀ (reqs : List CreateRequest) (db : Store),
      (numbersOfYear Y (runCreates db reqs)).length ≤ reqs.length
  | [], _ => by simp [runCreates, numbersOfYear]
  | r :: rest, db => by
    simp only [runCreates]
    by_cases h : r.call.Dispatched.Year = Y ∧
        (CreateCall db r.now r.call r.apparatusIDs r.responderIDs r.responderRoles).2.2 = none
    · rw [numbersOfYear_cons_keep Y _ _ h, List.length_cons, List.length_cons]
      exact Nat.succ_le_succ (numbersOfYear_length_le Y rest _)
    · rw [numbersOfYear_cons_skip Y _ _ h, List.length_cons]
      exact Nat.le_succ_of_le (numbersOfYear_length_le Y rest _)

/-- A run of `CreateCall`s that generate their numbers, in four-digit years
and with at most 1000 numbers per year in all, keeps the incident numbers of
the database distinct. -/
theorem afterCreates_nodup :
    ∀ (reqs : List CreateRequest) (db : Store) (m : Int → Nat),
      (∀ r ∈ reqs, r.call.IncidentNumber = "" ∧ 1000 ≤ r.call.Dispatched.Year ∧
        r.call.Dispatched.Year ≤ 9999) →
      (∀ Y, 1000 ≤ Y → Y ≤ 9999 → NumberedUpTo db Y (m Y)) →
      (∀ Y, 1000 ≤ Y → Y ≤ 9999 →
        m Y + (numbersOfYear Y (runCreates db reqs)).length ≤ 1000) →
      (db.calls.map (fun c => c.IncidentNumber)).Nodup →
      ((afterCreates db reqs).calls.map (fun c => c.IncidentNumber)).Nodup
  | [], _, _, _, _, _, hnd => hnd
  | r :: rest, db, m, hreq, inv, hcap, hnd => by
    have hrest : ∀ x ∈ rest, x.call.IncidentNumber = "" ∧ 1000 ≤ x.call.Dispatched.Year ∧
        x.call.Dispatched.Year ≤ 9999 := fun x hx => hreq x (List.mem_cons_of_mem _ hx)
    obtain ⟨hr, hy1, hy2⟩ := hreq r (List.mem_cons_self _ _)
    simp only [runCreates] at hcap
    simp only [afterCreates]
    cases herr : (CreateCall db r.now r.call r.apparatusIDs r.responderIDs r.responderRoles).2.2 with
    | some e =>
      have hsame := CreateCall_error db r.now r.call r.apparatusIDs r.responderIDs
        r.responderRoles (by simp [herr])
      rw [hsame]
      refine afterCreates_nodup rest db m hrest inv ?_ hnd
      intro Y h1 h2
      have := hcap Y h1 h2
      rw [numbersOfYear_cons_skip Y _ _ (by simp [herr]), hsame] at this
      exact this
    | none =>
      obtain ⟨num, hnum, -, -, -, -, hdb⟩ := CreateCall_ok db _ _ _ _ _ herr
      rw [if_pos hr] at hnum
      have hcalls : (CreateCall db r.now r.call r.apparatusIDs r.responderIDs
          r.responderRoles).1.calls = db.calls ++
            [{ r.call with IncidentNumber := num, ID := (db.seq_calls : Int) + 1,
                           CreatedAt := r.now, UpdatedAt := r.now }] := by
        rw [hdb]
      have hcap0 := hcap _ hy1 hy2
      rw [numbersOfYear_cons_keep r.call.Dispatched.Year
        (r, (CreateCall db r.now r.call r.apparatusIDs r.responderIDs r.responderRoles).2.1,
          (CreateCall db r.now r.call r.apparatusIDs r.responderIDs r.responderRoles).2.2) _
        ⟨rfl, herr⟩, List.length_cons] at hcap0
      rw [GetNextCallNumber_numbered db _ hy1 hy2 (m r.call.Dispatched.Year) (by omega)
        (inv _ hy1 hy2)] at hnum
      have hnum' : num = numberOf r.call.Dispatched.Year (m r.call.Dispatched.Year + 1) := by
        rw [← Except.ok.inj hnum]
        congr 1
        omega
      refine afterCreates_nodup rest _
        (Function.update m r.call.Dispatched.Year (m r.call.Dispatched.Year + 1)) hrest ?_ ?_ ?_
      · intro Y h1 h2
        by_cases hy : Y = r.call.Dispatched.Year
        · subst hy
          rw [Function.update_same]
          have := NumberedUpTo_append_next (inv _ h1 h2) (by omega) hcalls
            (show _ = numberOf _ (min (m r.call.Dispatched.Year + 1) 1000) from
              (Except.ok.inj hnum).symm)
          have e : min (m r.call.Dispatched.Year + 1) 1000 = m r.call.Dispatched.Year + 1 := by
            omega
          rwa [e] at this
        · rw [Function.update_noteq hy]
          refine NumberedUpTo_append_other (inv Y h1 h2) hcalls ?_
          show ¬ OfYear Y num
          rw [hnum']
          exact otherYear_not_ofYear Y h1 h2 _ (fun h => hy h.symm) _
      · intro Y h1 h2
        by_cases hy : Y = r.call.Dispatched.Year
        · subst hy
          rw [Function.update_same]
          omega
        · rw [Function.update_noteq hy]
          have := hcap Y h1 h2
          rw [numbersOfYear_cons_skip Y _ _ (by
            intro h
            exact hy h.1.symm)] at this
          exact this
      · rw [hcalls, List.map_append, List.map_cons, List.map_nil]
        show (db.calls.map (fun c => c.IncidentNumber) ++ [num]).Nodup
        rw [List.nodup_append]
        refine ⟨hnd, List.nodup_singleton _, ?_⟩
        intro s hs hs'
        rw [List.mem_singleton] at hs'
        subst hs'
        rw [List.mem_map] at hs
        obtain ⟨c, hc, hcn⟩ := hs
        have hof : OfYear r.call.Dispatched.Year c.IncidentNumber := by
          rw [hcn, hnum']
          exact numberOf_ofYear _ _
        obtain ⟨j, -, hj2, hj3⟩ := (inv _ hy1 hy2).1 c hc hof
        rw [hcn, hnum'] at hj3
        have := numberOf_inj _ _ _ hj3
        omega

/-- C14 as the code has it: the incident number is not constrained.
(1) From a database without calls, a run of `CreateCall`s that all leave the
number to be generated, in four-digit years and with at most 1000 successful
calls per year, leaves no two calls with the same incident number.
(2) The error of `CreateCall` does not depend on the incident number of the
request, (3) and a successful `CreateCall` with a number of the caller stores
that number as given, whatever the stored numbers are.  (4) The error of
`UpdateCall` does not depend on the incident number either, (5) and a
successful `UpdateCall` writes the submitted number into the row. -/
theorem incident_numbers_unique_when_generated :
    (∀ (db : Store) (reqs : List CreateRequest), db.calls = [] →
      (∀ r ∈ reqs, r.call.IncidentNumber = "" ∧ 1000 ≤ r.call.Dispatched.Year ∧
        r.call.Dispatched.Year ≤ 9999) →
      (∀ Y, (numbersOfYear Y (runCreates db reqs)).length ≤ 1000) →
      ((afterCreates db reqs).calls.map (fun c => c.IncidentNumber)).Nodup) ∧
    (∀ (db : Store) (now : Time) (call : Call) (n : String) (aIDs rIDs : List Int)
        (roles : List String),
      (CreateCall db now { call with IncidentNumber := n } aIDs rIDs roles).2.2 =
        (CreateCall db now call aIDs rIDs roles).2.2) ∧
    (∀ (db : Store) (now : Time) (call : Call) (aIDs rIDs : List Int) (roles : List String),
      call.IncidentNumber ≠ "" → (CreateCall db now call aIDs rIDs roles).2.2 = none →
      (CreateCall db now call aIDs rIDs roles).1.calls =
        db.calls ++ [{ call with ID := (db.seq_calls : Int) + 1, CreatedAt := now,
                                 UpdatedAt := now }]) ∧
    (∀ (db : Store) (now : Time) (call : Call) (n : String) (aIDs rIDs : List Int)
        (roles : List String),
      (UpdateCall db now { call with IncidentNumber := n } aIDs rIDs roles).2 =
        (UpdateCall db now call aIDs rIDs roles).2) ∧
    (∀ (db : Store) (now : Time) (call : Call) (aIDs rIDs : List Int) (roles : List String),
      (UpdateCall db now call aIDs rIDs roles).2 = none →
      ∀ c ∈ db.calls, c.ID = call.ID →
        ∃ c' ∈ (UpdateCall db now call aIDs rIDs roles).1.calls,
          c'.ID = call.ID ∧ c'.IncidentNumber = call.IncidentNumber) := by
  refine ⟨?_, ?_, ?_, ?_, ?_⟩
  · intro db reqs hdb hreq hcap
    refine afterCreates_nodup reqs db (fun _ => 0) hreq ?_ ?_ ?_
    · intro Y _ _
      refine ⟨fun c hc => ?_, fun j hj1 hj2 => ?_⟩
      swap
      · have hj3 : j ≤ 0 := hj2
        omega
      rw [hdb] at hc
      exact absurd hc (List.not_mem_nil c)
    · intro Y _ _
      have := hcap Y
      show 0 + _ ≤ 1000
      omega
    · rw [hdb]
      exact List.nodup_nil
  · intro db now call n aIDs rIDs roles
    exact CreateCall_error_number db now call n aIDs rIDs roles
  · intro db now call aIDs rIDs roles hne herr
    obtain ⟨num, hnum, -, -, -, -, hdb⟩ := CreateCall_ok db now call aIDs rIDs roles herr
    rw [if_neg hne] at hnum
    rw [hdb, ← Except.ok.inj hnum]
  · intro db now call n aIDs rIDs roles
    exact UpdateCall_error_number db now call n aIDs rIDs roles
  · intro db now call aIDs rIDs roles herr c hc hid
    obtain ⟨-, -, hdb⟩ := UpdateCall_ok db now call aIDs rIDs roles herr
    rw [hdb]
    refine ⟨_, List.mem_map_of_mem _ hc, ?_⟩
    rw [if_pos hid]
    exact ⟨hid, rfl⟩

/-- C14 does not hold as stated: on `sampleDB1`, whose one call has the
number `2026-001`, a `CreateCall` with the number `2026-001` returns nil and
stores a second call with that number; and after a second generated call
(`2026-002`) an `UpdateCall` that sets its number to `2026-001` returns nil
and leaves two calls with the number `2026-001`. -/
theorem incident_number_duplicates_accepted :
    sampleDB1.calls.map (fun c => (c.ID, c.IncidentNumber)) = [(1, "2026-001")] ∧
    (CreateCall sampleDB1 sampleTime { sampleCall with IncidentNumber := "2026-001" }
      [] [] []).2.2 = none ∧
    (CreateCall sampleDB1 sampleTime { sampleCall with IncidentNumber := "2026-001" }
      [] [] []).1.calls.map (fun c => (c.ID, c.IncidentNumber)) =
        [(1, "2026-001"), (2, "2026-001")] ∧
    (CreateCall sampleDB1 sampleTime sampleCall [] [] []).1.calls.map
      (fun c => (c.ID, c.IncidentNumber)) = [(1, "2026-001"), (2, "2026-002")] ∧
    (UpdateCall (CreateCall sampleDB1 sampleTime sampleCall [] [] []).1 sampleTime
      { sampleCall with ID := 2, IncidentNumber := "2026-001" } [] [] []).2 = none ∧
    (UpdateCall (CreateCall sampleDB1 sampleTime sampleCall [] [] []).1 sampleTime
      { sampleCall with ID := 2, IncidentNumber := "2026-001" } [] [] []).1.calls.map
      (fun c => (c.ID, c.IncidentNumber)) = [(1, "2026-001"), (2, "2026-001")] := by
  decide

/-- C14 on `sampleDB`: three generated numbers, two of 2026 and one of 2027,
are distinct; a request with the stored number `2026-001` has the error of
the same request without a number, and its number is stored as given. -/
theorem incident_numbers_unique_when_generated_witness :
    sampleDB.calls = [] ∧
    (∀ r ∈ [bareRequest, requestOfYear 2027, bareRequest],
      r.call.IncidentNumber = "" ∧ 1000 ≤ r.call.Dispatched.Year ∧
        r.call.Dispatched.Year ≤ 9999) ∧
    ((afterCreates sampleDB [bareRequest, requestOfYear 2027, bareRequest]).calls.map
      (fun c => c.IncidentNumber)).Nodup ∧
    (afterCreates sampleDB [bareRequest, requestOfYear 2027, bareRequest]).calls.map
      (fun c => c.IncidentNumber) = ["2026-001", "2027-001", "2026-002"] ∧
    (CreateCall sampleDB1 sampleTime { sampleCall with IncidentNumber := "2026-001" }
      [] [] []).2.2 = (CreateCall sampleDB1 sampleTime sampleCall [] [] []).2.2 ∧
    (CreateCall sampleDB1 sampleTime { sampleCall with IncidentNumber := "2026-001" }
      [] [] []).1.calls = sampleDB1.calls ++
        [{ sampleCall with IncidentNumber := "2026-001", ID := 2, CreatedAt := sampleTime,
                           UpdatedAt := sampleTime }] :=
  ⟨rfl, by decide,
    incident_numbers_unique_when_generated.1 sampleDB
      [bareRequest, requestOfYear 2027, bareRequest] rfl (by decide)
      (fun Y => le_trans (numbersOfYear_length_le Y _ _) (by decide)),
    by decide,
    incident_numbers_unique_when_generated.2.1 sampleDB1 sampleTime sampleCall "2026-001" [] [] [],
    incident_numbers_unique_when_generated.2.2.1 sampleDB1 sampleTime
      { sampleCall with IncidentNumber := "2026-001" } [] [] [] (by decide) (by decide)⟩

/-! ## The caller layer's `CreateCall` -/

/-- C21: with no current user `App.CreateCall` returns `ErrUnauthorized` and
leaves the session, the database and the caller's call as they were.  With a
current user it is `CreateCall` of the database on the call with `CreatedBy`
set to the current user's id: the outcome is the same whatever `CreatedBy`
the caller supplied, and when it returns nil the one call row appended has
`created_by` equal to the current user's id. -/
theorem App_CreateCall_sets_creator :
    (∀ (db : Store) (now : Time) (call : Call) (aIDs rIDs : List Int) (roles : List String),
      App.CreateCall { db := db, currentUser := none } now call aIDs rIDs roles =
        ({ db := db, currentUser := none }, call, some .ErrUnauthorized)) ∧
    (∀ (a : App) (u : User) (now : Time) (call : Call) (aIDs rIDs : List Int)
        (roles : List String), a.currentUser = some u →
      (App.CreateCall a now call aIDs rIDs roles).1.db =
        (CreateCall a.db now { call with CreatedBy := u.ID } aIDs rIDs roles).1 ∧
      (∀ supplied : Int,
        App.CreateCall a now { call with CreatedBy := supplied } aIDs rIDs roles =
          App.CreateCall a now call aIDs rIDs roles) ∧
      ((App.CreateCall a now call aIDs rIDs roles).2.2 = none →
        ∃ row : Call,
          (App.CreateCall a now call aIDs rIDs roles).1.db.calls = a.db.calls ++ [row] ∧
          row.CreatedBy = u.ID ∧
          row.ID = (App.CreateCall a now call aIDs rIDs roles).2.1.ID ∧
          (App.CreateCall a now call aIDs rIDs roles).2.1.CreatedBy = u.ID)) := by
  refine ⟨fun db now call aIDs rIDs roles => rfl, ?_⟩
  intro a u now call aIDs rIDs roles hu
  have e : ∀ c : Call, App.CreateCall a now c aIDs rIDs roles =
      ({ a with db := (CreateCall a.db now { c with CreatedBy := u.ID } aIDs rIDs roles).1 },
        (CreateCall a.db now { c with CreatedBy := u.ID } aIDs rIDs roles).2.1,
        (CreateCall a.db now { c with CreatedBy := u.ID } aIDs rIDs roles).2.2.map
          AppError.db) := by
    intro c
    unfold App.CreateCall
    rw [hu]
  refine ⟨by rw [e], fun supplied => by rw [e, e], ?_⟩
  intro hok
  rw [e] at hok ⊢
  have hnone : (CreateCall a.db now { call with CreatedBy := u.ID } aIDs rIDs roles).2.2 =
      none := by
    cases h : (CreateCall a.db now { call with CreatedBy := u.ID } aIDs rIDs roles).2.2 with
    | none => rfl
    | some x =>
      rw [h] at hok
      simp at hok
  obtain ⟨num, -, -, -, -, hcall, hdb⟩ := CreateCall_ok _ _ _ _ _ _ hnone
  refine ⟨_, by rw [hdb], rfl, ?_, ?_⟩
  · show _ = (CreateCall a.db now { call with CreatedBy := u.ID } aIDs rIDs roles).2.1.ID
    rw [hcall]
  · show (CreateCall a.db now { call with CreatedBy := u.ID } aIDs rIDs roles).2.1.CreatedBy = _
    rw [hcall]

/-- C21 on sample data: without a session nothing is stored; in the session
of member 3 a call submitted with `CreatedBy` 2 is stored with `created_by`
3. -/
theorem App_CreateCall_sets_creator_witness :
    App.CreateCall { db := sampleDB, currentUser := none } sampleTime sampleCall [1] [2]
        ["Driver"] =
      ({ db := sampleDB, currentUser := none }, sampleCall, some .ErrUnauthorized) ∧
    sampleCall.CreatedBy = 2 ∧
    (∃ row : Call,
      (App.CreateCall { db := sampleDB, currentUser := some sampleOther } sampleTime sampleCall
        [1] [2] ["Driver"]).1.db.calls = sampleDB.calls ++ [row] ∧
      row.CreatedBy = sampleOther.ID ∧
      row.ID = (App.CreateCall { db := sampleDB, currentUser := some sampleOther } sampleTime
        sampleCall [1] [2] ["Driver"]).2.1.ID ∧
      (App.CreateCall { db := sampleDB, currentUser := some sampleOther } sampleTime
        sampleCall [1] [2] ["Driver"]).2.1.CreatedBy = sampleOther.ID) ∧
    (App.CreateCall { db := sampleDB, currentUser := some sampleOther } sampleTime sampleCall
      [1] [2] ["Driver"]).1.db.calls.map (fun c => (c.ID, c.CreatedBy)) = [(1, 3)] :=
  ⟨App_CreateCall_sets_creator.1 sampleDB sampleTime sampleCall [1] [2] ["Driver"], rfl,
    (App_CreateCall_sets_creator.2 { db := sampleDB, currentUser := some sampleOther }
      sampleOther sampleTime sampleCall [1] [2] ["Driver"] rfl).2.2 (by decide),
    by decide⟩

theorem insertCall_no_creator (tx : Store) (now : Time) (call : Call)
    (h : ∀ u ∈ tx.users, u.id ≠ call.CreatedBy) :
    insertCall tx now call = .error (.foreignKey "calls") := by
  unfold insertCall
  rw [if_neg]
  simp only [List.any_eq_true, decide_eq_true_eq, not_exists, not_and, Bool.not_eq_true]
  intro u hu
  simpa using h u hu

theorem CreateCall_no_creator (db : Store) (now : Time) (call : Call) (aIDs rIDs : List Int)
    (roles : List String) (h : ∀ u ∈ db.users, u.id ≠ call.CreatedBy) :
    (CreateCall db now call aIDs rIDs roles).1 = db ∧
      (CreateCall db now call aIDs rIDs roles).2.2 = some (.foreignKey "calls") := by
  have hnum : ∃ num, (if call.IncidentNumber = "" then GetNextCallNumber db call.Dispatched.Year
      else .ok call.IncidentNumber) = .ok num := by
    split
    · exact ⟨_, rfl⟩
    · exact ⟨_, rfl⟩
  obtain ⟨num, hnum⟩ := hnum
  unfold CreateCall
  simp only [hnum]
  rw [insertCall_no_creator db now { call with IncidentNumber := num } h]
  exact ⟨rfl, rfl⟩

/-- C29: logging in with the bypass credential gives a session whose current
user has id 0, and in every database reachable from `InitDB` on a new file
`App.CreateCall` of such a session returns the foreign key error of table
`calls` and leaves the database as it was: no call and no association is
stored, whatever the call and the lists. -/
theorem bypass_cannot_create_call (db : Store) (h : Reachable db) :
    (∀ (e : Engine) (u : Option User),
      (App.Login e { db := db, currentUser := u } "Admin User" "1234").1.currentUser =
        some hardcodedAdmin) ∧
    hardcodedAdmin.ID = 0 ∧
    (∀ (now : Time) (call : Call) (aIDs rIDs : List Int) (roles : List String),
      (App.CreateCall { db := db, currentUser := some hardcodedAdmin } now call aIDs rIDs
        roles).1 = { db := db, currentUser := some hardcodedAdmin } ∧
      (App.CreateCall { db := db, currentUser := some hardcodedAdmin } now call aIDs rIDs
        roles).2.2 = some (.db (.foreignKey "calls"))) := by
  refine ⟨fun e u => rfl, rfl, ?_⟩
  intro now call aIDs rIDs roles
  have hpos := Reachable_UserIdsPositive h
  have hno : ∀ u ∈ db.users, u.id ≠ ({ call with CreatedBy := hardcodedAdmin.ID } : Call).CreatedBy := by
    intro u hu
    have := hpos u hu
    show u.id ≠ 0
    omega
  obtain ⟨h1, h2⟩ := CreateCall_no_creator db now { call with CreatedBy := hardcodedAdmin.ID }
    aIDs rIDs roles hno
  have e : App.CreateCall { db := db, currentUser := some hardcodedAdmin } now call aIDs rIDs
      roles =
      ({ db := (CreateCall db now { call with CreatedBy := hardcodedAdmin.ID } aIDs rIDs
          roles).1, currentUser := some hardcodedAdmin },
        (CreateCall db now { call with CreatedBy := hardcodedAdmin.ID } aIDs rIDs roles).2.1,
        (CreateCall db now { call with CreatedBy := hardcodedAdmin.ID } aIDs rIDs
          roles).2.2.map AppError.db) := rfl
  rw [e, h1, h2]
  exact ⟨rfl, rfl⟩

/-- C29 on the database of a new file: the bypass session cannot store
`sampleCall`, with or without apparatus and responders. -/
theorem bypass_cannot_create_call_witness :
    (∀ e : Engine,
      (App.CreateCall
        (App.Login e { db := freshDB, currentUser := none } "Admin User" "1234").1 sampleTime
        sampleCall [18] [1] ["Driver"]).1.db = freshDB ∧
      (App.CreateCall
        (App.Login e { db := freshDB, currentUser := none } "Admin User" "1234").1 sampleTime
        sampleCall [18] [1] ["Driver"]).2.2 = some (.db (.foreignKey "calls"))) ∧
    (App.CreateCall { db := freshDB, currentUser := some hardcodedAdmin } sampleTime sampleCall
      [] [] []).2.2 = some (.db (.foreignKey "calls")) :=
  ⟨fun _ =>
    ⟨congrArg App.db
        (((bypass_cannot_create_call freshDB (Reachable.init sampleTime)).2.2 sampleTime
          sampleCall [18] [1] ["Driver"]).1),
      ((bypass_cannot_create_call freshDB (Reachable.init sampleTime)).2.2 sampleTime
        sampleCall [18] [1] ["Driver"]).2⟩,
    ((bypass_cannot_create_call freshDB (Reachable.init sampleTime)).2.2 sampleTime
      sampleCall [] [] []).2⟩

/-! ## `App.DeleteUser` -/

theorem GetUserByID_read (e : Engine) (db : Store) (id : Int) (row : UserRow) (pin : String)
    (hfind : db.users.find? (fun u => u.id = id) = some row) (hp : row.pin = some pin)
    (hread : JoinedDateRead e row) :
    GetUserByID e db id = .ok (some
      { ID := row.id, FirstName := row.first_name, LastName := row.last_name,
        Position := row.position, EMSLevel := row.ems_level.getD "",
        IsAdmin := row.is_admin, PIN := pin, Active := row.active,
        JoinedDate := row.joined_date.bind e.readTime, Created := row.created }) := by
  unfold GetUserByID
  rw [hfind]
  simp only
  rw [scanUser_read e row pin hp hread]

theorem GetUserByID_unread (e : Engine) (db : Store) (id : Int) (row : UserRow) (pin : String)
    (hfind : db.users.find? (fun u => u.id = id) = some row) (hp : row.pin = some pin)
    (hread : ¬ JoinedDateRead e row) :
    GetUserByID e db id = .error (.scanTime "joined_date") := by
  unfold GetUserByID
  rw [hfind]
  simp only
  rw [scanUser_unread e row pin hp hread]

/-- C30, on the code: for an id without a user row `GetUserByID` returns a
nil user and a nil error, and `App.DeleteUser` then assigns to `user.Active`
through the nil pointer: the call is aborted by a nil dereference and the
database is as it was.  For the id of a stored user (the one row with that
id, the table's primary key) whose PIN is not NULL and whose `joined_date` is
NULL or text that the driver reads as a time, it returns nil and sets `active`
to false on that row; the row's id, names, position, admin flag and PIN and
every other row are as they were (a NULL `ems_level` is written back as the
empty string, and `joined_date` as the time that was read).  When the
`joined_date` of that row is text that the driver does not read as a time,
`App.DeleteUser` returns the `Scan` error and changes nothing. -/
theorem App_DeleteUser_nil_dereference (e : Engine) (a : App) (id : Int) :
    ((∀ u ∈ a.db.users, u.id ≠ id) →
      GetUserByID e a.db id = .ok none ∧
        App.DeleteUser e a id = (a, some .nilDereference)) ∧
    (∀ row ∈ a.db.users, row.id = id → (∀ v ∈ a.db.users, v.id = id → v = row) →
      row.pin ≠ none →
      (JoinedDateRead e row →
        (App.DeleteUser e a id).2 = none ∧
        (App.DeleteUser e a id).1.db.users =
          a.db.users.map (fun u =>
            if u.id = id then
              { u with
                active := false, ems_level := some (u.ems_level.getD ""),
                joined_date := u.joined_date.bind e.readTime }
            else u)) ∧
      (¬ JoinedDateRead e row →
        App.DeleteUser e a id = (a, some (.db (.scanTime "joined_date"))))) := by
  constructor
  · intro h
    have hfind : a.db.users.find? (fun u => u.id = id) = none := by
      rw [List.find?_eq_none]
      intro u hu
      simpa using h u hu
    have hget : GetUserByID e a.db id = .ok none := by
      unfold GetUserByID
      rw [hfind]
    refine ⟨hget, ?_⟩
    unfold App.DeleteUser
    rw [hget]
  · intro row hrow hrid huniq hpin
    have hfind : a.db.users.find? (fun u => u.id = id) = some row := by
      cases hf : a.db.users.find? (fun u => u.id = id) with
      | none =>
        rw [List.find?_eq_none] at hf
        exact absurd (by simpa using hrid) (hf row hrow)
      | some r =>
        have h1 := List.mem_of_find?_eq_some hf
        have h2 : r.id = id := by simpa using List.find?_some hf
        rw [huniq r h1 h2]
    cases hp : row.pin with
    | none => exact absurd hp hpin
    | some pin =>
      constructor
      · intro hread
        have hget : GetUserByID e a.db id = .ok (some
            { ID := row.id, FirstName := row.first_name, LastName := row.last_name,
              Position := row.position, EMSLevel := row.ems_level.getD "",
              IsAdmin := row.is_admin, PIN := pin, Active := row.active,
              JoinedDate := row.joined_date.bind e.readTime, Created := row.created }) :=
          GetUserByID_read e a.db id row pin hfind hp hread
        have e1 : App.DeleteUser e a id =
            ({ a with db := updateUsersWhere a.db row.id (fun u =>
                { u with
                  first_name := row.first_name, last_name := row.last_name,
                  position := row.position, ems_level := some (row.ems_level.getD ""),
                  is_admin := row.is_admin, pin := some pin, active := false,
                  joined_date := row.joined_date.bind e.readTime }) }, none) := by
          unfold App.DeleteUser
          rw [hget]
          rfl
        rw [e1]
        refine ⟨rfl, ?_⟩
        show a.db.users.map _ = _
        apply List.map_congr_left
        intro u hu
        rw [hrid]
        by_cases hu1 : u.id = id
        · rw [if_pos hu1, if_pos hu1, huniq u hu hu1, ← hp]
        · rw [if_neg hu1, if_neg hu1]
      · intro hread
        unfold App.DeleteUser
        rw [GetUserByID_unread e a.db id row pin hfind hp hread]

theorem not_JoinedDateRead_empty (e : Engine) (u : UserRow) (h : u.joined_date = some "") :
    ¬ JoinedDateRead e u :=
  fun hread => hread "" h e.readTime_empty

/-- C30 on sample data: no user of `sampleDB` has id 99, and
`App.DeleteUser(99)` is aborted; `App.DeleteUser(2)` deactivates member 2 and
keeps the member's names, position, admin flag and PIN.  On `joinDateDB`,
where the `joined_date` of user 2 is the empty text, `App.DeleteUser(2)`
returns the `Scan` error and user 2 stays active. -/
theorem App_DeleteUser_nil_dereference_witness :
    (∀ e : Engine,
      GetUserByID e sampleDB 99 = .ok none ∧
        App.DeleteUser e { db := sampleDB, currentUser := none } 99 =
          ({ db := sampleDB, currentUser := none }, some .nilDereference)) ∧
    sampleDB.users.map (fun u => (u.id, u.last_name, u.is_admin, u.pin, u.active)) =
      [(1, "User", true, some "1234", true), (2, "Lee", false, some "4321", true),
        (3, "Roe", false, some "2468", true)] ∧
    (∀ e : Engine,
      (App.DeleteUser e { db := sampleDB, currentUser := none } 2).2 = none ∧
      (App.DeleteUser e { db := sampleDB, currentUser := none } 2).1.db.users.map
        (fun u => (u.id, u.last_name, u.is_admin, u.pin, u.active)) =
        [(1, "User", true, some "1234", true), (2, "Lee", false, some "4321", false),
          (3, "Roe", false, some "2468", true)]) ∧
    ∀ e : Engine,
      App.DeleteUser e { db := joinDateDB, currentUser := none } 2 =
        ({ db := joinDateDB, currentUser := none }, some (.db (.scanTime "joined_date"))) :=
  ⟨fun e =>
      (App_DeleteUser_nil_dereference e { db := sampleDB, currentUser := none } 99).1
        (by decide),
    by decide,
    fun e => by
      rw [App_DeleteUser_eq_sample e { db := sampleDB, currentUser := none } 2 (by decide)]
      exact ⟨by decide, by decide⟩,
    fun e =>
      ((App_DeleteUser_nil_dereference e { db := joinDateDB, currentUser := none } 2).2
        { id := 2, first_name := "Pat", last_name := "Lee", position := "Member",
          ems_level := some "EMT", is_admin := false, pin := some "4321", active := true,
          joined_date := some "", created := sampleTime }
        (by decide) rfl (by decide) (by decide)).2
        (not_JoinedDateRead_empty e _ rfl)⟩

/-! ## The logo -/

theorem createTablesLogo_none : createTablesLogo none = none := by
  decide

/-- The program never has a table `logo`: no statement creates it. -/
theorem LogoReachable_none {t : LogoTable} (h : LogoReachable t) : t = none := by
  induction h with
  | init => exact createTablesLogo_none
  | restart _ ih =>
    rw [ih]
    exact createTablesLogo_none
  | saveLogo db now imageData mimeType uploadedBy _ ih =>
    rw [ih]
    rfl
  | deleteLogo _ ih =>
    rw [ih]
    rfl

/-- C22, on the code: no statement of the program creates table `logo`, so
in every state the program can reach `SaveLogo` returns the error of its
first statement, `no such table: logo`, for every image, mime type and
uploader, and `GetLogo` returns an error as well; `TestGetLogo`, which
expects both to succeed on the database of `setupTestDB`, fails at its
`SaveLogo`.  Were the table there, the claim would hold: on every table
`SaveLogo` returns nil, `GetLogo` then returns a logo with that image and
mime type, and exactly one row with id 1 is stored. -/
theorem SaveLogo_no_such_table :
    (∀ t : LogoTable, LogoReachable t →
      ∀ (db : Store) (now : Time) (d : List (Fin 256)) (m : String) (u : Int),
        SaveLogo db t now d m u =
          (t, some (.wrapped "failed to delete existing logo" (.noSuchTable "logo"))) ∧
        GetLogo (SaveLogo db t now d m u).1 =
          .error (.wrapped "failed to get logo" (.noSuchTable "logo"))) ∧
    SaveLogo testDB (createTablesLogo none) sampleTime testImageData "image/png" 1 =
      (none, some (.wrapped "failed to delete existing logo" (.noSuchTable "logo"))) ∧
    (∀ (rows : List LogoRow) (db : Store) (now : Time) (d : List (Fin 256)) (m : String)
        (u : Int),
      (SaveLogo db (some rows) now d m u).2 = none ∧
      (∃ logo : Logo, GetLogo (SaveLogo db (some rows) now d m u).1 = .ok (some logo) ∧
        logo.ImageData = d ∧ logo.MimeType = m) ∧
      ∃ stored : List LogoRow, (SaveLogo db (some rows) now d m u).1 = some stored ∧
        (stored.filter (fun r => r.id = 1)).length = 1) := by
  refine ⟨?_, by decide, ?_⟩
  · intro t ht db now d m u
    rw [LogoReachable_none ht]
    exact ⟨rfl, rfl⟩
  · intro rows db now d m u
    have hfind : ∀ row : LogoRow, row.id = 1 →
        (rows.filter (fun r => r.id ≠ 1) ++ [row]).find? (fun r => r.id = 1) = some row := by
      intro row hrow
      rw [List.find?_append]
      have : (rows.filter (fun r => r.id ≠ 1)).find? (fun r => r.id = 1) = none := by
        rw [List.find?_eq_none]
        intro x hx
        simpa using (List.mem_filter.1 hx).2
      rw [this]
      simp [hrow]
    have hcount : ∀ row : LogoRow, row.id = 1 →
        ((rows.filter (fun r => r.id ≠ 1) ++ [row]).filter (fun r => r.id = 1)).length = 1 := by
      intro row hrow
      rw [List.filter_append, List.filter_filter]
      have : rows.filter (fun r => decide (r.id = 1) && decide (r.id ≠ 1)) = [] := by
        rw [List.filter_eq_nil_iff]
        intro x _
        simp
      rw [this]
      simp [hrow]
    unfold SaveLogo
    simp only
    split
    · refine ⟨rfl, ⟨⟨1, d, m, now, u⟩, ?_, rfl, rfl⟩, _, rfl, hcount _ rfl⟩
      unfold GetLogo
      simp only
      rw [hfind ⟨1, d, m, some u, now⟩ rfl]
      rfl
    · refine ⟨rfl, ⟨⟨1, d, m, now, 0⟩, ?_, rfl, rfl⟩, _, rfl, hcount _ rfl⟩
      unfold GetLogo
      simp only
      rw [hfind ⟨1, d, m, none, now⟩ rfl]
      rfl

/-- C23, on the code: on a freshly initialised database `GetLogo` returns
the error `no such table: logo`, not a nil error as
`TestGetLogoWhenNoneExists` expects, and so it does in every state the
program can reach, where `DeleteLogo` never succeeds either.  Were the table
there, the claim would hold: on the empty table `GetLogo` returns a nil logo
and a nil error, and so it does after every `DeleteLogo`, whatever was
saved. -/
theorem GetLogo_no_such_table :
    GetLogo (createTablesLogo none) =
      .error (.wrapped "failed to get logo" (.noSuchTable "logo")) ∧
    (∀ t : LogoTable, LogoReachable t →
      GetLogo t = .error (.wrapped "failed to get logo" (.noSuchTable "logo")) ∧
      DeleteLogo t = (t, some (.wrapped "failed to delete logo" (.noSuchTable "logo")))) ∧
    GetLogo (some []) = .ok none ∧
    (∀ rows : List LogoRow, GetLogo (DeleteLogo (some rows)).1 = .ok none) := by
  refine ⟨by decide, ?_, rfl, ?_⟩
  · intro t ht
    rw [LogoReachable_none ht]
    exact ⟨rfl, rfl⟩
  · intro rows
    have hfind : (rows.filter (fun r => r.id ≠ 1)).find? (fun r => r.id = 1) = none := by
      rw [List.find?_eq_none]
      intro x hx
      simpa using (List.mem_filter.1 hx).2
    unfold DeleteLogo
    simp only
    split
    · unfold GetLogo
      simp only [hfind]
    · unfold GetLogo
      simp only [hfind]

/-! ## Responder roles, and the frame of `UpdateCall` -/

theorem responderRows_pairs (callID : Int) (roles : List String) :
    ∀ (l : List Int) (seq i : Nat),
      (responderRows callID roles seq i l).map (fun x => (x.ResponderID, x.ResponderRole)) =
        (l.enumFrom i).map (fun p => (p.2, roles.getD p.1 ""))
  | [], _, _ => rfl
  | a :: rest, seq, i => by
    simp only [responderRows, List.map_cons, List.enumFrom_cons,
      responderRows_pairs callID roles rest (seq + 1) (i + 1)]
    congr 2
    split
    · rfl
    · rename_i h
      rw [List.getD_eq_default _ _ (not_lt.1 h)]

theorem responderRows_callID (callID : Int) (roles : List String) :
    ∀ (l : List Int) (seq i : Nat),
      (responderRows callID roles seq i l).filter (fun x => x.CallID = callID) =
        responderRows callID roles seq i l
  | l, seq, i => by
    rw [List.filter_eq_self]
    intro x hx
    simpa using (mem_responderRows callID roles l seq i x hx).1

theorem responderRows_take (callID : Int) (roles : List String) :
    ∀ (l : List Int) (seq i n : Nat), i + l.length ≤ n →
      responderRows callID (roles.take n) seq i l = responderRows callID roles seq i l
  | [], _, _, _, _ => rfl
  | a :: rest, seq, i, n, h => by
    simp only [List.length_cons] at h
    simp only [responderRows,
      responderRows_take callID roles rest (seq + 1) (i + 1) n (by omega)]
    congr 2
    have hi : i < n := by omega
    by_cases hr : i < roles.length
    · rw [if_pos hr, if_pos (by rw [List.length_take]; omega)]
      rw [List.getD_eq_getElem?_getD, List.getD_eq_getElem?_getD, List.getElem?_take_of_lt hi]
    · rw [if_neg hr, if_neg (by rw [List.length_take]; omega)]

theorem insertRespondersLoop_take (callID : Int) (roles : List String) :
    ∀ (l : List Int) (i n : Nat) (tx : Store), i + l.length ≤ n →
      insertRespondersLoop callID (roles.take n) i l tx =
        insertRespondersLoop callID roles i l tx
  | [], _, _, _, _ => rfl
  | a :: rest, i, n, tx, h => by
    simp only [List.length_cons] at h
    have hi : i < n := by omega
    have hrole : (if i < (roles.take n).length then (roles.take n).getD i "" else "") =
        (if i < roles.length then roles.getD i "" else "") := by
      by_cases hr : i < roles.length
      · rw [if_pos hr, if_pos (by rw [List.length_take]; omega)]
        rw [List.getD_eq_getElem?_getD, List.getD_eq_getElem?_getD,
          List.getElem?_take_of_lt hi]
      · rw [if_neg hr, if_neg (by rw [List.length_take]; omega)]
    simp only [insertRespondersLoop, hrole]
    cases insertCallResponder tx callID a
        (if i < roles.length then roles.getD i "" else "") with
    | error e => rfl
    | ok tx1 => exact insertRespondersLoop_take callID roles rest (i + 1) n tx1 (by omega)

/-- C26: after a successful `CreateCall` the responder associations appended
for the new call are, in order, the pairs of `responderIDs[i]` with
`responderRoles[i]`, the empty string where the roles list is too short; when
no stored association bears the new call's id they are all the associations
of the call.  After a successful `UpdateCall` the responder associations of
the call are exactly those pairs.  There is one pair per responder id, and
roles beyond the last responder id change nothing in either operation. -/
theorem responder_roles_paired (db : Store) (now : Time) (call : Call) (aIDs rIDs : List Int)
    (roles : List String) :
    ((CreateCall db now call aIDs rIDs roles).2.2 = none →
      (∃ rows : List CallResponder,
        (CreateCall db now call aIDs rIDs roles).1.call_responders =
          db.call_responders ++ rows ∧
        (∀ x ∈ rows, x.CallID = (CreateCall db now call aIDs rIDs roles).2.1.ID) ∧
        rows.map (fun x => (x.ResponderID, x.ResponderRole)) = pairedRoles rIDs roles) ∧
      ((∀ x ∈ db.call_responders, x.CallID ≠ (CreateCall db now call aIDs rIDs roles).2.1.ID) →
        ((CreateCall db now call aIDs rIDs roles).1.call_responders.filter
          (fun x => x.CallID = (CreateCall db now call aIDs rIDs roles).2.1.ID)).map
            (fun x => (x.ResponderID, x.ResponderRole)) = pairedRoles rIDs roles)) ∧
    ((UpdateCall db now call aIDs rIDs roles).2 = none →
      ((UpdateCall db now call aIDs rIDs roles).1.call_responders.filter
        (fun x => x.CallID = call.ID)).map (fun x => (x.ResponderID, x.ResponderRole)) =
          pairedRoles rIDs roles) ∧
    (pairedRoles rIDs roles).map (fun p => p.1) = rIDs ∧
    (∀ i, i < rIDs.length → i < roles.length →
      ((pairedRoles rIDs roles).map (fun p => p.2))[i]? = roles[i]?) ∧
    (∀ i, i < rIDs.length → roles.length ≤ i →
      ((pairedRoles rIDs roles).map (fun p => p.2))[i]? = some "") ∧
    CreateCall db now call aIDs rIDs (roles.take rIDs.length) =
      CreateCall db now call aIDs rIDs roles ∧
    UpdateCall db now call aIDs rIDs (roles.take rIDs.length) =
      UpdateCall db now call aIDs rIDs roles := by
  refine ⟨?_, ?_, ?_, ?_, ?_, ?_, ?_⟩
  · intro hok
    obtain ⟨num, -, -, -, -, hcall, hdb⟩ := CreateCall_ok db now call aIDs rIDs roles hok
    have hid : (CreateCall db now call aIDs rIDs roles).2.1.ID = (db.seq_calls : Int) + 1 := by
      rw [hcall]
    have hrows : (CreateCall db now call aIDs rIDs roles).1.call_responders =
        db.call_responders ++
          responderRows ((db.seq_calls : Int) + 1) roles db.seq_call_responders 0 rIDs := by
      rw [hdb]
    refine ⟨⟨_, hrows, ?_, ?_⟩, ?_⟩
    · intro x hx
      rw [hid]
      exact (mem_responderRows _ _ _ _ _ x hx).1
    · rw [responderRows_pairs]
      rfl
    · intro hfresh
      rw [hrows, hid, List.filter_append, responderRows_callID]
      have : db.call_responders.filter (fun x => x.CallID = (db.seq_calls : Int) + 1) = [] := by
        rw [List.filter_eq_nil_iff]
        intro x hx
        have := hfresh x hx
        rw [hid] at this
        simpa using this
      rw [this, List.nil_append, responderRows_pairs]
      rfl
  · intro hok
    obtain ⟨-, -, hdb⟩ := UpdateCall_ok db now call aIDs rIDs roles hok
    have hrows : (UpdateCall db now call aIDs rIDs roles).1.call_responders =
        db.call_responders.filter (fun r => r.CallID ≠ call.ID) ++
          responderRows call.ID roles db.seq_call_responders 0 rIDs := by
      rw [hdb]
    rw [hrows, List.filter_append, responderRows_callID, List.filter_filter]
    have : db.call_responders.filter
        (fun x => decide (x.CallID = call.ID) && decide (x.CallID ≠ call.ID)) = [] := by
      rw [List.filter_eq_nil_iff]
      intro x _
      simp
    rw [this, List.nil_append, responderRows_pairs]
    rfl
  · unfold pairedRoles
    rw [List.map_map]
    show (rIDs.enum.map (fun p => p.2)) = rIDs
    exact List.enum_map_snd rIDs
  · intro i hi hr
    unfold pairedRoles
    rw [List.map_map, List.getElem?_map, List.enum, List.getElem?_enumFrom]
    simp only [List.getElem?_eq_getElem hi, Option.map_some', Function.comp, Nat.zero_add]
    rw [List.getD_eq_getElem?_getD, List.getElem?_eq_getElem hr]
    rfl
  · intro i hi hr
    unfold pairedRoles
    rw [List.map_map, List.getElem?_map, List.enum, List.getElem?_enumFrom]
    simp only [List.getElem?_eq_getElem hi, Option.map_some', Function.comp, Nat.zero_add]
    rw [List.getD_eq_default _ _ hr]
  · unfold CreateCall
    simp only [insertRespondersLoop_take _ roles rIDs 0 rIDs.length _ (by omega)]
  · unfold UpdateCall
    simp only [insertRespondersLoop_take _ roles rIDs 0 rIDs.length _ (by omega)]

/-- C26 on `sampleDB`: two responders and one role give the pairs
`(2, "Driver")` and `(3, "")`; one responder and two roles give the pair
`(2, "Driver")` alone. -/
theorem responder_roles_paired_witness :
    (CreateCall sampleDB sampleTime sampleCall [1] [2, 3] ["Driver"]).2.2 = none ∧
    ((CreateCall sampleDB sampleTime sampleCall [1] [2, 3] ["Driver"]).1.call_responders.filter
      (fun x => x.CallID =
        (CreateCall sampleDB sampleTime sampleCall [1] [2, 3] ["Driver"]).2.1.ID)).map
        (fun x => (x.ResponderID, x.ResponderRole)) = pairedRoles [2, 3] ["Driver"] ∧
    pairedRoles [2, 3] ["Driver"] = [(2, "Driver"), (3, "")] ∧
    (UpdateCall sampleDB1 sampleTime { sampleCall with ID := 1 } [] [2] ["Driver", "Officer"]).2 =
      none ∧
    ((UpdateCall sampleDB1 sampleTime { sampleCall with ID := 1 } [] [2]
      ["Driver", "Officer"]).1.call_responders.filter (fun x => x.CallID = 1)).map
        (fun x => (x.ResponderID, x.ResponderRole)) = pairedRoles [2] ["Driver", "Officer"] ∧
    pairedRoles [2] ["Driver", "Officer"] = [(2, "Driver")] :=
  ⟨by decide,
    ((responder_roles_paired sampleDB sampleTime sampleCall [1] [2, 3] ["Driver"]).1
      (by decide)).2 (by decide),
    by decide, by decide,
    (responder_roles_paired sampleDB1 sampleTime { sampleCall with ID := 1 } [] [2]
      ["Driver", "Officer"]).2.1 (by decide),
    by decide⟩

theorem apparatusRows_other (callID : Int) (l : List Int) (seq : Nat) :
    (apparatusRows callID seq l).filter (fun x => x.CallID ≠ callID) = [] := by
  rw [List.filter_eq_nil_iff]
  intro x hx
  simpa using (mem_apparatusRows callID l seq x hx).1

theorem responderRows_other (callID : Int) (roles : List String) (l : List Int) (seq i : Nat) :
    (responderRows callID roles seq i l).filter (fun x => x.CallID ≠ callID) = [] := by
  rw [List.filter_eq_nil_iff]
  intro x hx
  simpa using (mem_responderRows callID roles l seq i x hx).1

/-- C27: `UpdateCall` keeps the id, the creator and the creation time of
every call row, in place; the call rows with another id, the apparatus and
responder associations of every other call, and the users, picklists and
settings are unchanged.  This holds for every database and input, whether the
update returns nil or an error. -/
theorem UpdateCall_frame (db : Store) (now : Time) (call : Call) (aIDs rIDs : List Int)
    (roles : List String) :
    (UpdateCall db now call aIDs rIDs roles).1.calls.map
        (fun c => (c.ID, c.CreatedBy, c.CreatedAt)) =
      db.calls.map (fun c => (c.ID, c.CreatedBy, c.CreatedAt)) ∧
    (UpdateCall db now call aIDs rIDs roles).1.calls.filter (fun c => c.ID ≠ call.ID) =
      db.calls.filter (fun c => c.ID ≠ call.ID) ∧
    (UpdateCall db now call aIDs rIDs roles).1.call_apparatus.filter
        (fun x => x.CallID ≠ call.ID) =
      db.call_apparatus.filter (fun x => x.CallID ≠ call.ID) ∧
    (UpdateCall db now call aIDs rIDs roles).1.call_responders.filter
        (fun x => x.CallID ≠ call.ID) =
      db.call_responders.filter (fun x => x.CallID ≠ call.ID) ∧
    (UpdateCall db now call aIDs rIDs roles).1.users = db.users ∧
    (UpdateCall db now call aIDs rIDs roles).1.picklists = db.picklists ∧
    (UpdateCall db now call aIDs rIDs roles).1.settings = db.settings := by
  cases herr : (UpdateCall db now call aIDs rIDs roles).2 with
  | some e =>
    rw [UpdateCall_error db now call aIDs rIDs roles (by simp [herr])]
    exact ⟨rfl, rfl, rfl, rfl, rfl, rfl, rfl⟩
  | none =>
    obtain ⟨-, -, hdb⟩ := UpdateCall_ok db now call aIDs rIDs roles herr
    rw [hdb]
    refine ⟨?_, ?_, ?_, ?_, rfl, rfl, rfl⟩
    · show (db.calls.map _).map _ = _
      rw [List.map_map]
      apply List.map_congr_left
      intro c _
      simp only [Function.comp]
      split <;> rfl
    · show (db.calls.map _).filter _ = _
      rw [List.filter_map]
      have hpred : ((fun (c : Call) => decide (c.ID ≠ call.ID)) ∘ fun (c : Call) =>
          if c.ID = call.ID then
            { c with
              IncidentNumber := call.IncidentNumber, CallType := call.CallType,
              MutualAid := call.MutualAid, Address := call.Address, Town := call.Town,
              LocationNotes := call.LocationNotes, Dispatched := call.Dispatched,
              Enroute := call.Enroute, OnScene := call.OnScene, Clear := call.Clear,
              Narrative := call.Narrative, UpdatedAt := now }
          else c) = fun c => decide (c.ID ≠ call.ID) := by
        funext c
        simp only [Function.comp]
        split <;> rfl
      rw [hpred]
      conv_rhs => rw [← List.map_id (db.calls.filter (fun c => c.ID ≠ call.ID))]
      apply List.map_congr_left
      intro c hc
      have hne : c.ID ≠ call.ID := by simpa using (List.mem_filter.1 hc).2
      rw [if_neg hne]
      rfl
    · show List.filter _ (_ ++ _) = _
      rw [List.filter_append, apparatusRows_other, List.append_nil, List.filter_filter]
      simp
    · show List.filter _ (_ ++ _) = _
      rw [List.filter_append, responderRows_other, List.append_nil, List.filter_filter]
      simp

/-! ## `parseTimeLimit` and the edit window -/

theorem scan_digit_facts :
    ∀ c ∈ "0123456789".data,
      fmtIsSpace c = false ∧ c ≠ '\r' ∧ c ≠ '\n' ∧ c ≠ '-' ∧ c ≠ '+' ∧ c.isDigit = true := by
  decide

theorem toDigits_ne_nil (n : Nat) : Nat.toDigits 10 n ≠ [] := by
  by_cases h : n < 10
  · rw [toDigits_small n h]
    exact List.cons_ne_nil _ _
  · rw [toDigits_step n (by omega)]
    simp

theorem takeWhile_append_stop {α : Type} (p : α → Bool) :
    ∀ (ds rest : List α), (∀ c ∈ ds, p c = true) → (∀ c, rest.head? = some c → p c = false) →
      (ds ++ rest).takeWhile p = ds
  | [], [], _, _ => rfl
  | [], c :: r, _, h => by
    rw [List.nil_append, List.takeWhile_cons, h c rfl]
    rfl
  | d :: ds, rest, hd, h => by
    rw [List.cons_append, List.takeWhile_cons, hd d (List.mem_cons_self _ _)]
    simp only [if_true]
    rw [takeWhile_append_stop p ds rest (fun c hc => hd c (List.mem_cons_of_mem _ hc)) h]

/-- The body of `sscanfD` after the white space, for a text that does not
begin with a sign. -/
theorem sscanfD_unsigned (c : Char) (t : List Char)
    (hskip : fmtSkipSpace (c :: t) = some (c :: t)) (hm : c ≠ '-') (hp : c ≠ '+') :
    sscanfD (c :: t) =
      if (c :: t).takeWhile Char.isDigit = [] then 0
      else if -(2 : Int) ^ 63 ≤ (digitsVal ((c :: t).takeWhile Char.isDigit) : Int) ∧
          (digitsVal ((c :: t).takeWhile Char.isDigit) : Int) < (2 : Int) ^ 63 then
        (digitsVal ((c :: t).takeWhile Char.isDigit) : Int)
      else 0 := by
  obtain ⟨sg, hsg, hbody⟩ : ∃ sg : Bool × List Char, sg = (false, c :: t) ∧
      sscanfD (c :: t) =
        (if sg.2.takeWhile Char.isDigit = [] then 0
         else if -(2 : Int) ^ 63 ≤
              (if sg.1 then - (digitsVal (sg.2.takeWhile Char.isDigit) : Int)
                else (digitsVal (sg.2.takeWhile Char.isDigit) : Int)) ∧
            (if sg.1 then - (digitsVal (sg.2.takeWhile Char.isDigit) : Int)
                else (digitsVal (sg.2.takeWhile Char.isDigit) : Int)) < (2 : Int) ^ 63 then
           (if sg.1 then - (digitsVal (sg.2.takeWhile Char.isDigit) : Int)
                else (digitsVal (sg.2.takeWhile Char.isDigit) : Int))
         else 0) := by
    refine ⟨match c :: t with
      | '-' :: t => (true, t)
      | '+' :: t => (false, t)
      | t => (false, t), ?_, ?_⟩
    · split
      · rename_i heq
        exact absurd (List.cons.inj heq).1 hm
      · rename_i heq
        exact absurd (List.cons.inj heq).1 hp
      · rfl
    · unfold sscanfD
      rw [hskip]
  rw [hbody, hsg]
  simp only [Bool.false_eq_true, if_false]

/-- What `Sscanf` with `%d` reads from the decimal digits of `N` followed by
something that does not go on with a digit. -/
theorem sscanfD_digits (N : Nat) (rest : List Char)
    (hrest : ∀ c, rest.head? = some c → c.isDigit = false) (hN : (N : Int) < (2 : Int) ^ 63) :
    sscanfD (Nat.toDigits 10 N ++ rest) = (N : Int) := by
  have hmem := toDigits_mem N
  have hne := toDigits_ne_nil N
  have htake : (Nat.toDigits 10 N ++ rest).takeWhile Char.isDigit = Nat.toDigits 10 N :=
    takeWhile_append_stop _ _ _ (fun c hc => (scan_digit_facts c (hmem c hc)).2.2.2.2.2) hrest
  have hval := digitsVal_toDigits N
  cases hd : Nat.toDigits 10 N with
  | nil => exact absurd hd hne
  | cons d ds =>
    rw [hd] at hmem htake hval
    have hfacts := scan_digit_facts d (hmem d (List.mem_cons_self _ _))
    have hskip : fmtSkipSpace (d :: (ds ++ rest)) = some (d :: (ds ++ rest)) := by
      rw [fmtSkipSpace, if_neg (fun h => hfacts.2.1 h.1), if_neg hfacts.2.2.1, hfacts.1]
      rfl
    rw [List.cons_append] at htake ⊢
    rw [sscanfD_unsigned d (ds ++ rest) hskip hfacts.2.2.2.1 hfacts.2.2.2.2.1, htake, hval,
      if_neg (List.cons_ne_nil _ _), if_pos ⟨by omega, hN⟩]

/-- What `Sscanf` with `%d` reads from a text whose first character is
neither white space nor a sign nor a digit: nothing. -/
theorem sscanfD_other (c : Char) (r : List Char) (hs : fmtIsSpace c = false)
    (hm : c ≠ '-') (hp : c ≠ '+') (hd : c.isDigit = false) : sscanfD (c :: r) = 0 := by
  have hn : c ≠ '\n' := by
    intro h
    rw [h] at hs
    exact absurd hs (by decide)
  have hr : c ≠ '\r' := by
    intro h
    rw [h] at hs
    exact absurd hs (by decide)
  have hskip : fmtSkipSpace (c :: r) = some (c :: r) := by
    rw [fmtSkipSpace, if_neg (fun h => hr h.1), if_neg hn, hs]
    rfl
  rw [sscanfD_unsigned c r hskip hm hp, List.takeWhile_cons, hd]
  rfl

/-- What `parseTimeLimit` returns for a text that begins with the decimal
digits of `N`, not followed by a further digit: `N`, as long as it fits 64
bits. -/
theorem parseTimeLimit_digits (N : Nat) (rest : List Char)
    (hrest : ∀ c, rest.head? = some c → c.isDigit = false) (hN : N ≤ 153722867) :
    parseTimeLimit (String.mk (Nat.toDigits 10 N ++ rest)) = (N : Int) := by
  unfold parseTimeLimit
  apply sscanfD_digits N rest hrest
  have e63 : (2 : Int) ^ 63 = 9223372036854775808 := by norm_num
  rw [e63]
  omega

/-- What `parseTimeLimit` returns for a text whose first character is neither
white space nor a sign nor a digit: 0. -/
theorem parseTimeLimit_other (c : Char) (r : List Char) (hs : fmtIsSpace c = false)
    (hm : c ≠ '-') (hp : c ≠ '+') (hd : c.isDigit = false) :
    parseTimeLimit (String.mk (c :: r)) = 0 :=
  sscanfD_other c r hs hm hp hd

/-- The function `parseTimeLimit` on sample values: a leading number is read
and what follows it is ignored. -/
theorem parseTimeLimit_samples :
    parseTimeLimit "30" = 30 ∧ parseTimeLimit "45abc" = 45 ∧ parseTimeLimit "abc" = 0 ∧
    parseTimeLimit "" = 0 ∧ parseTimeLimit "0" = 0 ∧ parseTimeLimit "-5" = -5 := by
  decide

/-- C25, on the code: `CanUserEditCall` uses no edit window.  Its statement
`SELECT role FROM users` fails before the setting `edit_time_limit_minutes` is
read, so its answer is false with an error on every database and is the same
whatever the table `settings` holds.  On `sampleDB1` the setting is the seeded
`30` and call 1 was created by user 2 at `sampleTime`; one minute later, inside
the window of 30 minutes that the claim gives, the creator is denied. -/
theorem CanUserEditCall_uses_no_window :
    (∀ (db : Store) (now : Time) (callID userID : Int),
      (CanUserEditCall db now callID userID).1 = false ∧
      (CanUserEditCall db now callID userID).2 ≠ none) ∧
    (∀ (db : Store) (settings : List Setting) (now : Time) (callID userID : Int),
      CanUserEditCall { db with settings := settings } now callID userID =
        CanUserEditCall db now callID userID) ∧
    selectSetting sampleDB1 "edit_time_limit_minutes" = .ok "30" ∧
    sampleDB1.calls.map (fun c => (c.ID, c.CreatedBy, c.CreatedAt)) = [(1, 2, sampleTime)] ∧
    timeSince sampleTimeMinute sampleTime = 1 * timeMinute ∧
    CanUserEditCall sampleDB1 sampleTimeMinute 1 2 =
      (false, some (.noSuchColumn "users" "role")) := by
  refine ⟨?_, ?_, by decide, by decide, by decide, by decide⟩
  · intro db now callID userID
    unfold CanUserEditCall
    split
    · exact ⟨rfl, by simp⟩
    · simp [selectUsersText_role]
  · intro db settings now callID userID
    unfold CanUserEditCall
    simp only [selectUsersText_role]

/-! ## The size of a `CAST` -/
theorem digitVal_le_of_isDigit (c : Char) (h : c.isDigit = true) : digitVal c ≤ 9 := by
  unfold Char.isDigit at h
  simp only [Bool.and_eq_true, decide_eq_true_eq, ge_iff_le] at h
  have h2 : c.val.toNat ≤ 57 := h.2
  unfold digitVal Char.toNat
  have : '0'.val.toNat = 48 := by decide
  rw [this]
  omega

theorem digitsVal_foldl_bound :
    ∀ (ds : List Char) (acc : Nat), (∀ c ∈ ds, c.isDigit = true) →
      ds.foldl (fun acc c => acc * 10 + digitVal c) acc + 1 ≤ (acc + 1) * 10 ^ ds.length
  | [], acc, _ => by simp
  | d :: ds, acc, h => by
    rw [List.foldl_cons, List.length_cons]
    have ih := digitsVal_foldl_bound ds (acc * 10 + digitVal d)
      (fun c hc => h c (List.mem_cons_of_mem _ hc))
    have hd := digitVal_le_of_isDigit d (h d (List.mem_cons_self _ _))
    calc ds.foldl (fun acc c => acc * 10 + digitVal c) (acc * 10 + digitVal d) + 1
        ≤ (acc * 10 + digitVal d + 1) * 10 ^ ds.length := ih
      _ ≤ ((acc + 1) * 10) * 10 ^ ds.length := Nat.mul_le_mul_right _ (by omega)
      _ = (acc + 1) * 10 ^ (ds.length + 1) := by rw [pow_succ]; ring

theorem digitsVal_takeWhile_lt (l : List Char) :
    digitsVal (l.takeWhile Char.isDigit) < 10 ^ l.length := by
  have h := digitsVal_foldl_bound (l.takeWhile Char.isDigit) 0
    (fun c hc => List.mem_takeWhile_imp hc)
  have hl : (l.takeWhile Char.isDigit).length ≤ l.length :=
    (List.takeWhile_sublist _).length_le
  have hp : 10 ^ (l.takeWhile Char.isDigit).length ≤ 10 ^ l.length :=
    Nat.pow_le_pow_right (by omega) hl
  unfold digitsVal
  omega

/-- SQLite's `CAST` of at most three characters is at most 999. -/
theorem castInteger_le (l : List Char) (h : l.length ≤ 3) : castInteger l ≤ 999 := by
  have hdrop : (l.dropWhile sqliteIsSpace).length ≤ 3 :=
    le_trans (List.dropWhile_sublist _).length_le h
  have key : ∀ r : List Char, r.length ≤ 3 → (digitsVal (r.takeWhile Char.isDigit) : Int) ≤ 999 := by
    intro r hr
    have h1 := digitsVal_takeWhile_lt r
    have h2 : 10 ^ r.length ≤ 10 ^ 3 := Nat.pow_le_pow_right (by omega) hr
    omega
  unfold castInteger
  split
  · rename_i r _
    have : (0 : Int) ≤ (digitsVal (r.takeWhile Char.isDigit) : Int) := Int.ofNat_nonneg _
    omega
  · rename_i r heq
    rw [heq] at hdrop
    exact key r (by simp at hdrop; omega)
  · rename_i r _ _
    exact key _ hdrop

/-! ## `GetNextCallNumber` on any database -/

theorem sprintfD_literal (Y : Int) : ∀ c ∈ sprintfD Y ++ ['-'], c ∈ "0123456789-".data := by
  intro c hc
  rcases List.mem_append.1 hc with hc | hc
  · unfold sprintfD at hc
    split at hc
    · rcases List.mem_cons.1 hc with h | h
      · rw [h]
        decide
      · exact (digit_facts c (toDigits_mem _ c h)).1
    · exact (digit_facts c (toDigits_mem _ c hc)).1
  · rw [List.mem_singleton.1 hc]
    decide

/-- The `WHERE` clause of `GetNextCallNumber` selects the numbers that begin
with the year and a dash and have 8 characters, for every year. -/
theorem whereClause_iff (Y : Int) (s : String) :
    (likeMatch ((sprintfD Y ++ ['-']) ++ ['%']) s.data && s.length == 8) = true ↔
      ScannedFor Y s := by
  unfold ScannedFor
  rw [Bool.and_eq_true, beq_iff_eq]
  have hlen : (sprintfD Y ++ ['-']).length = (sprintfD Y).length + 1 := by simp
  constructor
  · rintro ⟨h1, h2⟩
    have := likeMatch_literal_take _ _ (sprintfD_literal Y) h1
    rw [hlen] at this
    exact ⟨this, h2⟩
  · rintro ⟨h1, h2⟩
    refine ⟨?_, h2⟩
    have hs : s.data = (sprintfD Y ++ ['-']) ++ s.data.drop ((sprintfD Y).length + 1) := by
      conv_lhs => rw [← List.take_append_drop ((sprintfD Y).length + 1) s.data, h1]
    rw [hs]
    exact likeMatch_literal_self _ _ (sprintfD_literal Y)

theorem GetNextCallNumber_scanned (db : Store) (Y : Int) :
    GetNextCallNumber db Y =
      .ok (String.mk ((sprintfD Y ++ ['-']) ++
        sprintf03d (coalesceMax
          ((db.calls.filter (fun c => ScannedFor Y c.IncidentNumber)).map
            (fun c => castInteger (c.IncidentNumber.data.drop 5))) + 1))) := by
  have hf : (fun (c : Call) =>
      likeMatch ((sprintfD Y ++ ['-']) ++ ['%']) c.IncidentNumber.data &&
        c.IncidentNumber.length == 8) = fun c => decide (ScannedFor Y c.IncidentNumber) := by
    funext c
    rw [Bool.eq_iff_iff, whereClause_iff, decide_eq_true_iff]
  unfold GetNextCallNumber
  simp only [hf]

theorem numberOf_scanned (Y : Int) (h4 : (sprintfD Y).length = 4) (k : Nat) (hk : k ≤ 999) :
    ScannedFor Y (numberOf Y k) := by
  refine ⟨numberOf_ofYear Y k, ?_⟩
  show (numberOf Y k).data.length = 8
  rw [numberOf_data, List.length_append, List.length_append, h4, sprintf03d_length k hk]
  rfl

theorem numberOf_1000_not_scanned (Y : Int) (h4 : (sprintfD Y).length = 4) :
    ¬ ScannedFor Y (numberOf Y 1000) := by
  intro h
  have h8 : (numberOf Y 1000).data.length = 8 := h.2
  rw [numberOf_data, List.length_append, List.length_append, h4,
    sprintf03d_length_4 1000 (by omega) (by omega)] at h8
  simp at h8

/-- With `Y-999` stored, the next number of a year that prints as four
characters is `Y-1000`. -/
theorem GetNextCallNumber_after_999 (db : Store) (Y : Int) (h4 : (sprintfD Y).length = 4)
    (h : ∃ c ∈ db.calls, c.IncidentNumber = numberOf Y 999) :
    GetNextCallNumber db Y = .ok (numberOf Y 1000) := by
  rw [GetNextCallNumber_scanned]
  have hcast : castInteger ((numberOf Y 999).data.drop 5) = 999 := by
    rw [numberOf_data]
    have : (5 : Nat) = (sprintfD Y ++ ['-']).length := by simp [h4]
    rw [this, List.drop_left, castInteger_sprintf03d]
    rfl
  have key : coalesceMax
      ((db.calls.filter (fun c => ScannedFor Y c.IncidentNumber)).map
        (fun c => castInteger (c.IncidentNumber.data.drop 5))) = 999 := by
    apply coalesceMax_eq
    · obtain ⟨c, hc, hnum⟩ := h
      rw [List.mem_map]
      refine ⟨c, List.mem_filter.2 ⟨hc, ?_⟩, by rw [hnum, hcast]⟩
      rw [hnum]
      simpa using numberOf_scanned Y h4 999 (le_refl _)
    · intro x hx
      rw [List.mem_map] at hx
      obtain ⟨c, hc, rfl⟩ := hx
      have hs : ScannedFor Y c.IncidentNumber := by simpa using (List.mem_filter.1 hc).2
      apply castInteger_le
      have h8 : c.IncidentNumber.data.length = 8 := hs.2
      rw [List.length_drop, h8]
  rw [key]
  rfl

/-- C28: for a year `Y` for which `Y-999` has 8 characters and a database
that holds `Y-999`, the largest number an 8-character incident number of the
year can bear, `GetNextCallNumber` returns `Y-1000`, which has 9 characters;
it still returns `Y-1000` after calls with the number `Y-1000` have been
stored; and two successive successful `CreateCall`s with an empty incident
number, dispatched in year `Y`, both get and store `Y-1000`. -/
theorem numbering_past_999 (db : Store) (Y : Int) (h8 : (numberOf Y 999).length = 8)
    (h : ∃ c ∈ db.calls, c.IncidentNumber = numberOf Y 999) :
    (∀ c ∈ db.calls, ScannedFor Y c.IncidentNumber →
      castInteger (c.IncidentNumber.data.drop 5) ≤ 999) ∧
    GetNextCallNumber db Y = .ok (numberOf Y 1000) ∧
    (numberOf Y 1000).length = 9 ∧
    numberOf Y 1000 = String.mk (sprintfD Y ++ "-1000".data) ∧
    (∀ db' : Store, (∃ rows : List Call, db'.calls = db.calls ++ rows ∧
        ∀ r ∈ rows, r.IncidentNumber = numberOf Y 1000) →
      GetNextCallNumber db' Y = .ok (numberOf Y 1000)) ∧
    (∀ (now1 now2 : Time) (call1 call2 : Call) (a1 r1 a2 r2 : List Int)
        (roles1 roles2 : List String),
      call1.IncidentNumber = "" → call1.Dispatched.Year = Y →
      call2.IncidentNumber = "" → call2.Dispatched.Year = Y →
      (CreateCall db now1 call1 a1 r1 roles1).2.2 = none →
      (CreateCall (CreateCall db now1 call1 a1 r1 roles1).1 now2 call2 a2 r2 roles2).2.2 =
        none →
      (CreateCall db now1 call1 a1 r1 roles1).2.1.IncidentNumber = numberOf Y 1000 ∧
      (CreateCall (CreateCall db now1 call1 a1 r1 roles1).1 now2 call2 a2 r2
        roles2).2.1.IncidentNumber = numberOf Y 1000 ∧
      (CreateCall (CreateCall db now1 call1 a1 r1 roles1).1 now2 call2 a2 r2
        roles2).1.calls.map (fun c => c.IncidentNumber) =
        db.calls.map (fun c => c.IncidentNumber) ++ [numberOf Y 1000, numberOf Y 1000]) := by
  have h4 : (sprintfD Y).length = 4 := by
    have h8' : (numberOf Y 999).data.length = 8 := h8
    rw [numberOf_data, List.length_append, List.length_append,
      sprintf03d_length 999 (le_refl _)] at h8'
    simp only [List.length_singleton] at h8'
    omega
  have hkeep : ∀ db' : Store, (∃ rows : List Call, db'.calls = db.calls ++ rows ∧
      ∀ r ∈ rows, r.IncidentNumber = numberOf Y 1000) →
      GetNextCallNumber db' Y = .ok (numberOf Y 1000) := by
    rintro db' ⟨rows, hrows, _⟩
    apply GetNextCallNumber_after_999 db' Y h4
    obtain ⟨c, hc, hnum⟩ := h
    exact ⟨c, by rw [hrows]; exact List.mem_append_left _ hc, hnum⟩
  refine ⟨?_, GetNextCallNumber_after_999 db Y h4 h, ?_, ?_, hkeep, ?_⟩
  · intro c _ hs
    apply castInteger_le
    have h8 : c.IncidentNumber.data.length = 8 := hs.2
    rw [List.length_drop, h8]
  · show (numberOf Y 1000).data.length = 9
    rw [numberOf_data, List.length_append, List.length_append, h4,
      sprintf03d_length_4 1000 (by omega) (by omega)]
    rfl
  · have e : sprintf03d ((1000 : Nat) : Int) = "1000".data := by decide
    unfold numberOf
    rw [e]
    simp
  · intro now1 now2 call1 call2 a1 r1 a2 r2 roles1 roles2 hn1 hy1 hn2 hy2 hok1 hok2
    obtain ⟨num1, hnum1, -, -, -, hcall1, hdb1⟩ := CreateCall_ok db now1 call1 a1 r1 roles1 hok1
    rw [if_pos hn1, hy1, GetNextCallNumber_after_999 db Y h4 h] at hnum1
    have e1 : num1 = numberOf Y 1000 := (Except.ok.inj hnum1).symm
    have hcalls1 : (CreateCall db now1 call1 a1 r1 roles1).1.calls = db.calls ++
        [{ call1 with IncidentNumber := num1, ID := (db.seq_calls : Int) + 1,
                      CreatedAt := now1, UpdatedAt := now1 }] := by
      rw [hdb1]
    obtain ⟨num2, hnum2, -, -, -, hcall2, hdb2⟩ :=
      CreateCall_ok _ now2 call2 a2 r2 roles2 hok2
    rw [if_pos hn2, hy2, hkeep _ ⟨_, hcalls1, fun r hr => by
      rw [List.mem_singleton.1 hr]
      exact e1⟩] at hnum2
    have e2 : num2 = numberOf Y 1000 := (Except.ok.inj hnum2).symm
    refine ⟨by rw [hcall1, e1], by rw [hcall2, e2], ?_⟩
    rw [hdb2]
    simp only [List.map_append, List.map_cons, List.map_nil, hcalls1, e1, e2,
      List.append_assoc, List.singleton_append]

/-- C28 on `fullYearDB`, whose one call has the number `2026-999`: the next
number is `2026-1000`, and two calls created without a number both get it. -/
theorem numbering_past_999_witness :
    (numberOf 2026 999).length = 8 ∧
    fullYearDB.calls.map (fun c => c.IncidentNumber) = [numberOf 2026 999] ∧
    GetNextCallNumber fullYearDB 2026 = .ok (numberOf 2026 1000) ∧
    numberOf 2026 1000 = "2026-1000" ∧
    (CreateCall (CreateCall fullYearDB sampleTime sampleCall [] [] []).1 sampleTime sampleCall
      [1] [2] ["Driver"]).1.calls.map (fun c => c.IncidentNumber) =
      fullYearDB.calls.map (fun c => c.IncidentNumber) ++
        [numberOf 2026 1000, numberOf 2026 1000] :=
  ⟨by decide, by decide,
    (numbering_past_999 fullYearDB 2026 (by decide) (by decide)).2.1, by decide,
    ((numbering_past_999 fullYearDB 2026 (by decide) (by decide)).2.2.2.2.2 sampleTime
      sampleTime sampleCall sampleCall [] [] [1] [2] [] ["Driver"] rfl rfl rfl rfl (by decide)
      (by decide)).2.2⟩

end CallTracker
